import Mathlib

/-!
# wddx32: partition imaging over MBR/EBR tables

A shallow embedding of `wddx32.c`.  Devices and files are byte lists behind a
handle that carries a file pointer; the Win32 calls `ReadFile`, `WriteFile` and
`SetFilePointerEx` are functions on handles.  The packed structures `MBR` and
`EBR` are 512-byte buffers read through field accessors at their packed
offsets.  `DWORD` arithmetic is reduced modulo `2^32`, `LONGLONG` arithmetic is
wrapped to the signed 64-bit range.
-/

set_option autoImplicit false

namespace Wddx32

/-! ## Machine types -/

/-- BYTE is an unsigned 8-bit value. -/
abbrev BYTE := Fin 256

/-- The constant `SECTOR_SIZE` of the source. -/
def SECTOR_SIZE : Nat := 512

/-- Reduction of a natural number to a `DWORD` (unsigned 32-bit). -/
def toDWORD (n : Nat) : Nat := n % 2 ^ 32

/-- Reduction of an integer to a `LONGLONG` (two's complement, 64-bit). -/
def toLONGLONG (x : Int) : Int := (x + 2 ^ 63) % 2 ^ 64 - 2 ^ 63

/-! ## The environment: media, handles and the three Win32 calls -/

/-- How the environment answers one call on a handle: it transfers everything
it can, transfers at most `k` bytes, or reports failure (the call returns
`FALSE`). -/
inductive Behaviour where
  | full : Behaviour
  | atMost (k : Nat) : Behaviour
  | fail : Behaviour
deriving DecidableEq, Repr

/-- One call made on a handle, as recorded in its history. -/
inductive Call where
  | read (requested transferred : Nat) : Call
  | write (requested transferred : Nat) : Call
  | seek (offset : Int) : Call
  | failed : Call
deriving DecidableEq, Repr

/-- A device or a file before it is opened: its bytes and the answers the
environment will give to the successive calls on it (once the list is used up
every call is answered `full`). -/
structure Medium where
  data : List BYTE
  script : List Behaviour
deriving DecidableEq, Repr

/-- An open handle: contents, file pointer, remaining environment answers and
the history of the calls made so far. -/
structure HANDLE where
  data : List BYTE
  pos : Nat
  script : List Behaviour
  log : List Call
deriving DecidableEq, Repr

/-- The call `CreateFileA(..., OPEN_EXISTING, ...)` on a medium that exists. -/
def openExisting (m : Medium) : HANDLE :=
  { data := m.data, pos := 0, script := m.script, log := [] }

/-- The call `CreateFileA(..., CREATE_ALWAYS, ...)`: the file starts empty. -/
def createAlways (m : Medium) : HANDLE :=
  { data := [], pos := 0, script := m.script, log := [] }

/-- Number of bytes the environment lets through for a request of `n`. -/
def allowance : Behaviour → Nat → Nat
  | Behaviour.full, n => n
  | Behaviour.atMost k, n => min n k
  | Behaviour.fail, _ => 0

/-- Contents after `w` is stored at byte offset `pos` (a hole left by a seek
past the end reads as zeros; storing nothing changes nothing). -/
def splice (data : List BYTE) (pos : Nat) (w : List BYTE) : List BYTE :=
  match w with
  | [] => data
  | _ :: _ =>
    data.take pos ++ List.replicate (pos - data.length) 0 ++ w ++ data.drop (pos + w.length)

/-- The call `ReadFile(h, buf, n, &bytesRead, NULL)`: `none` when it returns
`FALSE`, otherwise the bytes transferred (fewer than `n` at the end of the
medium or when the environment cuts the transfer short). -/
def ReadFile (h : HANDLE) (n : Nat) : Option (List BYTE) × HANDLE :=
  match h.script.headD Behaviour.full with
  | Behaviour.fail =>
    (none, { h with script := h.script.tail, log := h.log ++ [Call.failed] })
  | b =>
    let got := (h.data.drop h.pos).take (allowance b n)
    (some got, { h with pos := h.pos + got.length, script := h.script.tail,
                        log := h.log ++ [Call.read n got.length] })

/-- The call `WriteFile(h, buf, n, &bytesWritten, NULL)` with `buf[0..n)` given
as `bytes`: `none` when it returns `FALSE`, otherwise the count written. -/
def WriteFile (h : HANDLE) (bytes : List BYTE) : Option Nat × HANDLE :=
  match h.script.headD Behaviour.full with
  | Behaviour.fail =>
    (none, { h with script := h.script.tail, log := h.log ++ [Call.failed] })
  | b =>
    let w := bytes.take (allowance b bytes.length)
    (some w.length, { h with data := splice h.data h.pos w, pos := h.pos + w.length,
                             script := h.script.tail,
                             log := h.log ++ [Call.write bytes.length w.length] })

/-- The call `SetFilePointerEx(h, off, NULL, FILE_BEGIN)`; `false` when it
returns zero. -/
def SetFilePointerEx (h : HANDLE) (off : Int) : Bool × HANDLE :=
  match h.script.headD Behaviour.full with
  | Behaviour.fail =>
    (false, { h with script := h.script.tail, log := h.log ++ [Call.failed] })
  | _ =>
    if off < 0 then
      (false, { h with script := h.script.tail, log := h.log ++ [Call.failed] })
    else
      (true, { h with pos := off.toNat, script := h.script.tail,
                      log := h.log ++ [Call.seek off] })

/-- A local buffer of `n` bytes after a read that delivered `got` into it:
the bytes not overwritten keep their previous (indeterminate) contents `old`. -/
def overlay (n : Nat) (old got : List BYTE) : List BYTE :=
  (got ++ old.drop got.length ++ List.replicate n 0).take n

/-- Indeterminate initial contents of the local variables `mbr`, `ebr` and
`vbr`, which the source does not initialise. For `ebr` these are the 512 bytes
of memory that start at `&ebr`: the 480 bytes of the structure and the 32
bytes after it, which `WriteFile(..., &ebr, SECTOR_SIZE, ...)` sends as well. -/
structure Uninit where
  mbr : List BYTE
  ebr : List BYTE
  vbr : List BYTE
deriving DecidableEq, Repr

/-! ## The packed structures -/

/-- The record `PARTITION_ENTRY` of the source (16 bytes, packed). -/
structure PARTITION_ENTRY where
  bootIndicator : BYTE
  startHead : BYTE
  startSector : BYTE
  startCylinder : BYTE
  systemID : BYTE
  endHead : BYTE
  endSector : BYTE
  endCylinder : BYTE
  StartingLBA : Nat
  totalSectors : Nat
deriving DecidableEq, Repr

/-- Byte `i` of a buffer. -/
def byteAt (buf : List BYTE) (i : Nat) : BYTE := buf.getD i 0

/-- Little-endian `WORD` at byte offset `off`. -/
def wordAt (buf : List BYTE) (off : Nat) : Nat :=
  (byteAt buf off).val + 256 * (byteAt buf (off + 1)).val

/-- Little-endian `DWORD` at byte offset `off`. -/
def dwordAt (buf : List BYTE) (off : Nat) : Nat :=
  (byteAt buf off).val + 256 * (byteAt buf (off + 1)).val
    + 65536 * (byteAt buf (off + 2)).val + 16777216 * (byteAt buf (off + 3)).val

/-- The `PARTITION_ENTRY` stored at byte offset `off` of a buffer. -/
def entryAt (buf : List BYTE) (off : Nat) : PARTITION_ENTRY :=
  { bootIndicator := byteAt buf off
    startHead := byteAt buf (off + 1)
    startSector := byteAt buf (off + 2)
    startCylinder := byteAt buf (off + 3)
    systemID := byteAt buf (off + 4)
    endHead := byteAt buf (off + 5)
    endSector := byteAt buf (off + 6)
    endCylinder := byteAt buf (off + 7)
    StartingLBA := dwordAt buf (off + 8)
    totalSectors := dwordAt buf (off + 12) }

/-- Byte offset of `partitions[i]` inside an `MBR` (after `bootCode[446]`). -/
def slotOffset (i : Nat) : Nat := 446 + 16 * i

/-- The field `mbr.partitions[i]`. -/
def mbrPartition (mbr : List BYTE) (i : Nat) : PARTITION_ENTRY := entryAt mbr (slotOffset i)

/-- The field `ebr.partition` (first slot of an `EBR`). -/
def ebrPartition (ebr : List BYTE) : PARTITION_ENTRY := entryAt ebr 446

/-- The field `signature` of an `MBR` (bytes 510 and 511 of the packed
structure `bootCode[446]`, `partitions[4]`, `signature`). -/
def signature (buf : List BYTE) : Nat := wordAt buf 510

/-- The value `sizeof(EBR)`: the packed structure `bootCode[446]`, `partition`,
`nextPartition`, `signature` has `446 + 16 + 16 + 2` bytes. -/
def sizeofEBR : Nat := 480

/-- The field `signature` of an `EBR` (bytes 478 and 479 of the packed
structure). -/
def ebrSignature (buf : List BYTE) : Nat := wordAt buf 478

/-- The test `systemID == 0x05 || systemID == 0x0F`. -/
def isExtended (p : PARTITION_ENTRY) : Bool := p.systemID.val == 0x05 || p.systemID.val == 0x0F

/-! ## Messages and results -/

/-- The diagnostics the program prints (informational lines are left out). -/
inductive Msg where
  | failedOpenDrive : Msg
  | failedOpenFile : Msg
  | failedReadMBR : Msg
  | invalidMBRSignature (sig : Nat) : Msg
  | invalidPartitionNumber : Msg
  | emptyPartition : Msg
  | failedSeekEBR : Msg
  | failedReadEBR : Msg
  | invalidEBRSignature (sig : Nat) : Msg
  | failedWriteMBR : Msg
  | failedWriteZero : Msg
  | failedWriteEBR : Msg
  | failedSeekVBR : Msg
  | failedReadVBR : Msg
  | failedWriteVBR : Msg
  | failedReadData : Msg
  | failedWriteData : Msg
  | shortRead (got expected : Nat) : Msg
  | shortWrite (wrote expected : Nat) : Msg
  | notAllCopied (remaining : Int) : Msg
deriving DecidableEq, Repr

/-- What one operation leaves behind: its return value (`none` if the call
never returns), the drive handle, the file handle (`none` if the file was
never opened) and the diagnostics printed, in order. -/
structure Result where
  ret : Option Int
  drive : Option HANDLE
  file : Option HANDLE
  msgs : List Msg
deriving DecidableEq, Repr

/-! ## The loops -/

/-- The loop `while (sectorsToPartition > 0) { WriteFile(h, zeroBuffer, 512); n--; }`:
`false` when a write returns `FALSE`. The count written is not inspected. -/
def writeZeroSectors : Nat → HANDLE → Bool × HANDLE
  | 0, h => (true, h)
  | n + 1, h =>
    match WriteFile h (List.replicate SECTOR_SIZE 0) with
    | (none, h1) => (false, h1)
    | (some _, h1) => writeZeroSectors n h1

/-- How the copy loop was left. -/
inductive LoopExit where
  | done : LoopExit
  | shortRead : LoopExit
  | shortWrite : LoopExit
  | readError : LoopExit
  | writeError : LoopExit
  | running : LoopExit
deriving DecidableEq, Repr

/-- State at the exit of the copy loop. -/
structure CopyState where
  exit : LoopExit
  bytesToCopy : Int
  src : HANDLE
  dst : HANDLE
  msgs : List Msg
deriving DecidableEq, Repr

/-- The request of one iteration,
`toRead = (DWORD)(bytesToCopy > chunkSize ? chunkSize : bytesToCopy)`. -/
def toRead (chunkSize : Nat) (bytesToCopy : Int) : Nat :=
  toDWORD (if bytesToCopy > (chunkSize : Int) then (chunkSize : Int) else bytesToCopy).toNat

/-- The loop `while (bytesToCopy > 0) { ... }` shared by `crtPartImage` and
`wrtImg_Disk_part`, run for at most `fuel` iterations (`running` when the
iterations are used up with bytes still to copy). -/
def copyLoop (chunkSize : Nat) : Nat → Int → HANDLE → HANDLE → CopyState
  | 0, bytesToCopy, src, dst =>
    { exit := if bytesToCopy > 0 then LoopExit.running else LoopExit.done,
      bytesToCopy := bytesToCopy, src := src, dst := dst, msgs := [] }
  | fuel + 1, bytesToCopy, src, dst =>
    if bytesToCopy > 0 then
      let toRead : Nat := toRead chunkSize bytesToCopy
      match ReadFile src toRead with
      | (none, src1) =>
        { exit := LoopExit.readError, bytesToCopy := bytesToCopy, src := src1, dst := dst,
          msgs := [Msg.failedReadData] }
      | (some got, src1) =>
        if got.length ≠ toRead then
          { exit := LoopExit.shortRead, bytesToCopy := bytesToCopy, src := src1, dst := dst,
            msgs := [Msg.shortRead got.length toRead] }
        else
          match WriteFile dst got with
          | (none, dst1) =>
            { exit := LoopExit.writeError, bytesToCopy := bytesToCopy, src := src1, dst := dst1,
              msgs := [Msg.failedWriteData] }
          | (some bytesWritten, dst1) =>
            if bytesWritten ≠ got.length then
              { exit := LoopExit.shortWrite, bytesToCopy := bytesToCopy, src := src1, dst := dst1,
                msgs := [Msg.shortWrite bytesWritten got.length] }
            else
              copyLoop chunkSize fuel (bytesToCopy - (got.length : Int)) src1 dst1
    else
      { exit := LoopExit.done, bytesToCopy := bytesToCopy, src := src, dst := dst, msgs := [] }

/-- The copy loop with the warning that follows it
(`if (bytesToCopy > 0) printf("Warning: Not all data was copied...")`).
Every iteration that continues lowers `bytesToCopy` by at least one when the
chunk size is a positive `DWORD`, so `bytesToCopy` iterations suffice. -/
def copyData (chunkSize : Nat) (bytesToCopy : Int) (src dst : HANDLE) : CopyState :=
  let s := copyLoop chunkSize bytesToCopy.toNat bytesToCopy src dst
  match s.exit with
  | LoopExit.readError => s
  | LoopExit.writeError => s
  | LoopExit.running => s
  | _ =>
    if s.bytesToCopy > 0 then { s with msgs := s.msgs ++ [Msg.notAllCopied s.bytesToCopy] } else s

/-- Return value after the copy loop: 1 from inside the loop on a failed call,
0 otherwise; nothing when the loop does not end. -/
def copyReturn : LoopExit → Option Int
  | LoopExit.readError => some 1
  | LoopExit.writeError => some 1
  | LoopExit.running => none
  | _ => some 0

/-- The chunk size `sizeof(buffer)` with `BYTE buffer[SECTOR_SIZE * 1024]`. -/
def chunkSize : Nat := SECTOR_SIZE * 1024

/-- DWORD subtraction `a - b` (unsigned, modulo `2^32`). -/
def subDWORD (a b : Nat) : Nat := toDWORD (a + (2 ^ 32 - toDWORD b))

/-- The count of zero sectors,
`sectorsToPartition = isLogical ? (partition.StartingLBA - 1) : (partition.StartingLBA - 1)`
(a `DWORD` difference, widened to `LONGLONG`). -/
def sectorsToPartition (isLogical : Bool) (partition : PARTITION_ENTRY) : Nat :=
  if isLogical then subDWORD partition.StartingLBA 1 else subDWORD partition.StartingLBA 1

/-! ## The operations -/

/-- Result of an operation that stops with `return 1` after printing `m`. -/
def abort (hDrive : Option HANDLE) (hFile : Option HANDLE) (m : Msg) : Result :=
  { ret := some 1, drive := hDrive, file := hFile, msgs := [m] }

/-- Lines 207-317 of `crtPartImage`: the image file is created and filled, once
the partition has been located. `mbr` is the local structure and `ebr` the 512
bytes of memory at `&ebr` that `WriteFile(hOut, &ebr, SECTOR_SIZE, ...)` sends
(indeterminate when the partition is not logical). -/
def crtPartImage_emit (u : Uninit) (hDrive : HANDLE) (mbr ebr : List BYTE) (isLogical : Bool)
    (partition : PARTITION_ENTRY) (partitionOffset : Int) (outputPath : Option Medium) : Result :=
  let partitionSize : Int := toLONGLONG ((partition.totalSectors : Int) * (SECTOR_SIZE : Int))
  match outputPath with
  | none => abort (some hDrive) none Msg.failedOpenFile
  | some o =>
    match WriteFile (createAlways o) mbr with
    | (none, hOut) => abort (some hDrive) (some hOut) Msg.failedWriteMBR
    | (some _, hOut) =>
      match writeZeroSectors (sectorsToPartition isLogical partition) hOut with
      | (false, hOut) => abort (some hDrive) (some hOut) Msg.failedWriteZero
      | (true, hOut) =>
        match (if isLogical then WriteFile hOut ebr else (some 0, hOut)) with
        | (none, hOut) => abort (some hDrive) (some hOut) Msg.failedWriteEBR
        | (some _, hOut) =>
          match SetFilePointerEx hDrive partitionOffset with
          | (false, hDrive) => abort (some hDrive) (some hOut) Msg.failedSeekVBR
          | (true, hDrive) =>
            match ReadFile hDrive SECTOR_SIZE with
            | (none, hDrive) => abort (some hDrive) (some hOut) Msg.failedReadVBR
            | (some got, hDrive) =>
              let vbr := overlay SECTOR_SIZE u.vbr got
              match WriteFile hOut vbr with
              | (none, hOut) => abort (some hDrive) (some hOut) Msg.failedWriteVBR
              | (some _, hOut) =>
                let bytesToCopy : Int := toLONGLONG (partitionSize - (SECTOR_SIZE : Int))
                let s := copyData chunkSize bytesToCopy hDrive hOut
                { ret := copyReturn s.exit, drive := some s.src, file := some s.dst,
                  msgs := s.msgs }

/-- The function `crtPartImage(driveNumber, partitionNum, outputPath)`. The
drive is `none` when the physical drive cannot be opened and `outputPath`
is `none` when the output file cannot be created. The EBR is read with
`ReadFile(hDrive, &ebr, sizeof(EBR), ...)`, 480 bytes into the memory at
`&ebr`. -/
def crtPartImage (u : Uninit) (drive : Option Medium) (partitionNum : Int)
    (outputPath : Option Medium) : Result :=
  match drive with
  | none => abort none none Msg.failedOpenDrive
  | some d =>
    match ReadFile (openExisting d) 512 with
    | (none, hDrive) => abort (some hDrive) none Msg.failedReadMBR
    | (some got, hDrive) =>
      let mbr := overlay 512 u.mbr got
      if signature mbr ≠ 0xAA55 then
        abort (some hDrive) none (Msg.invalidMBRSignature (signature mbr))
      else if partitionNum < 0 ∨ partitionNum > 3 then
        abort (some hDrive) none Msg.invalidPartitionNumber
      else
        let partition := mbrPartition mbr partitionNum.toNat
        if partition.totalSectors = 0 then
          abort (some hDrive) none Msg.emptyPartition
        else if isExtended partition then
          let partitionOffset : Int :=
            toLONGLONG ((partition.StartingLBA : Int) * (SECTOR_SIZE : Int))
          match SetFilePointerEx hDrive partitionOffset with
          | (false, hDrive) => abort (some hDrive) none Msg.failedSeekEBR
          | (true, hDrive) =>
            match ReadFile hDrive sizeofEBR with
            | (none, hDrive) => abort (some hDrive) none Msg.failedReadEBR
            | (some got, hDrive) =>
              let ebr := overlay 512 u.ebr got
              if ebrSignature ebr ≠ 0xAA55 then
                abort (some hDrive) none (Msg.invalidEBRSignature (ebrSignature ebr))
              else
                let ebr := ebr.set 446 0x80
                crtPartImage_emit u hDrive mbr ebr true (ebrPartition ebr)
                  (toLONGLONG (partitionOffset + (SECTOR_SIZE : Int))) outputPath
        else
          let mbr := mbr.set (slotOffset partitionNum.toNat) 0x80
          crtPartImage_emit u hDrive mbr (overlay 512 u.ebr []) false partition
            (toLONGLONG ((partition.StartingLBA : Int) * (SECTOR_SIZE : Int))) outputPath

/-- Lines 394-435 of `DumpBootToBin`: the boot sector is read and written out. -/
def DumpBootToBin_emit (u : Uninit) (hDrive : HANDLE) (partitionOffset : Int)
    (bootFilename : Option Medium) : Result :=
  match SetFilePointerEx hDrive partitionOffset with
  | (false, hDrive) => abort (some hDrive) none Msg.failedSeekVBR
  | (true, hDrive) =>
    match ReadFile hDrive SECTOR_SIZE with
    | (none, hDrive) => abort (some hDrive) none Msg.failedReadVBR
    | (some got, hDrive) =>
      let vbr := overlay SECTOR_SIZE u.vbr got
      match bootFilename with
      | none => abort (some hDrive) none Msg.failedOpenFile
      | some o =>
        match WriteFile (createAlways o) vbr with
        | (none, hOut) => abort (some hDrive) (some hOut) Msg.failedWriteVBR
        | (some _, hOut) =>
          { ret := some 0, drive := some hDrive, file := some hOut, msgs := [] }

/-- The function `DumpBootToBin(driveNumber, partitionNumber, bootFilename)`.
The EBR is read with `ReadFile(hDrive, &ebr, sizeof(EBR), ...)`, 480 bytes. -/
def DumpBootToBin (u : Uninit) (drive : Option Medium) (partitionNumber : Int)
    (bootFilename : Option Medium) : Result :=
  match drive with
  | none => abort none none Msg.failedOpenDrive
  | some d =>
    match ReadFile (openExisting d) 512 with
    | (none, hDrive) => abort (some hDrive) none Msg.failedReadMBR
    | (some got, hDrive) =>
      let mbr := overlay 512 u.mbr got
      if signature mbr ≠ 0xAA55 then
        abort (some hDrive) none (Msg.invalidMBRSignature (signature mbr))
      else if partitionNumber < 0 ∨ partitionNumber > 3 then
        abort (some hDrive) none Msg.invalidPartitionNumber
      else
        let partition := mbrPartition mbr partitionNumber.toNat
        if partition.totalSectors = 0 then
          abort (some hDrive) none Msg.emptyPartition
        else if isExtended partition then
          let partitionOffset : Int :=
            toLONGLONG ((partition.StartingLBA : Int) * (SECTOR_SIZE : Int))
          match SetFilePointerEx hDrive partitionOffset with
          | (false, hDrive) => abort (some hDrive) none Msg.failedSeekEBR
          | (true, hDrive) =>
            match ReadFile hDrive sizeofEBR with
            | (none, hDrive) => abort (some hDrive) none Msg.failedReadEBR
            | (some got, hDrive) =>
              let ebr := overlay 512 u.ebr got
              if ebrSignature ebr ≠ 0xAA55 then
                abort (some hDrive) none (Msg.invalidEBRSignature (ebrSignature ebr))
              else
                DumpBootToBin_emit u hDrive
                  (toLONGLONG (partitionOffset + (SECTOR_SIZE : Int))) bootFilename
        else
          DumpBootToBin_emit u hDrive
            (toLONGLONG ((partition.StartingLBA : Int) * (SECTOR_SIZE : Int))) bootFilename

/-- The function `DumpMBRToBin(driveNumber, mbrFilename)`. -/
def DumpMBRToBin (u : Uninit) (drive : Option Medium) (mbrFilename : Option Medium) : Result :=
  match drive with
  | none => abort none none Msg.failedOpenDrive
  | some d =>
    match ReadFile (openExisting d) 512 with
    | (none, hDrive) => abort (some hDrive) none Msg.failedReadMBR
    | (some got, hDrive) =>
      let mbr := overlay 512 u.mbr got
      if signature mbr ≠ 0xAA55 then
        abort (some hDrive) none (Msg.invalidMBRSignature (signature mbr))
      else
        match mbrFilename with
        | none => abort (some hDrive) none Msg.failedOpenFile
        | some o =>
          match WriteFile (createAlways o) mbr with
          | (none, hOut) => abort (some hDrive) (some hOut) Msg.failedWriteMBR
          | (some _, hOut) =>
            { ret := some 0, drive := some hDrive, file := some hOut, msgs := [] }

/-- Lines 675-774 of `wrtImg_Disk_part`: the device is written, once the
partition has been located in the image. `ebr` is the 512 bytes of memory at
`&ebr` that `WriteFile(hDrive, &ebr, SECTOR_SIZE, ...)` sends. -/
def wrtImg_Disk_part_emit (u : Uninit) (hDrive hIn : HANDLE) (mbr ebr : List BYTE)
    (isLogical : Bool) (partition : PARTITION_ENTRY) (partitionOffset : Int) : Result :=
  let partitionSize : Int := toLONGLONG ((partition.totalSectors : Int) * (SECTOR_SIZE : Int))
  match WriteFile hDrive mbr with
  | (none, hDrive) => abort (some hDrive) (some hIn) Msg.failedWriteMBR
  | (some _, hDrive) =>
    match writeZeroSectors (sectorsToPartition isLogical partition) hDrive with
    | (false, hDrive) => abort (some hDrive) (some hIn) Msg.failedWriteZero
    | (true, hDrive) =>
      match (if isLogical then WriteFile hDrive ebr else (some 0, hDrive)) with
      | (none, hDrive) => abort (some hDrive) (some hIn) Msg.failedWriteEBR
      | (some _, hDrive) =>
        match ReadFile hIn SECTOR_SIZE with
        | (none, hIn) => abort (some hDrive) (some hIn) Msg.failedReadVBR
        | (some got, hIn) =>
          let vbr := overlay SECTOR_SIZE u.vbr got
          match SetFilePointerEx hDrive partitionOffset with
          | (false, hDrive) => abort (some hDrive) (some hIn) Msg.failedSeekVBR
          | (true, hDrive) =>
            match WriteFile hDrive vbr with
            | (none, hDrive) => abort (some hDrive) (some hIn) Msg.failedWriteVBR
            | (some _, hDrive) =>
              let bytesToCopy : Int := toLONGLONG (partitionSize - (SECTOR_SIZE : Int))
              let s := copyData chunkSize bytesToCopy hIn hDrive
              { ret := copyReturn s.exit, drive := some s.dst, file := some s.src,
                msgs := s.msgs }

/-- The function `wrtImg_Disk_part(driveNumber, partitionNumber, inputFilename)`.
The drive (the destination) and the image file are `none` when they cannot be
opened. The EBR is read with `ReadFile(hIn, &ebr, sizeof(EBR), ...)`, 480 bytes
from the image, which leaves the image at byte 992 for the read of the boot
sector. -/
def wrtImg_Disk_part (u : Uninit) (drive : Option Medium) (partitionNumber : Int)
    (inputFilename : Option Medium) : Result :=
  match drive with
  | none => abort none none Msg.failedOpenDrive
  | some d =>
    match inputFilename with
    | none => abort (some (openExisting d)) none Msg.failedOpenFile
    | some f =>
      let hDrive := openExisting d
      match ReadFile (openExisting f) 512 with
      | (none, hIn) => abort (some hDrive) (some hIn) Msg.failedReadMBR
      | (some got, hIn) =>
        let mbr := overlay 512 u.mbr got
        if signature mbr ≠ 0xAA55 then
          abort (some hDrive) (some hIn) (Msg.invalidMBRSignature (signature mbr))
        else if partitionNumber < 0 ∨ partitionNumber > 3 then
          abort (some hDrive) (some hIn) Msg.invalidPartitionNumber
        else
          let partition := mbrPartition mbr partitionNumber.toNat
          if partition.totalSectors = 0 then
            abort (some hDrive) (some hIn) Msg.emptyPartition
          else if isExtended partition then
            match ReadFile hIn sizeofEBR with
            | (none, hIn) => abort (some hDrive) (some hIn) Msg.failedReadEBR
            | (some got, hIn) =>
              let ebr := overlay 512 u.ebr got
              if ebrSignature ebr ≠ 0xAA55 then
                abort (some hDrive) (some hIn) (Msg.invalidEBRSignature (ebrSignature ebr))
              else
                let partition := ebrPartition ebr
                wrtImg_Disk_part_emit u hDrive hIn mbr ebr true partition
                  (toLONGLONG ((toDWORD (partition.StartingLBA + 1) : Int) * (SECTOR_SIZE : Int)))
          else
            wrtImg_Disk_part_emit u hDrive hIn mbr (overlay 512 u.ebr []) false partition
              (toLONGLONG ((partition.StartingLBA : Int) * (SECTOR_SIZE : Int)))

/-- The environment answers the next `k` calls on a handle in full. -/
def fullFor (k : Nat) (script : List Behaviour) : Prop :=
  ∀ i, i < k → script.getD i Behaviour.full = Behaviour.full

instance (k : Nat) (script : List Behaviour) : Decidable (fullFor k script) := by
  unfold fullFor
  exact inferInstance

/-! ## Sample media -/

/-- A 16-byte partition entry with the given type, first sector and sector
count (each below 256); the other fields are zero. -/
def sampleEntry (systemID lba total : BYTE) : List BYTE :=
  [0, 0, 0, 0, systemID, 0, 0, 0, lba, 0, 0, 0, total, 0, 0, 0]

/-- A table sector with one entry in slot `i`, the other slots empty, and the
signature bytes `0x55, 0xAA`. -/
def sampleSector (i : Nat) (entry : List BYTE) : List BYTE :=
  List.replicate (446 + 16 * i) 0 ++ entry ++ List.replicate (48 - 16 * i) 0 ++ [0x55, 0xAA]

/-- A four-sector disk: slot 2 holds a primary partition (type 7) that starts
at sector 2 and is 2 sectors long; sector 1 is a gap. -/
def primaryDisk : Medium :=
  { data := sampleSector 2 (sampleEntry 7 2 2) ++ List.replicate 512 0x11
      ++ List.replicate 512 0xEB ++ List.replicate 512 0x22,
    script := [] }

/-- An EBR sector with one entry at byte 446 and the next entry empty. The
bytes `0x55, 0xAA` stand both at 478 and 479, where the packed `EBR` of the
program has its `signature`, and at 510 and 511, the end of the sector. -/
def sampleEbrSector (entry : List BYTE) : List BYTE :=
  List.replicate 446 0 ++ entry ++ List.replicate 16 0 ++ [0x55, 0xAA] ++ List.replicate 30 0
    ++ [0x55, 0xAA]

/-- A three-sector disk: slot 1 is an extended entry (type 0x0F) pointing at
sector 1, which holds a `sampleEbrSector` whose first entry has
`StartingLBA = 3` and one sector; the boot sector of the logical partition is
sector 2. -/
def logicalDisk : Medium :=
  { data := sampleSector 1 (sampleEntry 0x0F 1 3) ++ sampleEbrSector (sampleEntry 7 3 1)
      ++ List.replicate 512 0xEB,
    script := [] }

/-- The same disk with the bytes `0x55, 0xAA` of the EBR sector at its end
only (510 and 511); bytes 478 and 479 are zero. -/
def sectorEbrDisk : Medium :=
  { data := sampleSector 1 (sampleEntry 0x0F 1 3) ++ sampleSector 0 (sampleEntry 7 3 1)
      ++ List.replicate 512 0xEB,
    script := [] }

/-- The same disk with the bytes `0x55, 0xAA` of the EBR sector at 478 and 479
only; the sector ends in zeros. -/
def structEbrDisk : Medium :=
  { data := sampleSector 1 (sampleEntry 0x0F 1 3)
      ++ (List.replicate 446 0 ++ sampleEntry 7 3 1 ++ List.replicate 16 0 ++ [0x55, 0xAA]
        ++ List.replicate 32 0)
      ++ List.replicate 512 0xEB,
    script := [] }

/-- A disk whose first sector does not end in `0x55, 0xAA`. -/
def unsignedDisk : Medium :=
  { data := List.replicate 1024 0, script := [] }

/-- A disk with a valid signature and four empty slots. -/
def emptyTableDisk : Medium :=
  { data := sampleSector 0 (sampleEntry 0 0 0) ++ List.replicate 512 0, script := [] }

/-- A disk whose slot 1 is extended and points at a sector without signature. -/
def badEbrDisk : Medium :=
  { data := sampleSector 1 (sampleEntry 0x0F 1 3) ++ List.replicate 1024 0, script := [] }

/-- A new, empty output file. -/
def emptyFile : Medium := { data := [], script := [] }

/-- A device of `n` zero bytes. -/
def blankDisk (n : Nat) : Medium := { data := List.replicate n 0, script := [] }

/-- Local buffers that happen to start out empty of content. -/
def noUninit : Uninit := { mbr := [], ebr := [], vbr := [] }

/-- A source of 229 bytes that is read without fault. -/
def sampleSource : HANDLE :=
  { data := List.replicate 229 0x5A, pos := 0, script := [], log := [] }

/-- The same source when the environment cuts the second read to 63 bytes. -/
def shortSource : HANDLE :=
  { data := List.replicate 229 0x5A, pos := 0,
    script := [Behaviour.full, Behaviour.atMost 63], log := [] }

/-- An empty sink that is written without fault. -/
def sampleSink : HANDLE := { data := [], pos := 0, script := [], log := [] }

/-- A file that has been written and closed, opened again later: its content
is what the handle held, and no fault is scheduled for it. -/
def reopen (h : HANDLE) : Medium := { data := h.data, script := [] }

/-- Extraction of partition `idx` of `src` into a new file, followed by the
restoration of that file to `dest` with the same index. The result is the one
of `wrtImg_Disk_part`; when the extraction leaves no file the restoration has
no image to open. -/
def roundTrip (u : Uninit) (src dest : Medium) (idx : Int) : Result :=
  wrtImg_Disk_part u (some dest) idx
    ((crtPartImage u (some src) idx (some emptyFile)).file.map reopen)

/-! ## The command line -/

/-- What `main` finds outside the process: the C library function `atoi`, the
indeterminate contents of the local buffers, the physical drive behind each
drive number (`none` when it cannot be opened), and the files behind the paths
given for output (`none` when the file cannot be created) and for input
(`none` when it cannot be opened). -/
structure Env where
  atoi : String → Int
  uninit : Uninit
  drive : Int → Option Medium
  output : String → Option Medium
  input : String → Option Medium

/-- The expression `argv[i]`: a string below `argc`, the null pointer (inner
`none`) at `argc`; reading further is undefined (outer `none`). -/
def argvAt (argv : List String) (i : Nat) : Option (Option String) :=
  if i < argv.length then some argv[i]?
  else if i = argv.length then some none
  else none

/-- The statement `if (strcmp(argv[i], name) == 0) { x = ... argv[++i] ...; }`:
the index after it and, when the name matched, the pointer `argv[++i]`.
`none` when `strcmp` is handed a null pointer or `argv` is read out of
bounds. -/
def takeOption (argv : List String) (name : String) (i : Nat) :
    Option (Nat × Option (Option String)) :=
  match argvAt argv i with
  | some (some s) =>
    if s = name then
      match argvAt argv (i + 1) with
      | some a => some (i + 1, some a)
      | none => none
    else some (i, none)
  | _ => none

/-- The assignment `x = atoi(p)` when the option matched (`atoi` of a null
pointer is undefined), `x` unchanged otherwise. -/
def intValue (atoi : String → Int) (old : Int) : Option (Option String) → Option Int
  | none => some old
  | some none => none
  | some (some s) => some (atoi s)

/-- The assignment `x = p` when the option matched, `x` unchanged otherwise. -/
def stringValue (old : Option String) : Option (Option String) → Option String
  | none => old
  | some p => p

/-- The locals `diskNum`, `partNum`, `type` and `outFile` (or `inpFile`) of a
branch of `main`. -/
structure Options where
  diskNum : Int
  partNum : Int
  type : Option String
  file : Option String

/-- The initial values `diskNum = -1`, `partNum = -1`, `type = NULL`,
`outFile = NULL`. -/
def noOptions : Options := { diskNum := -1, partNum := -1, type := none, file := none }

/-- Body of the option loop of `create` (`--disk`, `--part`, `--output`). -/
def createBody (e : Env) (argv : List String) (i : Nat) (o : Options) : Option (Nat × Options) :=
  match takeOption argv "--disk" i with
  | none => none
  | some (i, a) =>
    match intValue e.atoi o.diskNum a with
    | none => none
    | some diskNum =>
      match takeOption argv "--part" i with
      | none => none
      | some (i, a) =>
        match intValue e.atoi o.partNum a with
        | none => none
        | some partNum =>
          match takeOption argv "--output" i with
          | none => none
          | some (i, a) =>
            some (i, { diskNum := diskNum, partNum := partNum, type := o.type,
                       file := stringValue o.file a })

/-- Body of the option loop of `dumpmeta` (`--disk`, `--type`, `--part`,
`--output`). -/
def dumpmetaBody (e : Env) (argv : List String) (i : Nat) (o : Options) :
    Option (Nat × Options) :=
  match takeOption argv "--disk" i with
  | none => none
  | some (i, a) =>
    match intValue e.atoi o.diskNum a with
    | none => none
    | some diskNum =>
      match takeOption argv "--type" i with
      | none => none
      | some (i, t) =>
        match takeOption argv "--part" i with
        | none => none
        | some (i, a) =>
          match intValue e.atoi o.partNum a with
          | none => none
          | some partNum =>
            match takeOption argv "--output" i with
            | none => none
            | some (i, a) =>
              some (i, { diskNum := diskNum, partNum := partNum, type := stringValue o.type t,
                         file := stringValue o.file a })

/-- Body of the option loop of `write` (`--disk`, `--part`, `--input`). -/
def writeBody (e : Env) (argv : List String) (i : Nat) (o : Options) : Option (Nat × Options) :=
  match takeOption argv "--disk" i with
  | none => none
  | some (i, a) =>
    match intValue e.atoi o.diskNum a with
    | none => none
    | some diskNum =>
      match takeOption argv "--part" i with
      | none => none
      | some (i, a) =>
        match intValue e.atoi o.partNum a with
        | none => none
        | some partNum =>
          match takeOption argv "--input" i with
          | none => none
          | some (i, a) =>
            some (i, { diskNum := diskNum, partNum := partNum, type := o.type,
                       file := stringValue o.file a })

/-- The loop `for (int i = 2; i < argc-1; ++i) { body }`, started at `i` and run
for at most `fuel` iterations; `i` grows in every iteration, so `argc`
iterations suffice. `none` when the body runs into undefined behaviour. -/
def optionLoop (body : Nat → Options → Option (Nat × Options)) (argc : Nat) :
    Nat → Nat → Options → Option Options
  | 0, _, o => some o
  | fuel + 1, i, o =>
    if i + 1 < argc then
      match body i o with
      | none => none
      | some (i, o) => optionLoop body argc fuel (i + 1) o
    else some o

/-- What a run of `main` comes to: the value it returns (`none` when the run is
undefined or does not return) and the result of the partition operation it
called, if it called one. -/
structure Outcome where
  exit : Option Int
  op : Option Result

/-- The statement `operation(...); ... return 0;` of `main`: the value that the
operation returns is not used. -/
def callThenReturn0 (r : Result) : Outcome :=
  { exit := match r.ret with
            | none => none
            | some _ => some 0,
    op := some r }

/-- The function `main(argc, argv)` with `argc = argv.length`. The functions
`list_disks`, `crtFullDiskImage` and `wrtImg_Disk` return nothing and always
return; what they do to the drives is left out. -/
def main (e : Env) (argv : List String) : Outcome :=
  match argvAt argv 1 with
  | some (some cmd) =>
    if cmd = "help" then { exit := some 0, op := none }
    else if cmd = "list" then { exit := some 0, op := none }
    else if cmd = "create" then
      match optionLoop (createBody e argv) argv.length argv.length 2 noOptions with
      | none => { exit := none, op := none }
      | some o =>
        if o.diskNum ≥ 0 ∧ o.partNum ≥ 0 ∧ o.file ≠ none then
          match o.file with
          | none => { exit := none, op := none }
          | some outFile =>
            callThenReturn0 (crtPartImage e.uninit (e.drive o.diskNum) o.partNum (e.output outFile))
        else if o.diskNum ≥ 0 ∧ o.file ≠ none then { exit := some 0, op := none }
        else { exit := some 1, op := none }
    else if cmd = "dumpmeta" then
      match optionLoop (dumpmetaBody e argv) argv.length argv.length 2 noOptions with
      | none => { exit := none, op := none }
      | some o =>
        match o.type with
        | none => { exit := none, op := none }
        | some type =>
          if type = "mbr" ∧ o.partNum < 0 ∧ o.file ≠ none then
            match o.file with
            | none => { exit := none, op := none }
            | some outFile =>
              callThenReturn0 (DumpMBRToBin e.uninit (e.drive o.diskNum) (e.output outFile))
          else if type = "boot" ∧ o.partNum ≥ 0 ∧ o.file ≠ none then
            match o.file with
            | none => { exit := none, op := none }
            | some outFile =>
              callThenReturn0
                (DumpBootToBin e.uninit (e.drive o.diskNum) o.partNum (e.output outFile))
          else { exit := some 1, op := none }
    else if cmd = "write" then
      match optionLoop (writeBody e argv) argv.length argv.length 2 noOptions with
      | none => { exit := none, op := none }
      | some o =>
        if o.diskNum ≥ 0 ∧ o.partNum ≥ 0 ∧ o.file ≠ none then
          match o.file with
          | none => { exit := none, op := none }
          | some inpFile =>
            callThenReturn0
              (wrtImg_Disk_part e.uninit (e.drive o.diskNum) o.partNum (e.input inpFile))
        else if o.diskNum ≥ 0 ∧ o.file ≠ none then { exit := some 0, op := none }
        else { exit := some 1, op := none }
    else { exit := some 1, op := none }
  | _ => { exit := none, op := none }

/-- A reading of decimal digits, standing for `atoi` on the sample command
lines. -/
def sampleAtoi (s : String) : Int :=
  (s.data.foldl (fun n c => 10 * n + (c.toNat - 48)) 0 : Nat)

/-- A machine with `primaryDisk` as drive 0 and no other drive; any output
file can be created, no input file exists. -/
def sampleEnv : Env :=
  { atoi := sampleAtoi,
    uninit := noUninit,
    drive := fun n => if n = 0 then some primaryDisk else none,
    output := fun _ => some emptyFile,
    input := fun _ => none }

/-- A four-sector disk: slot 1 is an extended entry (type 0x0F) pointing at
sector 2, which holds a `sampleEbrSector` whose first entry has
`StartingLBA = 1` and one sector; sector 1 is filler and sector 3 is the boot
sector of the logical partition. -/
def farLogicalDisk : Medium :=
  { data := sampleSector 1 (sampleEntry 0x0F 2 2) ++ List.replicate 512 0x11
      ++ sampleEbrSector (sampleEntry 7 1 1) ++ List.replicate 512 0xEB,
    script := [] }

/-- The four diagnostics of the validation steps: invalid MBR signature,
partition number out of range, empty partition, invalid EBR signature. -/
def isValidationMsg : Msg → Bool
  | Msg.invalidMBRSignature _ => true
  | Msg.invalidPartitionNumber => true
  | Msg.emptyPartition => true
  | Msg.invalidEBRSignature _ => true
  | _ => false

/-- None of the diagnostics of a result is one of the validation steps. -/
def pastValidation (r : Result) : Prop := ∀ m, m ∈ r.msgs → isValidationMsg m = false

/-- If the result carries a diagnostic of a validation step, the operation
has returned 1 and the drive handle is still `h`: same contents, same file
pointer, no further call made on it. -/
def driveKept (h : HANDLE) (r : Result) : Prop :=
  (∃ m, m ∈ r.msgs ∧ isValidationMsg m = true) → r.ret = some 1 ∧ r.drive = some h

/-- If the result carries a diagnostic of a validation step, the operation
has returned 1 and no file has been opened. -/
def fileAbsent (r : Result) : Prop :=
  (∃ m, m ∈ r.msgs ∧ isValidationMsg m = true) → r.ret = some 1 ∧ r.file = none

/-- Number of bytes that the `WriteFile` calls of a history have transferred. -/
def delivered : List Call → Nat
  | [] => 0
  | Call.write _ w :: rest => w + delivered rest
  | Call.read _ _ :: rest => delivered rest
  | Call.seek _ :: rest => delivered rest
  | Call.failed :: rest => delivered rest

/-- An empty sink whose first write is cut to 10 bytes by the environment. -/
def shortSink : HANDLE := { data := [], pos := 0, script := [Behaviour.atMost 10], log := [] }

/-- A primary entry (type 7) with `StartingLBA = 0` and one sector. -/
def zeroStartEntry : PARTITION_ENTRY :=
  { bootIndicator := 0, startHead := 0, startSector := 0, startCylinder := 0, systemID := 7,
    endHead := 0, endSector := 0, endCylinder := 0, StartingLBA := 0, totalSectors := 1 }

/-! ## Arithmetic of the machine types -/

theorem toLONGLONG_of_range (x : Int) (h0 : -(2 ^ 63) ≤ x) (h1 : x < 2 ^ 63) :
    toLONGLONG x = x := by
  unfold toLONGLONG
  rw [Int.emod_eq_of_lt (by omega) (by omega)]
  omega

theorem toDWORD_of_lt (n : Nat) (h : n < 2 ^ 32) : toDWORD n = n := by
  unfold toDWORD
  exact Nat.mod_eq_of_lt h

theorem subDWORD_one_of_pos (a : Nat) (h0 : 1 ≤ a) (h1 : a < 2 ^ 32) : subDWORD a 1 = a - 1 := by
  unfold subDWORD toDWORD
  omega

theorem subDWORD_one_zero : subDWORD 0 1 = 4294967295 := by
  decide

theorem dwordAt_lt (buf : List BYTE) (off : Nat) : dwordAt buf off < 2 ^ 32 := by
  unfold dwordAt
  have h0 := (byteAt buf off).isLt
  have h1 := (byteAt buf (off + 1)).isLt
  have h2 := (byteAt buf (off + 2)).isLt
  have h3 := (byteAt buf (off + 3)).isLt
  omega

theorem entryAt_StartingLBA_lt (buf : List BYTE) (off : Nat) :
    (entryAt buf off).StartingLBA < 2 ^ 32 := dwordAt_lt buf (off + 8)

theorem entryAt_totalSectors_lt (buf : List BYTE) (off : Nat) :
    (entryAt buf off).totalSectors < 2 ^ 32 := dwordAt_lt buf (off + 12)

/-! ## Buffers -/

theorem overlay_length (n : Nat) (old got : List BYTE) : (overlay n old got).length = n := by
  simp only [overlay, List.length_take, List.length_append, List.length_drop,
    List.length_replicate]
  omega

theorem overlay_of_length (n : Nat) (old got : List BYTE) (h : got.length = n) :
    overlay n old got = got := by
  unfold overlay
  rw [List.append_assoc, List.take_append_of_le_length (by omega), ← h, List.take_length]

theorem byteAt_take (buf : List BYTE) (n i : Nat) (h : i < n) :
    byteAt (buf.take n) i = byteAt buf i := by
  unfold byteAt
  simp [List.getD_eq_getElem?_getD, List.getElem?_take, h]

theorem signature_take (buf : List BYTE) : signature (buf.take 512) = signature buf := by
  simp [signature, wordAt, byteAt_take]

theorem entryAt_take (buf : List BYTE) (off : Nat) (h : off + 16 ≤ 512) :
    entryAt (buf.take 512) off = entryAt buf off := by
  have hb : ∀ j, j < 16 → byteAt (buf.take 512) (off + j) = byteAt buf (off + j) :=
    fun j hj => byteAt_take buf 512 (off + j) (by omega)
  have h0 := hb 0 (by omega)
  simp only [Nat.add_zero] at h0
  simp [entryAt, dwordAt, Nat.add_assoc, h0, hb 1, hb 2, hb 3, hb 4, hb 5, hb 6, hb 7, hb 8,
    hb 9, hb 10, hb 11, hb 12, hb 13, hb 14, hb 15]

theorem mbrPartition_take (buf : List BYTE) (i : Nat) (h : i ≤ 3) :
    mbrPartition (buf.take 512) i = mbrPartition buf i := by
  unfold mbrPartition
  exact entryAt_take buf (slotOffset i) (by unfold slotOffset; omega)

theorem ebrPartition_take (buf : List BYTE) : ebrPartition (buf.take 512) = ebrPartition buf :=
  entryAt_take buf 446 (by omega)

theorem take_append_self (a b : List BYTE) (n : Nat) (h : a.length = n) :
    (a ++ b).take n = a := by
  subst h
  exact List.take_left a b

theorem byteAt_overlay (n : Nat) (old got : List BYTE) (i : Nat) (hi : i < got.length)
    (hn : i < n) : byteAt (overlay n old got) i = byteAt got i := by
  unfold overlay
  rw [byteAt_take _ _ _ hn, List.append_assoc]
  unfold byteAt
  rw [List.getD_eq_getElem?_getD, List.getD_eq_getElem?_getD, List.getElem?_append_left hi]

theorem entryAt_congr (a b : List BYTE) (off : Nat)
    (hb : ∀ j, j < 16 → byteAt a (off + j) = byteAt b (off + j)) :
    entryAt a off = entryAt b off := by
  have h0 := hb 0 (by omega)
  simp only [Nat.add_zero] at h0
  simp [entryAt, dwordAt, Nat.add_assoc, h0, hb 1, hb 2, hb 3, hb 4, hb 5, hb 6, hb 7, hb 8,
    hb 9, hb 10, hb 11, hb 12, hb 13, hb 14, hb 15]

/-- The memory at `&ebr` after `sizeof(EBR)` bytes have been read into it: the
signature field is the one of the bytes read. -/
theorem ebrSignature_overlay (old data : List BYTE) (h : (data.take 480).length = 480) :
    ebrSignature (overlay 512 old (data.take 480)) = ebrSignature data := by
  unfold ebrSignature wordAt
  rw [byteAt_overlay _ _ _ 478 (by omega) (by omega),
    byteAt_overlay _ _ _ (478 + 1) (by omega) (by omega),
    byteAt_take _ _ _ (by omega), byteAt_take _ _ _ (by omega)]

theorem ebrPartition_overlay (old data : List BYTE) (h : (data.take 480).length = 480) :
    ebrPartition (overlay 512 old (data.take 480)) = ebrPartition data := by
  unfold ebrPartition
  apply entryAt_congr
  intro j hj
  rw [byteAt_overlay _ _ _ (446 + j) (by omega) (by omega), byteAt_take _ _ _ (by omega)]

theorem overlay_ebr_split (old data : List BYTE) (h : (data.take 480).length = 480) :
    overlay 512 old (data.take 480)
      = data.take 480 ++ (overlay 512 old (data.take 480)).drop 480 := by
  have ht : (overlay 512 old (data.take 480)).take 480 = data.take 480 := by
    unfold overlay
    rw [List.take_take, List.append_assoc]
    have : min 480 512 = 480 := by decide
    rw [this]
    exact take_append_self _ _ 480 h
  conv_lhs => rw [← List.take_append_drop 480 (overlay 512 old (data.take 480))]
  rw [ht]

/-! ## The Win32 calls under a cooperative environment -/

theorem splice_of_le (data : List BYTE) (pos : Nat) (w : List BYTE) (h : pos ≤ data.length) :
    splice data pos w = data.take pos ++ w ++ data.drop (pos + w.length) := by
  cases w with
  | nil => simp [splice]
  | cons a t =>
    simp only [splice]
    rw [Nat.sub_eq_zero_of_le h]
    simp

theorem splice_at_end (data w : List BYTE) : splice data data.length w = data ++ w := by
  rw [splice_of_le data data.length w (Nat.le_refl _)]
  simp

theorem splice_length_ge (data : List BYTE) (pos : Nat) (w : List BYTE) (hw : w ≠ []) :
    pos + w.length ≤ (splice data pos w).length := by
  cases w with
  | nil => exact absurd rfl hw
  | cons a t =>
    simp only [splice, List.length_append, List.length_take, List.length_replicate,
      List.length_cons, List.length_drop]
    omega

/-- The part of the contents in front of a store at `pos`. -/
theorem splice_front_length (data : List BYTE) (pos : Nat) :
    (data.take pos ++ List.replicate (pos - data.length) (0 : BYTE)).length = pos := by
  simp only [List.length_append, List.length_take, List.length_replicate]
  omega

theorem splice_splice (data : List BYTE) (pos : Nat) (a b : List BYTE) :
    splice (splice data pos a) (pos + a.length) b = splice data pos (a ++ b) := by
  cases a with
  | nil => simp [splice]
  | cons x a =>
    cases b with
    | nil => simp [splice]
    | cons y b =>
      have hp := splice_front_length data pos
      have hL : splice data pos (x :: a)
          = (data.take pos ++ List.replicate (pos - data.length) (0 : BYTE)) ++ (x :: a)
            ++ List.drop (pos + (x :: a).length) data := rfl
      have hR : splice data pos (x :: a ++ y :: b)
          = (data.take pos ++ List.replicate (pos - data.length) (0 : BYTE))
            ++ (x :: a ++ y :: b)
            ++ List.drop (y :: b).length (List.drop (pos + (x :: a).length) data) := by
        rw [List.drop_drop]
        simp only [splice, List.cons_append, List.length_cons, List.length_append]
        congr 2
        omega
      rw [hR, hL]
      generalize data.take pos ++ List.replicate (pos - data.length) (0 : BYTE) = P at hp
      generalize List.drop (pos + (x :: a).length) data = D
      subst hp
      rw [splice_of_le _ _ _ (by simp)]
      have e : P.length + (x :: a).length = (P ++ x :: a).length := by simp
      rw [e, List.take_left, List.drop_append]
      simp
theorem fullFor_nil (k : Nat) : fullFor k [] := by
  intro i _
  rfl

theorem fullFor_head (k : Nat) (s : List Behaviour) (h : fullFor (k + 1) s) :
    s.headD Behaviour.full = Behaviour.full := by
  have := h 0 (Nat.succ_pos k)
  cases s with
  | nil => rfl
  | cons a t => simpa using this

theorem fullFor_tail (k : Nat) (s : List Behaviour) (h : fullFor (k + 1) s) :
    fullFor k s.tail := by
  intro i hi
  have := h (i + 1) (by omega)
  cases s with
  | nil => rfl
  | cons a t => simpa using this

theorem ReadFile_full (h : HANDLE) (n : Nat)
    (hs : h.script.headD Behaviour.full = Behaviour.full) :
    ReadFile h n = (some ((h.data.drop h.pos).take n),
      { data := h.data, pos := h.pos + ((h.data.drop h.pos).take n).length,
        script := h.script.tail,
        log := h.log ++ [Call.read n ((h.data.drop h.pos).take n).length] }) := by
  unfold ReadFile
  rw [hs]
  simp [allowance]

theorem WriteFile_full (h : HANDLE) (bytes : List BYTE)
    (hs : h.script.headD Behaviour.full = Behaviour.full) :
    WriteFile h bytes = (some bytes.length,
      { data := splice h.data h.pos bytes, pos := h.pos + bytes.length,
        script := h.script.tail,
        log := h.log ++ [Call.write bytes.length bytes.length] }) := by
  unfold WriteFile
  rw [hs]
  simp [allowance]

theorem SetFilePointerEx_full (h : HANDLE) (off : Int) (h0 : 0 ≤ off)
    (hs : h.script.headD Behaviour.full = Behaviour.full) :
    SetFilePointerEx h off = (true,
      { data := h.data, pos := off.toNat, script := h.script.tail,
        log := h.log ++ [Call.seek off] }) := by
  unfold SetFilePointerEx
  rw [hs]
  simp [Int.not_lt.mpr h0]

theorem length_take_drop (data : List BYTE) (pos n : Nat) (h : pos + n ≤ data.length) :
    ((data.drop pos).take n).length = n := by
  simp only [List.length_take, List.length_drop]
  omega

/-! ## The copy loop -/

theorem toRead_eq_min (c : Nat) (n : Int) (hc : c < 2 ^ 32) (hn : 0 ≤ n) :
    toRead c n = min c n.toNat := by
  unfold toRead
  split
  · rw [Int.toNat_ofNat, toDWORD_of_lt c hc]
    omega
  · rw [toDWORD_of_lt _ (by omega)]
    omega

theorem toRead_pos (c : Nat) (n : Int) (hc0 : 0 < c) (hc : c < 2 ^ 32) (hn : 0 < n) :
    0 < toRead c n := by
  rw [toRead_eq_min c n hc (by omega)]
  omega

theorem copyLoop_of_nonpos (c fuel : Nat) (n : Int) (src dst : HANDLE) (hn : n ≤ 0) :
    copyLoop c fuel n src dst
      = { exit := LoopExit.done, bytesToCopy := n, src := src, dst := dst, msgs := [] } := by
  cases fuel with
  | zero => simp [copyLoop, Int.not_lt.mpr hn]
  | succ f => simp [copyLoop, Int.not_lt.mpr hn]

/-- One iteration in which the read and the write both transfer the request. -/
theorem copyLoop_step (c fuel : Nat) (n : Int) (src dst src1 dst1 : HANDLE) (got : List BYTE)
    (hn : 0 < n)
    (hr : ReadFile src (toRead c n) = (some got, src1))
    (hlen : got.length = toRead c n)
    (hw : WriteFile dst got = (some got.length, dst1)) :
    copyLoop c (fuel + 1) n src dst = copyLoop c fuel (n - (got.length : Int)) src1 dst1 := by
  rw [copyLoop]
  simp [hn, hr, hlen, hw]

/-- One iteration in which the read transfers less than the request. -/
theorem copyLoop_short_read (c fuel : Nat) (n : Int) (src dst src1 : HANDLE) (got : List BYTE)
    (hn : 0 < n)
    (hr : ReadFile src (toRead c n) = (some got, src1))
    (hlen : got.length ≠ toRead c n) :
    copyLoop c (fuel + 1) n src dst
      = { exit := LoopExit.shortRead, bytesToCopy := n, src := src1, dst := dst,
          msgs := [Msg.shortRead got.length (toRead c n)] } := by
  rw [copyLoop]
  simp [hn, hr, hlen]
/-- The source handle after `k` full chunks of `c` bytes have been read. -/
theorem take_add_drop (l : List BYTE) (p a b : Nat) :
    (l.drop p).take a ++ (l.drop (p + a)).take b = (l.drop p).take (a + b) := by
  rw [List.take_add, List.drop_drop]

/-- Full rounds: `k` iterations that each move a whole chunk. -/
theorem copyLoop_rounds (c : Nat) (hc0 : 0 < c) (hc : c < 2 ^ 32) :
    ∀ (k fuel : Nat) (n : Int) (src dst : HANDLE),
      fullFor k src.script → fullFor k dst.script →
      ((k * c : Nat) : Int) ≤ n → k * c ≤ src.data.length - src.pos →
      copyLoop c (fuel + k) n src dst
        = copyLoop c fuel (n - ((k * c : Nat) : Int))
            { data := src.data, pos := src.pos + k * c, script := src.script.drop k,
              log := src.log ++ List.replicate k (Call.read c c) }
            { data := splice dst.data dst.pos ((src.data.drop src.pos).take (k * c)),
              pos := dst.pos + k * c, script := dst.script.drop k,
              log := dst.log ++ List.replicate k (Call.write c c) } := by
  intro k
  induction k with
  | zero =>
    intro fuel n src dst _ _ _ _
    simp [splice]
  | succ k ih =>
    intro fuel n src dst hs hd hn hlen
    have hkc : (k + 1) * c = c + k * c := by ring
    have hn0 : 0 < n := by
      have : (0 : Int) < ((k + 1) * c : Nat) := by
        have : 0 < (k + 1) * c := Nat.mul_pos (Nat.succ_pos k) hc0
        exact_mod_cast this
      omega
    have hcn : (c : Int) ≤ n := by
      have : ((c : Nat) : Int) ≤ (((k + 1) * c : Nat) : Int) := by
        exact_mod_cast (by rw [hkc]; omega : c ≤ (k + 1) * c)
      omega
    have htr : toRead c n = c := by
      rw [toRead_eq_min c n hc (by omega)]
      omega
    have hgot : ((src.data.drop src.pos).take c).length = c :=
      length_take_drop src.data src.pos c (by rw [hkc] at hlen; omega)
    have hr := ReadFile_full src c (fullFor_head k _ hs)
    rw [hgot] at hr
    have hw := WriteFile_full dst ((src.data.drop src.pos).take c) (fullFor_head k _ hd)
    rw [hgot] at hw
    have step := copyLoop_step c (fuel + k) n src dst _ _ _ hn0 (by rw [htr]; exact hr)
      (by rw [hgot, htr]) (by rw [hgot]; exact hw)
    rw [show fuel + (k + 1) = fuel + k + 1 from rfl, step, hgot]
    rw [ih fuel (n - (c : Int)) _ _ (fullFor_tail k _ hs) (fullFor_tail k _ hd)
      (by push_cast at hn ⊢; nlinarith) (by simp only; rw [hkc] at hlen; omega)]
    simp only
    have e1 : n - (c : Int) - ((k * c : Nat) : Int) = n - (((k + 1) * c : Nat) : Int) := by
      push_cast
      ring
    have e2 : splice (splice dst.data dst.pos ((src.data.drop src.pos).take c)) (dst.pos + c)
          ((src.data.drop (src.pos + c)).take (k * c))
        = splice dst.data dst.pos ((src.data.drop src.pos).take ((k + 1) * c)) := by
      have := splice_splice dst.data dst.pos ((src.data.drop src.pos).take c)
        ((src.data.drop (src.pos + c)).take (k * c))
      rw [hgot, take_add_drop] at this
      rw [this, hkc]
    rw [e1, e2]
    have hpos : ∀ p : Nat, p + c + k * c = p + (k + 1) * c := fun p => by rw [hkc]; omega
    have hlog : ∀ (l : List Call) (x : Call),
        l ++ [x] ++ List.replicate k x = l ++ List.replicate (k + 1) x := fun l x => by
      simp [List.replicate_succ]
    have hscr : ∀ l : List Behaviour, l.tail.drop k = l.drop (k + 1) := fun l => by
      cases l <;> simp
    rw [hpos, hpos, hlog, hlog, hscr, hscr]

theorem headD_drop (s : List Behaviour) (k : Nat) :
    (s.drop k).headD Behaviour.full = s.getD k Behaviour.full := by
  simp [List.headD_eq_head?_getD, List.head?_drop, List.getD_eq_getElem?_getD]

/-- The calls of a complete copy of `q * c + r` bytes: `q` whole chunks and
then the remainder, if any. -/
theorem copyLoop_complete (c q r fuel : Nat) (src dst : HANDLE)
    (hc0 : 0 < c) (hc : c < 2 ^ 32) (hr : r < c)
    (hs : fullFor (q + 1) src.script) (hd : fullFor (q + 1) dst.script)
    (hlen : src.pos + (q * c + r) ≤ src.data.length) (hfuel : q * c + r ≤ fuel) :
    copyLoop c fuel ((q * c + r : Nat) : Int) src dst
      = { exit := LoopExit.done, bytesToCopy := 0,
          src := { data := src.data, pos := src.pos + (q * c + r),
                   script := src.script.drop (if 0 < r then q + 1 else q),
                   log := src.log ++ List.replicate q (Call.read c c)
                     ++ (if 0 < r then [Call.read r r] else []) },
          dst := { data := splice dst.data dst.pos ((src.data.drop src.pos).take (q * c + r)),
                   pos := dst.pos + (q * c + r),
                   script := dst.script.drop (if 0 < r then q + 1 else q),
                   log := dst.log ++ List.replicate q (Call.write c c)
                     ++ (if 0 < r then [Call.write r r] else []) },
          msgs := [] } := by
  have hq : q ≤ q * c := Nat.le_mul_of_pos_right q hc0
  have hsq : fullFor q src.script := fun i hi => hs i (by omega)
  have hdq : fullFor q dst.script := fun i hi => hd i (by omega)
  have hfq : fuel = (fuel - q) + q := by omega
  rw [hfq, copyLoop_rounds c hc0 hc q (fuel - q) _ src dst hsq hdq
    (by push_cast; omega) (by omega)]
  have hn : (((q * c + r : Nat) : Int) - ((q * c : Nat) : Int)) = (r : Int) := by
    push_cast
    ring
  rw [hn]
  by_cases hr0 : 0 < r
  · have hf1 : fuel - q = (fuel - q - 1) + 1 := by omega
    have htr : toRead c (r : Int) = r := by
      rw [toRead_eq_min c _ hc (by omega)]
      omega
    have hgot : ((src.data.drop (src.pos + q * c)).take r).length = r :=
      length_take_drop src.data (src.pos + q * c) r (by omega)
    have hr1 := ReadFile_full
      { data := src.data, pos := src.pos + q * c, script := src.script.drop q,
        log := src.log ++ List.replicate q (Call.read c c) } r
      (by rw [headD_drop]; exact hs q (by omega))
    have hw1 := WriteFile_full
      { data := splice dst.data dst.pos ((src.data.drop src.pos).take (q * c)),
        pos := dst.pos + q * c, script := dst.script.drop q,
        log := dst.log ++ List.replicate q (Call.write c c) }
      ((src.data.drop (src.pos + q * c)).take r)
      (by rw [headD_drop]; exact hd q (by omega))
    simp only [hgot] at hr1 hw1
    rw [hf1, copyLoop_step c _ _ _ _ _ _ _ (by exact_mod_cast hr0)
      (by rw [htr]; exact hr1) (by rw [htr, hgot]) (by rw [hgot]; exact hw1)]
    rw [hgot, copyLoop_of_nonpos _ _ _ _ _ (by omega)]
    have hlq : ((src.data.drop src.pos).take (q * c)).length = q * c :=
      length_take_drop src.data src.pos (q * c) (by omega)
    have hsp := splice_splice dst.data dst.pos ((src.data.drop src.pos).take (q * c))
      ((src.data.drop (src.pos + q * c)).take r)
    rw [hlq, take_add_drop] at hsp
    simp [hr0, hsp, Nat.add_assoc]
  · have hr00 : r = 0 := by omega
    subst hr00
    rw [copyLoop_of_nonpos _ _ _ _ _ (by simp)]
    simp

theorem ReadFile_ok (h : HANDLE) (n : Nat)
    (hs : h.script.headD Behaviour.full ≠ Behaviour.fail) :
    ReadFile h n
      = (some ((h.data.drop h.pos).take (allowance (h.script.headD Behaviour.full) n)),
        { data := h.data,
          pos := h.pos
            + ((h.data.drop h.pos).take (allowance (h.script.headD Behaviour.full) n)).length,
          script := h.script.tail,
          log := h.log ++ [Call.read n
            ((h.data.drop h.pos).take (allowance (h.script.headD Behaviour.full) n)).length] }) := by
  unfold ReadFile
  generalize h.script.headD Behaviour.full = b at hs
  cases b with
  | full => rfl
  | atMost k => rfl
  | fail => exact absurd rfl hs

theorem copyData_complete (c q r : Nat) (src dst : HANDLE)
    (hc0 : 0 < c) (hc : c < 2 ^ 32) (hr : r < c)
    (hs : fullFor (q + 1) src.script) (hd : fullFor (q + 1) dst.script)
    (hlen : src.pos + (q * c + r) ≤ src.data.length) :
    copyData c ((q * c + r : Nat) : Int) src dst
      = { exit := LoopExit.done, bytesToCopy := 0,
          src := { data := src.data, pos := src.pos + (q * c + r),
                   script := src.script.drop (if 0 < r then q + 1 else q),
                   log := src.log ++ List.replicate q (Call.read c c)
                     ++ (if 0 < r then [Call.read r r] else []) },
          dst := { data := splice dst.data dst.pos ((src.data.drop src.pos).take (q * c + r)),
                   pos := dst.pos + (q * c + r),
                   script := dst.script.drop (if 0 < r then q + 1 else q),
                   log := dst.log ++ List.replicate q (Call.write c c)
                     ++ (if 0 < r then [Call.write r r] else []) },
          msgs := [] } := by
  unfold copyData
  rw [copyLoop_complete c q r _ src dst hc0 hc hr hs hd hlen
    (Nat.le_of_eq (Int.toNat_ofNat _).symm)]
  simp

/-- The copy loop when the first `k` rounds move whole chunks and the read of
round `k + 1` comes back short. -/
theorem copyData_short_read (c k : Nat) (n : Int) (src dst : HANDLE)
    (hc0 : 0 < c) (hc : c < 2 ^ 32) (hk : ((k * c : Nat) : Int) < n)
    (hs : fullFor k src.script) (hd : fullFor k dst.script)
    (hlen : k * c ≤ src.data.length - src.pos)
    (hb : src.script.getD k Behaviour.full ≠ Behaviour.fail)
    (hshort : min (allowance (src.script.getD k Behaviour.full)
        (toRead c (n - ((k * c : Nat) : Int)))) (src.data.length - (src.pos + k * c))
      < toRead c (n - ((k * c : Nat) : Int))) :
    copyData c n src dst
      = { exit := LoopExit.shortRead, bytesToCopy := n - ((k * c : Nat) : Int),
          src := { data := src.data,
                   pos := src.pos + k * c
                     + min (allowance (src.script.getD k Behaviour.full)
                         (toRead c (n - ((k * c : Nat) : Int))))
                       (src.data.length - (src.pos + k * c)),
                   script := src.script.drop (k + 1),
                   log := src.log ++ List.replicate k (Call.read c c)
                     ++ [Call.read (toRead c (n - ((k * c : Nat) : Int)))
                       (min (allowance (src.script.getD k Behaviour.full)
                           (toRead c (n - ((k * c : Nat) : Int))))
                         (src.data.length - (src.pos + k * c)))] },
          dst := { data := splice dst.data dst.pos ((src.data.drop src.pos).take (k * c)),
                   pos := dst.pos + k * c, script := dst.script.drop k,
                   log := dst.log ++ List.replicate k (Call.write c c) },
          msgs := [Msg.shortRead
              (min (allowance (src.script.getD k Behaviour.full)
                  (toRead c (n - ((k * c : Nat) : Int))))
                (src.data.length - (src.pos + k * c)))
              (toRead c (n - ((k * c : Nat) : Int))),
            Msg.notAllCopied (n - ((k * c : Nat) : Int))] } := by
  have hq : k ≤ k * c := Nat.le_mul_of_pos_right k hc0
  have hf : n.toNat = (n.toNat - k - 1) + 1 + k := by
    have : ((k : Nat) : Int) ≤ ((k * c : Nat) : Int) := by exact_mod_cast hq
    omega
  unfold copyData
  rw [hf, copyLoop_rounds c hc0 hc k _ n src dst hs hd (by omega) hlen]
  have hr1 := ReadFile_ok
    { data := src.data, pos := src.pos + k * c, script := src.script.drop k,
      log := src.log ++ List.replicate k (Call.read c c) }
    (toRead c (n - ((k * c : Nat) : Int)))
    (by rw [headD_drop]; exact hb)
  simp only [headD_drop] at hr1
  have hgl : ((src.data.drop (src.pos + k * c)).take
      (allowance (src.script.getD k Behaviour.full)
        (toRead c (n - ((k * c : Nat) : Int))))).length
      = min (allowance (src.script.getD k Behaviour.full)
          (toRead c (n - ((k * c : Nat) : Int)))) (src.data.length - (src.pos + k * c)) := by
    simp [List.length_take, List.length_drop]
  rw [copyLoop_short_read c _ _ _ _ _ _ (by omega) hr1 (by rw [hgl]; omega)]
  have hpos : 0 < n - ((k * c : Nat) : Int) := by omega
  have hk1 : (k : Int) * (c : Int) < n := by exact_mod_cast hk
  simp [hgl, hpos, hk1]

/-! ## The operations under an environment that injects no fault -/

theorem headD_nil_full : ([] : List Behaviour).headD Behaviour.full = Behaviour.full := rfl

theorem writeZeroSectors_nil (n : Nat) :
    ∀ h : HANDLE, h.script = [] →
      writeZeroSectors n h
        = (true, { data := splice h.data h.pos (List.replicate (n * SECTOR_SIZE) 0),
                   pos := h.pos + n * SECTOR_SIZE, script := [],
                   log := h.log ++ List.replicate n (Call.write SECTOR_SIZE SECTOR_SIZE) }) := by
  induction n with
  | zero =>
    intro h hs
    cases h
    simp_all [writeZeroSectors, splice]
  | succ n ih =>
    intro h hs
    rw [writeZeroSectors, WriteFile_full h _ (by rw [hs]; rfl)]
    simp only [List.length_replicate]
    rw [ih _ (by simp [hs])]
    simp only
    have := splice_splice h.data h.pos (List.replicate SECTOR_SIZE 0)
      (List.replicate (n * SECTOR_SIZE) 0)
    rw [List.length_replicate] at this
    rw [this]
    have e : (n + 1) * SECTOR_SIZE = SECTOR_SIZE + n * SECTOR_SIZE := by ring
    rw [e, List.replicate_add]
    simp [List.replicate_succ, Nat.add_assoc]
/-- With no fault injected the copy loop always ends, returns 0, and has
stored a leading part of what the source holds from its file pointer on; it
stores all `n` bytes when the source holds them. -/
theorem copyData_nil (c : Nat) (hc0 : 0 < c) (hc : c < 2 ^ 32) (n : Int) (src dst : HANDLE)
    (hs : src.script = []) (hd : dst.script = []) :
    ∃ m : Nat, m ≤ n.toNat ∧ (src.pos + n.toNat ≤ src.data.length → m = n.toNat) ∧
      copyReturn (copyData c n src dst).exit = some 0 ∧
      (copyData c n src dst).dst.data
        = splice dst.data dst.pos ((src.data.drop src.pos).take m) ∧
      (copyData c n src dst).dst.pos = dst.pos + m ∧
      (copyData c n src dst).dst.script = [] ∧
      (copyData c n src dst).src.data = src.data := by
  have hsf : ∀ k, fullFor k src.script := fun k => hs ▸ fullFor_nil k
  have hdf : ∀ k, fullFor k dst.script := fun k => hd ▸ fullFor_nil k
  by_cases hn : n ≤ 0
  · refine ⟨0, Nat.zero_le _, fun _ => by omega, ?_⟩
    unfold copyData
    rw [copyLoop_of_nonpos _ _ _ _ _ hn]
    simp [copyReturn, Int.not_lt.mpr hn, splice, hd]
  · have hnN : n = ((n.toNat : Nat) : Int) := by omega
    by_cases hav : src.pos + n.toNat ≤ src.data.length
    · refine ⟨n.toNat, Nat.le_refl _, fun _ => rfl, ?_⟩
      have hdm : n.toNat / c * c + n.toNat % c = n.toNat := by
        rw [Nat.mul_comm]
        exact Nat.div_add_mod _ _
      have hcd := copyData_complete c (n.toNat / c) (n.toNat % c) src dst hc0 hc
        (Nat.mod_lt _ hc0) (hsf _) (hdf _) (by rw [hdm]; exact hav)
      rw [hdm, ← hnN] at hcd
      rw [hcd]
      simp [copyReturn, hd]
    · have hkc : (src.data.length - src.pos) / c * c + (src.data.length - src.pos) % c
          = src.data.length - src.pos := by
        rw [Nat.mul_comm]
        exact Nat.div_add_mod _ _
      have hml := Nat.mod_lt (src.data.length - src.pos) hc0
      have hKle : (src.data.length - src.pos) / c * c ≤ src.data.length - src.pos := by omega
      have hKlt : src.data.length - src.pos - (src.data.length - src.pos) / c * c < c := by omega
      generalize (src.data.length - src.pos) / c = k at hKle hKlt
      have hKn : k * c < n.toNat := by
        generalize k * c = K at hKle hKlt ⊢
        omega
      have hk : ((k * c : Nat) : Int) < n := by
        rw [hnN]
        exact_mod_cast hKn
      have htr : toRead c (n - ((k * c : Nat) : Int)) = min c (n.toNat - k * c) := by
        rw [toRead_eq_min c _ hc (by omega)]
        congr 1
        omega
      have hsh : min (min c (n.toNat - k * c)) (src.data.length - (src.pos + k * c))
          < min c (n.toNat - k * c) := by
        generalize k * c = K at hKle hKlt hKn ⊢
        omega
      have hcd := copyData_short_read c k n src dst hc0 hc hk
        (hsf _) (hdf _) hKle (by rw [hs]; simp)
        (by rw [hs]; simp only [List.getD_nil, allowance]; rw [htr]; exact hsh)
      refine ⟨k * c, Nat.le_of_lt hKn, fun h => absurd h hav, ?_⟩
      rw [hcd]
      simp [copyReturn, hd]

theorem ReadFile_nil (h : HANDLE) (n : Nat) (hs : h.script = []) :
    ReadFile h n = (some ((h.data.drop h.pos).take n),
      { data := h.data, pos := h.pos + ((h.data.drop h.pos).take n).length, script := [],
        log := h.log ++ [Call.read n ((h.data.drop h.pos).take n).length] }) := by
  rw [ReadFile_full h n (by rw [hs]; rfl), hs]
  rfl

theorem WriteFile_nil (h : HANDLE) (bytes : List BYTE) (hs : h.script = []) :
    WriteFile h bytes = (some bytes.length,
      { data := splice h.data h.pos bytes, pos := h.pos + bytes.length, script := [],
        log := h.log ++ [Call.write bytes.length bytes.length] }) := by
  rw [WriteFile_full h bytes (by rw [hs]; rfl), hs]
  rfl

theorem SetFilePointerEx_nil (h : HANDLE) (off : Int) (h0 : 0 ≤ off) (hs : h.script = []) :
    SetFilePointerEx h off = (true,
      { data := h.data, pos := off.toNat, script := [], log := h.log ++ [Call.seek off] }) := by
  rw [SetFilePointerEx_full h off h0 (by rw [hs]; rfl), hs]
  rfl

theorem splice_end_eq (data : List BYTE) (pos : Nat) (w : List BYTE) (h : pos = data.length) :
    splice data pos w = data ++ w := by
  subst h
  exact splice_at_end data w

/-! ## The header checks of `crtPartImage` -/

/-- The first read of an operation, when the environment answers it in full
and the medium holds a whole sector. -/
theorem ReadFile_first (d : Medium) (hf : fullFor 1 d.script) (hlen : 512 ≤ d.data.length) :
    ReadFile (openExisting d) 512
      = (some (d.data.take 512),
        { data := d.data, pos := 512, script := d.script.tail, log := [Call.read 512 512] }) := by
  rw [ReadFile_full (openExisting d) 512 (fullFor_head 0 _ hf)]
  have hl : ((d.data.drop 0).take 512).length = 512 := length_take_drop d.data 0 512 (by omega)
  simp only [openExisting] at hl ⊢
  rw [hl]
  simp

theorem length_take_512 (data : List BYTE) (hlen : 512 ≤ data.length) :
    (data.take 512).length = 512 := by
  simp only [List.length_take]
  omega

theorem crtPartImage_bad_signature (u : Uninit) (d : Medium) (partitionNum : Int)
    (outputPath : Option Medium) (hf : fullFor 1 d.script) (hlen : 512 ≤ d.data.length)
    (hsig : signature d.data ≠ 0xAA55) :
    crtPartImage u (some d) partitionNum outputPath
      = abort (some { data := d.data, pos := 512, script := d.script.tail,
                      log := [Call.read 512 512] }) none
          (Msg.invalidMBRSignature (signature d.data)) := by
  unfold crtPartImage
  simp only []
  rw [ReadFile_first d hf hlen]
  simp only []
  rw [overlay_of_length 512 u.mbr _ (length_take_512 d.data hlen), signature_take, if_pos hsig]

theorem crtPartImage_empty_slot (u : Uninit) (d : Medium) (partitionNum : Int)
    (outputPath : Option Medium) (hf : fullFor 1 d.script) (hlen : 512 ≤ d.data.length)
    (hsig : signature d.data = 0xAA55) (h0 : 0 ≤ partitionNum) (h3 : partitionNum ≤ 3)
    (hemp : (mbrPartition d.data partitionNum.toNat).totalSectors = 0) :
    crtPartImage u (some d) partitionNum outputPath
      = abort (some { data := d.data, pos := 512, script := d.script.tail,
                      log := [Call.read 512 512] }) none Msg.emptyPartition := by
  unfold crtPartImage
  simp only []
  rw [ReadFile_first d hf hlen]
  simp only []
  rw [overlay_of_length 512 u.mbr _ (length_take_512 d.data hlen), signature_take,
    if_neg (not_not.mpr hsig), if_neg (by omega), mbrPartition_take _ _ (by omega), if_pos hemp]

theorem mulSector_eq (n : Nat) (h : n < 2 ^ 32) :
    toLONGLONG ((n : Int) * (SECTOR_SIZE : Int)) = ((n * 512 : Nat) : Int) := by
  rw [toLONGLONG_of_range _ (by simp only [SECTOR_SIZE]; omega)
    (by simp only [SECTOR_SIZE]; omega)]
  simp [SECTOR_SIZE]

theorem addSector_eq (n : Nat) (h : n < 2 ^ 32) :
    toLONGLONG (((n * 512 : Nat) : Int) + (SECTOR_SIZE : Int)) = ((n * 512 + 512 : Nat) : Int) := by
  rw [toLONGLONG_of_range _ (by simp only [SECTOR_SIZE]; omega)
    (by simp only [SECTOR_SIZE]; omega)]
  simp [SECTOR_SIZE]

theorem mbrPartition_StartingLBA_lt (buf : List BYTE) (i : Nat) :
    (mbrPartition buf i).StartingLBA < 2 ^ 32 := entryAt_StartingLBA_lt buf (slotOffset i)

theorem fullFor_mono (k j : Nat) (s : List Behaviour) (h : fullFor k s) (hj : j ≤ k) :
    fullFor j s := fun i hi => h i (by omega)

theorem fullFor_getD (k i : Nat) (s : List Behaviour) (h : fullFor k s) (hi : i < k) :
    (s.drop i).headD Behaviour.full = Behaviour.full := by
  rw [headD_drop]
  exact h i hi

theorem crtPartImage_primary (u : Uninit) (d : Medium) (partitionNum : Int)
    (outputPath : Option Medium) (hf : fullFor 1 d.script) (hlen : 512 ≤ d.data.length)
    (hsig : signature d.data = 0xAA55) (h0 : 0 ≤ partitionNum) (h3 : partitionNum ≤ 3)
    (hne : (mbrPartition d.data partitionNum.toNat).totalSectors ≠ 0)
    (hprim : isExtended (mbrPartition d.data partitionNum.toNat) = false) :
    crtPartImage u (some d) partitionNum outputPath
      = crtPartImage_emit u
          { data := d.data, pos := 512, script := d.script.tail, log := [Call.read 512 512] }
          ((d.data.take 512).set (slotOffset partitionNum.toNat) 0x80) (overlay 512 u.ebr [])
          false (mbrPartition d.data partitionNum.toNat)
          (((mbrPartition d.data partitionNum.toNat).StartingLBA * 512 : Nat) : Int)
          outputPath := by
  unfold crtPartImage
  simp only []
  rw [ReadFile_first d hf hlen]
  simp only []
  rw [overlay_of_length 512 u.mbr _ (length_take_512 d.data hlen), signature_take,
    if_neg (not_not.mpr hsig), if_neg (by omega), mbrPartition_take _ _ (by omega), if_neg hne,
    if_neg (by rw [hprim]; exact Bool.false_ne_true),
    mulSector_eq _ (mbrPartition_StartingLBA_lt _ _)]

theorem crtPartImage_logical (u : Uninit) (d : Medium) (partitionNum : Int)
    (outputPath : Option Medium) (hf : fullFor 3 d.script) (hlen : 512 ≤ d.data.length)
    (hsig : signature d.data = 0xAA55) (h0 : 0 ≤ partitionNum) (h3 : partitionNum ≤ 3)
    (hne : (mbrPartition d.data partitionNum.toNat).totalSectors ≠ 0)
    (hext : isExtended (mbrPartition d.data partitionNum.toNat) = true)
    (hebr : (mbrPartition d.data partitionNum.toNat).StartingLBA * 512 + 480 ≤ d.data.length) :
    crtPartImage u (some d) partitionNum outputPath
      = if ebrSignature (d.data.drop ((mbrPartition d.data partitionNum.toNat).StartingLBA * 512))
            ≠ 0xAA55 then
          abort (some { data := d.data,
                        pos := (mbrPartition d.data partitionNum.toNat).StartingLBA * 512 + 480,
                        script := d.script.drop 3,
                        log := [Call.read 512 512,
                          Call.seek (((mbrPartition d.data partitionNum.toNat).StartingLBA * 512
                            : Nat) : Int),
                          Call.read 480 480] }) none
            (Msg.invalidEBRSignature (ebrSignature (d.data.drop
              ((mbrPartition d.data partitionNum.toNat).StartingLBA * 512))))
        else
          crtPartImage_emit u
            { data := d.data,
              pos := (mbrPartition d.data partitionNum.toNat).StartingLBA * 512 + 480,
              script := d.script.drop 3,
              log := [Call.read 512 512,
                Call.seek (((mbrPartition d.data partitionNum.toNat).StartingLBA * 512
                  : Nat) : Int),
                Call.read 480 480] }
            (d.data.take 512)
            ((overlay 512 u.ebr ((d.data.drop
              ((mbrPartition d.data partitionNum.toNat).StartingLBA * 512)).take 480)).set
              446 0x80)
            true
            (ebrPartition ((overlay 512 u.ebr ((d.data.drop
              ((mbrPartition d.data partitionNum.toNat).StartingLBA * 512)).take 480)).set
              446 0x80))
            (((mbrPartition d.data partitionNum.toNat).StartingLBA * 512 + 512 : Nat) : Int)
            outputPath := by
  unfold crtPartImage
  simp only []
  rw [ReadFile_first d (fullFor_mono 3 1 _ hf (by omega)) hlen]
  simp only []
  rw [overlay_of_length 512 u.mbr _ (length_take_512 d.data hlen), signature_take,
    if_neg (not_not.mpr hsig), if_neg (by omega), mbrPartition_take _ _ (by omega), if_neg hne,
    if_pos hext, mulSector_eq _ (mbrPartition_StartingLBA_lt _ _),
    addSector_eq _ (mbrPartition_StartingLBA_lt _ _)]
  generalize (mbrPartition d.data partitionNum.toNat).StartingLBA * 512 = off at hebr ⊢
  rw [SetFilePointerEx_full _ _ (Int.ofNat_nonneg off)
    (by have := fullFor_getD 3 1 d.script hf (by omega); simpa using this)]
  simp only []
  rw [show sizeofEBR = 480 from rfl, ReadFile_full _ _
    (by have := fullFor_getD 3 2 d.script hf (by omega); simpa using this)]
  simp only [Int.toNat_ofNat]
  have hl : ((d.data.drop off).take 480).length = 480 := length_take_drop d.data off 480 hebr
  rw [hl, ebrSignature_overlay u.ebr _ hl]
  have hscr : d.script.tail.tail.tail = d.script.drop 3 := by
    cases d.script with
    | nil => rfl
    | cons a t =>
      cases t with
      | nil => rfl
      | cons b t =>
        cases t with
        | nil => rfl
        | cons c t => rfl
  rw [hscr]
  rfl

/-! ## The header checks of `DumpBootToBin`, `DumpMBRToBin` and `wrtImg_Disk_part` -/

theorem DumpBootToBin_bad_signature (u : Uninit) (d : Medium) (partitionNumber : Int)
    (bootFilename : Option Medium) (hf : fullFor 1 d.script) (hlen : 512 ≤ d.data.length)
    (hsig : signature d.data ≠ 0xAA55) :
    DumpBootToBin u (some d) partitionNumber bootFilename
      = abort (some { data := d.data, pos := 512, script := d.script.tail,
                      log := [Call.read 512 512] }) none
          (Msg.invalidMBRSignature (signature d.data)) := by
  unfold DumpBootToBin
  simp only []
  rw [ReadFile_first d hf hlen]
  simp only []
  rw [overlay_of_length 512 u.mbr _ (length_take_512 d.data hlen), signature_take, if_pos hsig]

theorem DumpBootToBin_empty_slot (u : Uninit) (d : Medium) (partitionNumber : Int)
    (bootFilename : Option Medium) (hf : fullFor 1 d.script) (hlen : 512 ≤ d.data.length)
    (hsig : signature d.data = 0xAA55) (h0 : 0 ≤ partitionNumber) (h3 : partitionNumber ≤ 3)
    (hemp : (mbrPartition d.data partitionNumber.toNat).totalSectors = 0) :
    DumpBootToBin u (some d) partitionNumber bootFilename
      = abort (some { data := d.data, pos := 512, script := d.script.tail,
                      log := [Call.read 512 512] }) none Msg.emptyPartition := by
  unfold DumpBootToBin
  simp only []
  rw [ReadFile_first d hf hlen]
  simp only []
  rw [overlay_of_length 512 u.mbr _ (length_take_512 d.data hlen), signature_take,
    if_neg (not_not.mpr hsig), if_neg (by omega), mbrPartition_take _ _ (by omega), if_pos hemp]

theorem DumpBootToBin_primary (u : Uninit) (d : Medium) (partitionNumber : Int)
    (bootFilename : Option Medium) (hf : fullFor 1 d.script) (hlen : 512 ≤ d.data.length)
    (hsig : signature d.data = 0xAA55) (h0 : 0 ≤ partitionNumber) (h3 : partitionNumber ≤ 3)
    (hne : (mbrPartition d.data partitionNumber.toNat).totalSectors ≠ 0)
    (hprim : isExtended (mbrPartition d.data partitionNumber.toNat) = false) :
    DumpBootToBin u (some d) partitionNumber bootFilename
      = DumpBootToBin_emit u
          { data := d.data, pos := 512, script := d.script.tail, log := [Call.read 512 512] }
          (((mbrPartition d.data partitionNumber.toNat).StartingLBA * 512 : Nat) : Int)
          bootFilename := by
  unfold DumpBootToBin
  simp only []
  rw [ReadFile_first d hf hlen]
  simp only []
  rw [overlay_of_length 512 u.mbr _ (length_take_512 d.data hlen), signature_take,
    if_neg (not_not.mpr hsig), if_neg (by omega), mbrPartition_take _ _ (by omega), if_neg hne,
    if_neg (by rw [hprim]; exact Bool.false_ne_true),
    mulSector_eq _ (mbrPartition_StartingLBA_lt _ _)]

theorem DumpBootToBin_logical (u : Uninit) (d : Medium) (partitionNumber : Int)
    (bootFilename : Option Medium) (hf : fullFor 3 d.script) (hlen : 512 ≤ d.data.length)
    (hsig : signature d.data = 0xAA55) (h0 : 0 ≤ partitionNumber) (h3 : partitionNumber ≤ 3)
    (hne : (mbrPartition d.data partitionNumber.toNat).totalSectors ≠ 0)
    (hext : isExtended (mbrPartition d.data partitionNumber.toNat) = true)
    (hebr : (mbrPartition d.data partitionNumber.toNat).StartingLBA * 512 + 480 ≤ d.data.length) :
    DumpBootToBin u (some d) partitionNumber bootFilename
      = if ebrSignature
              (d.data.drop ((mbrPartition d.data partitionNumber.toNat).StartingLBA * 512))
            ≠ 0xAA55 then
          abort (some { data := d.data,
                        pos := (mbrPartition d.data partitionNumber.toNat).StartingLBA * 512 + 480,
                        script := d.script.drop 3,
                        log := [Call.read 512 512,
                          Call.seek (((mbrPartition d.data partitionNumber.toNat).StartingLBA * 512
                            : Nat) : Int),
                          Call.read 480 480] }) none
            (Msg.invalidEBRSignature (ebrSignature (d.data.drop
              ((mbrPartition d.data partitionNumber.toNat).StartingLBA * 512))))
        else
          DumpBootToBin_emit u
            { data := d.data,
              pos := (mbrPartition d.data partitionNumber.toNat).StartingLBA * 512 + 480,
              script := d.script.drop 3,
              log := [Call.read 512 512,
                Call.seek (((mbrPartition d.data partitionNumber.toNat).StartingLBA * 512
                  : Nat) : Int),
                Call.read 480 480] }
            (((mbrPartition d.data partitionNumber.toNat).StartingLBA * 512 + 512 : Nat) : Int)
            bootFilename := by
  unfold DumpBootToBin
  simp only []
  rw [ReadFile_first d (fullFor_mono 3 1 _ hf (by omega)) hlen]
  simp only []
  rw [overlay_of_length 512 u.mbr _ (length_take_512 d.data hlen), signature_take,
    if_neg (not_not.mpr hsig), if_neg (by omega), mbrPartition_take _ _ (by omega), if_neg hne,
    if_pos hext, mulSector_eq _ (mbrPartition_StartingLBA_lt _ _),
    addSector_eq _ (mbrPartition_StartingLBA_lt _ _)]
  generalize (mbrPartition d.data partitionNumber.toNat).StartingLBA * 512 = off at hebr ⊢
  rw [SetFilePointerEx_full _ _ (Int.ofNat_nonneg off)
    (by have := fullFor_getD 3 1 d.script hf (by omega); simpa using this)]
  simp only []
  rw [show sizeofEBR = 480 from rfl, ReadFile_full _ _
    (by have := fullFor_getD 3 2 d.script hf (by omega); simpa using this)]
  simp only [Int.toNat_ofNat]
  have hl : ((d.data.drop off).take 480).length = 480 := length_take_drop d.data off 480 hebr
  rw [hl, ebrSignature_overlay u.ebr _ hl]
  have hscr : d.script.tail.tail.tail = d.script.drop 3 := by
    cases d.script with
    | nil => rfl
    | cons a t =>
      cases t with
      | nil => rfl
      | cons b t =>
        cases t with
        | nil => rfl
        | cons c t => rfl
  rw [hscr]
  rfl

theorem DumpBootToBin_emit_nil (u : Uninit) (hDrive : HANDLE) (partitionOffset : Int)
    (o : Medium) (hs : hDrive.script = []) (ho : o.script = []) (h0 : 0 ≤ partitionOffset) :
    DumpBootToBin_emit u hDrive partitionOffset (some o)
      = { ret := some 0,
          drive := some
            { data := hDrive.data,
              pos := partitionOffset.toNat
                + ((hDrive.data.drop partitionOffset.toNat).take SECTOR_SIZE).length,
              script := [],
              log := hDrive.log ++ [Call.seek partitionOffset]
                ++ [Call.read SECTOR_SIZE
                  ((hDrive.data.drop partitionOffset.toNat).take SECTOR_SIZE).length] },
          file := some
            { data := overlay SECTOR_SIZE u.vbr
                ((hDrive.data.drop partitionOffset.toNat).take SECTOR_SIZE),
              pos := SECTOR_SIZE, script := [], log := [Call.write SECTOR_SIZE SECTOR_SIZE] },
          msgs := [] } := by
  unfold DumpBootToBin_emit
  rw [SetFilePointerEx_nil hDrive _ h0 hs]
  simp only []
  rw [ReadFile_nil _ _ rfl]
  simp only []
  rw [WriteFile_nil (createAlways o) _ ho]
  simp [createAlways, overlay_length, splice_end_eq]

theorem DumpMBRToBin_bad_signature (u : Uninit) (d : Medium) (mbrFilename : Option Medium)
    (hf : fullFor 1 d.script) (hlen : 512 ≤ d.data.length) (hsig : signature d.data ≠ 0xAA55) :
    DumpMBRToBin u (some d) mbrFilename
      = abort (some { data := d.data, pos := 512, script := d.script.tail,
                      log := [Call.read 512 512] }) none
          (Msg.invalidMBRSignature (signature d.data)) := by
  unfold DumpMBRToBin
  simp only []
  rw [ReadFile_first d hf hlen]
  simp only []
  rw [overlay_of_length 512 u.mbr _ (length_take_512 d.data hlen), signature_take, if_pos hsig]

theorem DumpMBRToBin_good_signature (u : Uninit) (d o : Medium)
    (hf : fullFor 1 d.script) (ho : fullFor 1 o.script) (hlen : 512 ≤ d.data.length)
    (hsig : signature d.data = 0xAA55) :
    DumpMBRToBin u (some d) (some o)
      = { ret := some 0,
          drive := some { data := d.data, pos := 512, script := d.script.tail,
                          log := [Call.read 512 512] },
          file := some { data := d.data.take 512, pos := 512, script := o.script.tail,
                         log := [Call.write 512 512] },
          msgs := [] } := by
  unfold DumpMBRToBin
  simp only []
  rw [ReadFile_first d hf hlen]
  simp only []
  rw [overlay_of_length 512 u.mbr _ (length_take_512 d.data hlen), signature_take,
    if_neg (not_not.mpr hsig)]
  rw [WriteFile_full (createAlways o) _ (fullFor_head 0 _ ho)]
  simp [createAlways, splice_end_eq, length_take_512 d.data hlen]

theorem wrtImg_Disk_part_bad_signature (u : Uninit) (d f : Medium) (partitionNumber : Int)
    (hf : fullFor 1 f.script) (hlen : 512 ≤ f.data.length) (hsig : signature f.data ≠ 0xAA55) :
    wrtImg_Disk_part u (some d) partitionNumber (some f)
      = abort (some (openExisting d))
          (some { data := f.data, pos := 512, script := f.script.tail,
                  log := [Call.read 512 512] })
          (Msg.invalidMBRSignature (signature f.data)) := by
  unfold wrtImg_Disk_part
  simp only []
  rw [ReadFile_first f hf hlen]
  simp only []
  rw [overlay_of_length 512 u.mbr _ (length_take_512 f.data hlen), signature_take, if_pos hsig]

theorem wrtImg_Disk_part_empty_slot (u : Uninit) (d f : Medium) (partitionNumber : Int)
    (hf : fullFor 1 f.script) (hlen : 512 ≤ f.data.length) (hsig : signature f.data = 0xAA55)
    (h0 : 0 ≤ partitionNumber) (h3 : partitionNumber ≤ 3)
    (hemp : (mbrPartition f.data partitionNumber.toNat).totalSectors = 0) :
    wrtImg_Disk_part u (some d) partitionNumber (some f)
      = abort (some (openExisting d))
          (some { data := f.data, pos := 512, script := f.script.tail,
                  log := [Call.read 512 512] })
          Msg.emptyPartition := by
  unfold wrtImg_Disk_part
  simp only []
  rw [ReadFile_first f hf hlen]
  simp only []
  rw [overlay_of_length 512 u.mbr _ (length_take_512 f.data hlen), signature_take,
    if_neg (not_not.mpr hsig), if_neg (by omega), mbrPartition_take _ _ (by omega), if_pos hemp]

theorem ebrPartition_StartingLBA_lt (buf : List BYTE) :
    (ebrPartition buf).StartingLBA < 2 ^ 32 := entryAt_StartingLBA_lt buf 446

theorem sectorsToPartition_eq (isLogical : Bool) (partition : PARTITION_ENTRY) :
    sectorsToPartition isLogical partition = subDWORD partition.StartingLBA 1 := by
  unfold sectorsToPartition
  exact ite_self _

theorem splice_nil (data : List BYTE) (pos : Nat) : splice data pos [] = data := rfl

/-- The image file just before the copy loop of `crtPartImage` starts: header,
padding, EBR if logical, and the boot sector. -/
theorem crtPartImage_emit_nil (u : Uninit) (hDrive : HANDLE) (mbr ebr : List BYTE)
    (isLogical : Bool) (partition : PARTITION_ENTRY) (partitionOffset : Int) (o : Medium)
    (hs : hDrive.script = []) (ho : o.script = []) (h0 : 0 ≤ partitionOffset) :
    ∃ hD hO : HANDLE,
      hD.data = hDrive.data ∧ hD.script = [] ∧
      hD.pos = partitionOffset.toNat
        + ((hDrive.data.drop partitionOffset.toNat).take SECTOR_SIZE).length ∧
      hO.data = mbr ++ List.replicate (sectorsToPartition isLogical partition * SECTOR_SIZE) 0
        ++ (bif isLogical then ebr else [])
        ++ overlay SECTOR_SIZE u.vbr ((hDrive.data.drop partitionOffset.toNat).take SECTOR_SIZE) ∧
      hO.pos = hO.data.length ∧ hO.script = [] ∧
      crtPartImage_emit u hDrive mbr ebr isLogical partition partitionOffset (some o)
        = { ret := copyReturn (copyData chunkSize (toLONGLONG
                (toLONGLONG ((partition.totalSectors : Int) * (SECTOR_SIZE : Int))
                  - (SECTOR_SIZE : Int))) hD hO).exit,
            drive := some (copyData chunkSize (toLONGLONG
                (toLONGLONG ((partition.totalSectors : Int) * (SECTOR_SIZE : Int))
                  - (SECTOR_SIZE : Int))) hD hO).src,
            file := some (copyData chunkSize (toLONGLONG
                (toLONGLONG ((partition.totalSectors : Int) * (SECTOR_SIZE : Int))
                  - (SECTOR_SIZE : Int))) hD hO).dst,
            msgs := (copyData chunkSize (toLONGLONG
                (toLONGLONG ((partition.totalSectors : Int) * (SECTOR_SIZE : Int))
                  - (SECTOR_SIZE : Int))) hD hO).msgs } := by
  unfold crtPartImage_emit
  generalize sectorsToPartition isLogical partition = pad
  generalize toLONGLONG ((partition.totalSectors : Int) * (SECTOR_SIZE : Int)) = size
  simp only []
  rw [WriteFile_nil (createAlways o) mbr ho]
  simp only []
  rw [writeZeroSectors_nil _ _ rfl]
  simp only []
  cases isLogical
  · rw [if_neg Bool.false_ne_true]
    simp only []
    rw [SetFilePointerEx_nil hDrive _ h0 hs]
    simp only []
    rw [ReadFile_nil _ _ rfl]
    simp only []
    rw [WriteFile_nil _ _ rfl]
    simp only []
    refine ⟨_, _, ?_, ?_, ?_, ?_, ?_, ?_, rfl⟩
    · rfl
    · rfl
    · rfl
    · simp [createAlways, splice_end_eq, Nat.add_assoc]
    · simp [createAlways, splice_end_eq, overlay_length, Nat.add_assoc]
    · rfl
  · rw [if_pos rfl]
    rw [WriteFile_nil _ _ rfl]
    simp only []
    rw [SetFilePointerEx_nil hDrive _ h0 hs]
    simp only []
    rw [ReadFile_nil _ _ rfl]
    simp only []
    rw [WriteFile_nil _ _ rfl]
    simp only []
    refine ⟨_, _, ?_, ?_, ?_, ?_, ?_, ?_, rfl⟩
    · rfl
    · rfl
    · rfl
    · simp [createAlways, splice_end_eq, Nat.add_assoc]
    · simp [createAlways, splice_end_eq, overlay_length, Nat.add_assoc]
    · rfl

/-- The device just before the copy loop of `wrtImg_Disk_part` starts: the
MBR, the zero sectors and (if logical) the EBR stored from the file pointer
on, then the boot sector stored at `partitionOffset`. -/
theorem wrtImg_Disk_part_emit_nil (u : Uninit) (hDrive hIn : HANDLE) (mbr ebr : List BYTE)
    (isLogical : Bool) (partition : PARTITION_ENTRY) (partitionOffset : Int)
    (hs : hDrive.script = []) (hi : hIn.script = []) (h0 : 0 ≤ partitionOffset) :
    ∃ hD hI : HANDLE,
      hI.data = hIn.data ∧ hI.script = [] ∧
      hI.pos = hIn.pos + ((hIn.data.drop hIn.pos).take SECTOR_SIZE).length ∧
      hD.data = splice
        (splice
          (splice (splice hDrive.data hDrive.pos mbr) (hDrive.pos + mbr.length)
            (List.replicate (sectorsToPartition isLogical partition * SECTOR_SIZE) 0))
          (hDrive.pos + mbr.length + sectorsToPartition isLogical partition * SECTOR_SIZE)
          (bif isLogical then ebr else []))
        partitionOffset.toNat
        (overlay SECTOR_SIZE u.vbr ((hIn.data.drop hIn.pos).take SECTOR_SIZE)) ∧
      hD.pos = partitionOffset.toNat + SECTOR_SIZE ∧ hD.script = [] ∧
      wrtImg_Disk_part_emit u hDrive hIn mbr ebr isLogical partition partitionOffset
        = { ret := copyReturn (copyData chunkSize (toLONGLONG
                (toLONGLONG ((partition.totalSectors : Int) * (SECTOR_SIZE : Int))
                  - (SECTOR_SIZE : Int))) hI hD).exit,
            drive := some (copyData chunkSize (toLONGLONG
                (toLONGLONG ((partition.totalSectors : Int) * (SECTOR_SIZE : Int))
                  - (SECTOR_SIZE : Int))) hI hD).dst,
            file := some (copyData chunkSize (toLONGLONG
                (toLONGLONG ((partition.totalSectors : Int) * (SECTOR_SIZE : Int))
                  - (SECTOR_SIZE : Int))) hI hD).src,
            msgs := (copyData chunkSize (toLONGLONG
                (toLONGLONG ((partition.totalSectors : Int) * (SECTOR_SIZE : Int))
                  - (SECTOR_SIZE : Int))) hI hD).msgs } := by
  unfold wrtImg_Disk_part_emit
  generalize sectorsToPartition isLogical partition = pad
  generalize toLONGLONG ((partition.totalSectors : Int) * (SECTOR_SIZE : Int)) = size
  simp only []
  rw [WriteFile_nil hDrive mbr hs]
  simp only []
  rw [writeZeroSectors_nil _ _ rfl]
  simp only []
  cases isLogical
  · rw [if_neg Bool.false_ne_true]
    simp only []
    rw [ReadFile_nil hIn _ hi]
    simp only []
    rw [SetFilePointerEx_nil _ _ h0 rfl]
    simp only []
    rw [WriteFile_nil _ _ rfl]
    simp only []
    refine ⟨_, _, ?_, ?_, ?_, ?_, ?_, ?_, rfl⟩
    · rfl
    · rfl
    · rfl
    · rfl
    · simp only [overlay_length]
    · rfl
  · rw [if_pos rfl]
    rw [WriteFile_nil _ _ rfl]
    simp only []
    rw [ReadFile_nil hIn _ hi]
    simp only []
    rw [SetFilePointerEx_nil _ _ h0 rfl]
    simp only []
    rw [WriteFile_nil _ _ rfl]
    simp only []
    refine ⟨_, _, ?_, ?_, ?_, ?_, ?_, ?_, rfl⟩
    · rfl
    · rfl
    · rfl
    · rfl
    · simp only [overlay_length]
    · rfl

/-! ## The image written by `crtPartImage` -/

theorem mbrPartition_totalSectors_lt (buf : List BYTE) (i : Nat) :
    (mbrPartition buf i).totalSectors < 2 ^ 32 := entryAt_totalSectors_lt buf (slotOffset i)

theorem ebrPartition_totalSectors_lt (buf : List BYTE) :
    (ebrPartition buf).totalSectors < 2 ^ 32 := entryAt_totalSectors_lt buf 446

theorem sizeBytes_eq (t : Nat) (ht : t < 2 ^ 32) :
    toLONGLONG (toLONGLONG ((t : Int) * (SECTOR_SIZE : Int)) - (SECTOR_SIZE : Int))
      = ((t * 512 : Nat) : Int) - 512 := by
  rw [mulSector_eq t ht, toLONGLONG_of_range _ (by simp only [SECTOR_SIZE]; omega)
    (by simp only [SECTOR_SIZE]; omega)]
  simp [SECTOR_SIZE]

theorem sizeBytes_toNat (t : Nat) : (((t * 512 : Nat) : Int) - 512).toNat = t * 512 - 512 := by
  omega

theorem chunkSize_pos : 0 < chunkSize := by decide

theorem chunkSize_lt : chunkSize < 2 ^ 32 := by decide

/-- What `crtPartImage` leaves in the image file once the partition is located,
when no fault is injected: `m` is the number of data bytes the copy loop moved. -/
theorem crtPartImage_emit_image (u : Uninit) (hDrive : HANDLE) (mbr ebr : List BYTE)
    (isLogical : Bool) (partition : PARTITION_ENTRY) (off : Nat) (o : Medium)
    (hs : hDrive.script = []) (ho : o.script = []) (ht : partition.totalSectors < 2 ^ 32) :
    ∃ (m : Nat) (hO : HANDLE),
      m ≤ partition.totalSectors * 512 - 512 ∧
      (off + SECTOR_SIZE + (partition.totalSectors * 512 - 512) ≤ hDrive.data.length →
        m = partition.totalSectors * 512 - 512) ∧
      (crtPartImage_emit u hDrive mbr ebr isLogical partition (off : Int) (some o)).ret = some 0 ∧
      (crtPartImage_emit u hDrive mbr ebr isLogical partition (off : Int) (some o)).file
        = some hO ∧
      hO.data = mbr
        ++ List.replicate (subDWORD partition.StartingLBA 1 * SECTOR_SIZE) 0
        ++ (bif isLogical then ebr else [])
        ++ overlay SECTOR_SIZE u.vbr ((hDrive.data.drop off).take SECTOR_SIZE)
        ++ (hDrive.data.drop (off + ((hDrive.data.drop off).take SECTOR_SIZE).length)).take m := by
  obtain ⟨hD, hO, hDd, hDs, hDp, hOd, hOp, hOs, heq⟩ :=
    crtPartImage_emit_nil u hDrive mbr ebr isLogical partition (off : Int) o hs ho
      (Int.ofNat_nonneg _)
  rw [heq, sizeBytes_eq _ ht]
  rw [Int.toNat_ofNat] at hDp hOd
  obtain ⟨m, hm, hmeq, hret, hdata, -, -, -⟩ :=
    copyData_nil chunkSize chunkSize_pos chunkSize_lt
      (((partition.totalSectors * 512 : Nat) : Int) - 512) hD hO hDs hOs
  rw [sizeBytes_toNat] at hm hmeq
  refine ⟨m, _, hm, ?_, hret, rfl, ?_⟩
  · intro hall
    apply hmeq
    rw [hDp, hDd]
    have := length_take_drop hDrive.data off SECTOR_SIZE (by omega)
    omega
  · rw [hdata, splice_end_eq _ _ _ hOp, hOd, hDp, hDd, sectorsToPartition_eq]

theorem overlay_sector (u : List BYTE) (data : List BYTE) (off : Nat)
    (h : off + 512 ≤ data.length) :
    overlay SECTOR_SIZE u ((data.drop off).take SECTOR_SIZE) = (data.drop off).take 512 :=
  overlay_of_length _ _ _ (length_take_drop data off 512 h)

/-! ## Properties of the operations -/

/-- C2: for a device whose MBR has signature `0xAA55` and an index in `0..3`
whose entry is primary with `totalSectors ≥ 1` and `StartingLBA ≥ 1`, if the
device holds `StartingLBA*512 + totalSectors*512` bytes and no fault is
injected, `crtPartImage` returns 0 and the image is the MBR with the boot
indicator of the slot set to `0x80`, then `(StartingLBA - 1) * 512` zero bytes,
then the device bytes of the partition; its length is
`StartingLBA*512 + totalSectors*512`. -/
theorem primary_extraction_content (u : Uninit) (d o : Medium) (partitionNum : Int)
    (hds : d.script = []) (hos : o.script = [])
    (hsig : signature d.data = 0xAA55) (h0 : 0 ≤ partitionNum) (h3 : partitionNum ≤ 3)
    (hprim : isExtended (mbrPartition d.data partitionNum.toNat) = false)
    (hT : 1 ≤ (mbrPartition d.data partitionNum.toNat).totalSectors)
    (hS : 1 ≤ (mbrPartition d.data partitionNum.toNat).StartingLBA)
    (hlen : (mbrPartition d.data partitionNum.toNat).StartingLBA * 512
      + (mbrPartition d.data partitionNum.toNat).totalSectors * 512 ≤ d.data.length) :
    (crtPartImage u (some d) partitionNum (some o)).ret = some 0 ∧
    (crtPartImage u (some d) partitionNum (some o)).file.map HANDLE.data
      = some ((d.data.take 512).set (slotOffset partitionNum.toNat) 0x80
          ++ List.replicate (((mbrPartition d.data partitionNum.toNat).StartingLBA - 1) * 512) 0
          ++ (d.data.drop ((mbrPartition d.data partitionNum.toNat).StartingLBA * 512)).take
              ((mbrPartition d.data partitionNum.toNat).totalSectors * 512)) ∧
    ((d.data.take 512).set (slotOffset partitionNum.toNat) 0x80
        ++ List.replicate (((mbrPartition d.data partitionNum.toNat).StartingLBA - 1) * 512) 0
        ++ (d.data.drop ((mbrPartition d.data partitionNum.toNat).StartingLBA * 512)).take
            ((mbrPartition d.data partitionNum.toNat).totalSectors * 512)).length
      = (mbrPartition d.data partitionNum.toNat).StartingLBA * 512
        + (mbrPartition d.data partitionNum.toNat).totalSectors * 512 := by
  have hl : 512 ≤ d.data.length := by omega
  have hf : fullFor 1 d.script := hds ▸ fullFor_nil 1
  have hSlt := mbrPartition_StartingLBA_lt d.data partitionNum.toNat
  rw [crtPartImage_primary u d partitionNum (some o) hf hl hsig h0 h3 (by omega) hprim]
  obtain ⟨m, hO, -, hm, hret, hfile, hdata⟩ :=
    crtPartImage_emit_image u
      { data := d.data, pos := 512, script := d.script.tail, log := [Call.read 512 512] }
      ((d.data.take 512).set (slotOffset partitionNum.toNat) 0x80) (overlay 512 u.ebr [])
      false (mbrPartition d.data partitionNum.toNat)
      ((mbrPartition d.data partitionNum.toNat).StartingLBA * 512) o
      (by rw [hds]; rfl) hos (mbrPartition_totalSectors_lt _ _)
  generalize (mbrPartition d.data partitionNum.toNat).StartingLBA = S at *
  generalize (mbrPartition d.data partitionNum.toNat).totalSectors = T at *
  have hm' := hm (by simp only [SECTOR_SIZE]; omega)
  rw [hm'] at hdata
  simp only at hdata
  rw [overlay_sector _ _ _ (by omega), length_take_drop d.data (S * 512) SECTOR_SIZE
    (by simp only [SECTOR_SIZE]; omega), subDWORD_one_of_pos S hS hSlt, cond_false,
    List.append_nil] at hdata
  have hjoin : (d.data.drop (S * 512)).take 512
      ++ (d.data.drop (S * 512 + SECTOR_SIZE)).take (T * 512 - 512)
      = (d.data.drop (S * 512)).take (T * 512) := by
    have := take_add_drop d.data (S * 512) 512 (T * 512 - 512)
    rw [show 512 + (T * 512 - 512) = T * 512 by omega] at this
    exact this
  rw [List.append_assoc _ ((d.data.drop (S * 512)).take 512), hjoin] at hdata
  refine ⟨hret, ?_, ?_⟩
  · rw [hfile, Option.map_some', hdata]
    rfl
  · simp only [List.length_append, List.length_set, List.length_take, List.length_replicate,
      List.length_drop]
    omega

/-! ## Facts about the sample media -/

theorem primaryDisk_length : primaryDisk.data.length = 2048 := by
  simp only [primaryDisk, sampleSector, sampleEntry, List.length_append, List.length_replicate,
    List.length_cons, List.length_nil]

set_option maxRecDepth 8000 in
theorem primaryDisk_signature : signature primaryDisk.data = 0xAA55 := by decide

set_option maxRecDepth 8000 in
theorem primaryDisk_entry :
    (mbrPartition primaryDisk.data (2 : Int).toNat).StartingLBA = 2 ∧
    (mbrPartition primaryDisk.data (2 : Int).toNat).totalSectors = 2 ∧
    isExtended (mbrPartition primaryDisk.data (2 : Int).toNat) = false := by decide

theorem primary_extraction_content_witness :
    (crtPartImage noUninit (some primaryDisk) 2 (some emptyFile)).ret = some 0 ∧
    (crtPartImage noUninit (some primaryDisk) 2 (some emptyFile)).file.map HANDLE.data
      = some ((primaryDisk.data.take 512).set (slotOffset (2 : Int).toNat) 0x80
          ++ List.replicate
              (((mbrPartition primaryDisk.data (2 : Int).toNat).StartingLBA - 1) * 512) 0
          ++ (primaryDisk.data.drop
                ((mbrPartition primaryDisk.data (2 : Int).toNat).StartingLBA * 512)).take
              ((mbrPartition primaryDisk.data (2 : Int).toNat).totalSectors * 512)) ∧
    ((primaryDisk.data.take 512).set (slotOffset (2 : Int).toNat) 0x80
        ++ List.replicate
            (((mbrPartition primaryDisk.data (2 : Int).toNat).StartingLBA - 1) * 512) 0
        ++ (primaryDisk.data.drop
              ((mbrPartition primaryDisk.data (2 : Int).toNat).StartingLBA * 512)).take
            ((mbrPartition primaryDisk.data (2 : Int).toNat).totalSectors * 512)).length
      = (mbrPartition primaryDisk.data (2 : Int).toNat).StartingLBA * 512
        + (mbrPartition primaryDisk.data (2 : Int).toNat).totalSectors * 512 :=
  primary_extraction_content noUninit primaryDisk emptyFile 2 rfl rfl primaryDisk_signature
    (by decide) (by decide) primaryDisk_entry.2.2
    (by rw [primaryDisk_entry.2.1]; decide) (by rw [primaryDisk_entry.1]; decide)
    (by rw [primaryDisk_entry.1, primaryDisk_entry.2.1, primaryDisk_length])

/-- C9: the copy loop of `crtPartImage` and `wrtImg_Disk_part` with chunk size
`c`, for a byte count `q * c + r` with `r < c`, when every read and write
transfers what is asked: exactly `q` reads and `q` writes of `c` bytes, then
one read and one write of `r` bytes if `r > 0`; the loop ends with nothing
remaining, prints no warning, and the bytes have reached the sink. -/
theorem chunked_copy_exact (c q r : Nat) (src dst : HANDLE)
    (hc0 : 0 < c) (hc : c < 2 ^ 32) (hr : r < c)
    (hs : fullFor (q + 1) src.script) (hd : fullFor (q + 1) dst.script)
    (hlen : src.pos + (q * c + r) ≤ src.data.length) :
    (copyData c ((q * c + r : Nat) : Int) src dst).exit = LoopExit.done ∧
    (copyData c ((q * c + r : Nat) : Int) src dst).bytesToCopy = 0 ∧
    (copyData c ((q * c + r : Nat) : Int) src dst).msgs = [] ∧
    copyReturn (copyData c ((q * c + r : Nat) : Int) src dst).exit = some 0 ∧
    (copyData c ((q * c + r : Nat) : Int) src dst).src.log
      = src.log ++ List.replicate q (Call.read c c) ++ (if 0 < r then [Call.read r r] else []) ∧
    (copyData c ((q * c + r : Nat) : Int) src dst).dst.log
      = dst.log ++ List.replicate q (Call.write c c)
        ++ (if 0 < r then [Call.write r r] else []) ∧
    (copyData c ((q * c + r : Nat) : Int) src dst).dst.data
      = splice dst.data dst.pos ((src.data.drop src.pos).take (q * c + r)) := by
  rw [copyData_complete c q r src dst hc0 hc hr hs hd hlen]
  exact ⟨rfl, rfl, rfl, rfl, rfl, rfl, rfl⟩

theorem chunked_copy_exact_witness :
    (copyData 64 ((3 * 64 + 37 : Nat) : Int) sampleSource sampleSink).exit = LoopExit.done ∧
    (copyData 64 ((3 * 64 + 37 : Nat) : Int) sampleSource sampleSink).bytesToCopy = 0 ∧
    (copyData 64 ((3 * 64 + 37 : Nat) : Int) sampleSource sampleSink).msgs = [] ∧
    copyReturn (copyData 64 ((3 * 64 + 37 : Nat) : Int) sampleSource sampleSink).exit
      = some 0 ∧
    (copyData 64 ((3 * 64 + 37 : Nat) : Int) sampleSource sampleSink).src.log
      = sampleSource.log ++ List.replicate 3 (Call.read 64 64)
        ++ (if 0 < 37 then [Call.read 37 37] else []) ∧
    (copyData 64 ((3 * 64 + 37 : Nat) : Int) sampleSource sampleSink).dst.log
      = sampleSink.log ++ List.replicate 3 (Call.write 64 64)
        ++ (if 0 < 37 then [Call.write 37 37] else []) ∧
    (copyData 64 ((3 * 64 + 37 : Nat) : Int) sampleSource sampleSink).dst.data
      = splice sampleSink.data sampleSink.pos
          ((sampleSource.data.drop sampleSource.pos).take (3 * 64 + 37)) :=
  chunked_copy_exact 64 3 37 sampleSource sampleSink (by decide) (by decide) (by decide)
    (fullFor_nil 4) (fullFor_nil 4)
    (by simp only [sampleSource, List.length_replicate]; decide)

/-- C10: the copy loop of `crtPartImage` and `wrtImg_Disk_part` when the first
`k` rounds move whole chunks and the source then returns fewer bytes than
asked: the loop stops at once (one more read in the history of the source, no
further write on the sink, the short chunk is not written), the warning gives
the remaining count as the total minus the `k` chunks moved, and the return
value is 0. -/
theorem chunked_copy_short_read (c k : Nat) (n : Int) (src dst : HANDLE)
    (hc0 : 0 < c) (hc : c < 2 ^ 32) (hk : ((k * c : Nat) : Int) < n)
    (hs : fullFor k src.script) (hd : fullFor k dst.script)
    (hlen : k * c ≤ src.data.length - src.pos)
    (hb : src.script.getD k Behaviour.full ≠ Behaviour.fail)
    (hshort : min (allowance (src.script.getD k Behaviour.full)
        (toRead c (n - ((k * c : Nat) : Int)))) (src.data.length - (src.pos + k * c))
      < toRead c (n - ((k * c : Nat) : Int))) :
    (copyData c n src dst).exit = LoopExit.shortRead ∧
    copyReturn (copyData c n src dst).exit = some 0 ∧
    (copyData c n src dst).bytesToCopy = n - ((k * c : Nat) : Int) ∧
    (copyData c n src dst).msgs
      = [Msg.shortRead
          (min (allowance (src.script.getD k Behaviour.full)
            (toRead c (n - ((k * c : Nat) : Int)))) (src.data.length - (src.pos + k * c)))
          (toRead c (n - ((k * c : Nat) : Int))),
        Msg.notAllCopied (n - ((k * c : Nat) : Int))] ∧
    (copyData c n src dst).src.log
      = src.log ++ List.replicate k (Call.read c c)
        ++ [Call.read (toRead c (n - ((k * c : Nat) : Int)))
          (min (allowance (src.script.getD k Behaviour.full)
            (toRead c (n - ((k * c : Nat) : Int)))) (src.data.length - (src.pos + k * c)))] ∧
    (copyData c n src dst).dst.log = dst.log ++ List.replicate k (Call.write c c) ∧
    (copyData c n src dst).dst.data
      = splice dst.data dst.pos ((src.data.drop src.pos).take (k * c)) ∧
    (copyData c n src dst).dst.pos = dst.pos + k * c := by
  rw [copyData_short_read c k n src dst hc0 hc hk hs hd hlen hb hshort]
  exact ⟨rfl, rfl, rfl, rfl, rfl, rfl, rfl, rfl⟩

theorem chunked_copy_short_read_witness :
    (copyData 64 229 shortSource sampleSink).exit = LoopExit.shortRead ∧
    copyReturn (copyData 64 229 shortSource sampleSink).exit = some 0 ∧
    (copyData 64 229 shortSource sampleSink).bytesToCopy = 229 - ((1 * 64 : Nat) : Int) ∧
    (copyData 64 229 shortSource sampleSink).msgs
      = [Msg.shortRead
          (min (allowance (shortSource.script.getD 1 Behaviour.full)
            (toRead 64 (229 - ((1 * 64 : Nat) : Int))))
            (shortSource.data.length - (shortSource.pos + 1 * 64)))
          (toRead 64 (229 - ((1 * 64 : Nat) : Int))),
        Msg.notAllCopied (229 - ((1 * 64 : Nat) : Int))] ∧
    (copyData 64 229 shortSource sampleSink).src.log
      = shortSource.log ++ List.replicate 1 (Call.read 64 64)
        ++ [Call.read (toRead 64 (229 - ((1 * 64 : Nat) : Int)))
          (min (allowance (shortSource.script.getD 1 Behaviour.full)
            (toRead 64 (229 - ((1 * 64 : Nat) : Int))))
            (shortSource.data.length - (shortSource.pos + 1 * 64)))] ∧
    (copyData 64 229 shortSource sampleSink).dst.log
      = sampleSink.log ++ List.replicate 1 (Call.write 64 64) ∧
    (copyData 64 229 shortSource sampleSink).dst.data
      = splice sampleSink.data sampleSink.pos
          ((shortSource.data.drop shortSource.pos).take (1 * 64)) ∧
    (copyData 64 229 shortSource sampleSink).dst.pos = sampleSink.pos + 1 * 64 :=
  chunked_copy_short_read 64 1 229 shortSource sampleSink (by decide) (by decide) (by decide)
    (by decide) (by decide)
    (by simp only [shortSource, List.length_replicate]; decide)
    (by decide)
    (by simp only [shortSource, List.length_replicate]; decide)

theorem byteAt_set_eq (buf : List BYTE) (i : Nat) (v : BYTE) (h : i < buf.length) :
    byteAt (buf.set i v) i = v := by
  unfold byteAt
  simp [List.getD_eq_getElem?_getD, h]

theorem byteAt_set_ne (buf : List BYTE) (i j : Nat) (v : BYTE) (h : j ≠ i) :
    byteAt (buf.set i v) j = byteAt buf j := by
  unfold byteAt
  simp [List.getD_eq_getElem?_getD, List.getElem?_set_ne (Ne.symm h)]

/-- The first sector of the image written by `crtPartImage` for a primary slot. -/
theorem crtPartImage_primary_header (u : Uninit) (d o : Medium) (partitionNum : Int)
    (hds : d.script = []) (hos : o.script = []) (hlen : 512 ≤ d.data.length)
    (hsig : signature d.data = 0xAA55) (h0 : 0 ≤ partitionNum) (h3 : partitionNum ≤ 3)
    (hne : (mbrPartition d.data partitionNum.toNat).totalSectors ≠ 0)
    (hprim : isExtended (mbrPartition d.data partitionNum.toNat) = false) :
    ∃ hO : HANDLE,
      (crtPartImage u (some d) partitionNum (some o)).ret = some 0 ∧
      (crtPartImage u (some d) partitionNum (some o)).file = some hO ∧
      hO.data.take 512 = (d.data.take 512).set (slotOffset partitionNum.toNat) 0x80 := by
  have hf : fullFor 1 d.script := hds ▸ fullFor_nil 1
  rw [crtPartImage_primary u d partitionNum (some o) hf hlen hsig h0 h3 hne hprim]
  obtain ⟨m, hO, -, -, hret, hfile, hdata⟩ :=
    crtPartImage_emit_image u
      { data := d.data, pos := 512, script := d.script.tail, log := [Call.read 512 512] }
      ((d.data.take 512).set (slotOffset partitionNum.toNat) 0x80) (overlay 512 u.ebr [])
      false (mbrPartition d.data partitionNum.toNat)
      ((mbrPartition d.data partitionNum.toNat).StartingLBA * 512) o
      (by rw [hds]; rfl) hos (mbrPartition_totalSectors_lt _ _)
  refine ⟨hO, hret, hfile, ?_⟩
  rw [hdata]
  have hl : ((d.data.take 512).set (slotOffset partitionNum.toNat) 0x80).length = 512 := by
    rw [List.length_set, length_take_512 d.data hlen]
  simp only [List.append_assoc]
  exact take_append_self _ _ 512 hl

/-- C7: for an MBR and an index in `0..3` that `crtPartImage` resolves as a
primary partition, the MBR sector written to the image has the boot indicator
of that slot equal to `0x80`, and every other byte of the sector (the other
slots, the other 15 bytes of the slot, the boot code, the signature) is the
byte read from the device. -/
theorem boot_indicator_mutation (u : Uninit) (d o : Medium) (partitionNum : Int)
    (hds : d.script = []) (hos : o.script = []) (hlen : 512 ≤ d.data.length)
    (hsig : signature d.data = 0xAA55) (h0 : 0 ≤ partitionNum) (h3 : partitionNum ≤ 3)
    (hne : (mbrPartition d.data partitionNum.toNat).totalSectors ≠ 0)
    (hprim : isExtended (mbrPartition d.data partitionNum.toNat) = false) :
    ∃ hO : HANDLE,
      (crtPartImage u (some d) partitionNum (some o)).file = some hO ∧
      (hO.data.take 512).length = 512 ∧
      (mbrPartition (hO.data.take 512) partitionNum.toNat).bootIndicator = 0x80 ∧
      ∀ j, j < 512 → j ≠ slotOffset partitionNum.toNat →
        byteAt (hO.data.take 512) j = byteAt d.data j := by
  obtain ⟨hO, -, hfile, hhead⟩ :=
    crtPartImage_primary_header u d o partitionNum hds hos hlen hsig h0 h3 hne hprim
  have hl : (d.data.take 512).length = 512 := length_take_512 d.data hlen
  refine ⟨hO, hfile, ?_, ?_, ?_⟩
  · rw [hhead, List.length_set, hl]
  · rw [hhead]
    show byteAt _ (slotOffset partitionNum.toNat) = 0x80
    exact byteAt_set_eq _ _ _ (by rw [hl]; unfold slotOffset; omega)
  · intro j hj hne
    rw [hhead, byteAt_set_ne _ _ _ _ hne, byteAt_take _ _ _ hj]

theorem boot_indicator_mutation_witness :
    ∃ hO : HANDLE,
      (crtPartImage noUninit (some primaryDisk) 2 (some emptyFile)).file = some hO ∧
      (hO.data.take 512).length = 512 ∧
      (mbrPartition (hO.data.take 512) (2 : Int).toNat).bootIndicator = 0x80 ∧
      ∀ j, j < 512 → j ≠ slotOffset (2 : Int).toNat →
        byteAt (hO.data.take 512) j = byteAt primaryDisk.data j :=
  boot_indicator_mutation noUninit primaryDisk emptyFile 2 rfl rfl
    (by rw [primaryDisk_length]; decide) primaryDisk_signature (by decide) (by decide)
    (by rw [primaryDisk_entry.2.1]; decide) primaryDisk_entry.2.2

theorem signature_iff_bytes (buf : List BYTE) :
    signature buf = 0xAA55 ↔ byteAt buf 510 = 0x55 ∧ byteAt buf 511 = 0xAA := by
  show (byteAt buf 510).val + 256 * (byteAt buf 511).val = 43605 ↔ _
  have h1 := (byteAt buf 510).isLt
  have h2 := (byteAt buf 511).isLt
  constructor
  · intro h
    exact ⟨Fin.ext (by show (byteAt buf 510).val = 85; omega),
      Fin.ext (by show (byteAt buf 511).val = 170; omega)⟩
  · rintro ⟨ha, hb⟩
    rw [ha, hb]
    rfl

theorem unsignedDisk_length : unsignedDisk.data.length = 1024 := by
  simp only [unsignedDisk, List.length_replicate]

set_option maxRecDepth 8000 in
theorem unsignedDisk_signature : signature unsignedDisk.data ≠ 0xAA55 := by decide

theorem crtPartImage_emit_ret (u : Uninit) (hDrive : HANDLE) (mbr ebr : List BYTE)
    (isLogical : Bool) (partition : PARTITION_ENTRY) (partitionOffset : Int) (o : Medium)
    (hs : hDrive.script = []) (ho : o.script = []) (h0 : 0 ≤ partitionOffset) :
    (crtPartImage_emit u hDrive mbr ebr isLogical partition partitionOffset (some o)).ret
      = some 0 := by
  obtain ⟨hD, hO, _, hDs, _, _, _, hOs, heq⟩ :=
    crtPartImage_emit_nil u hDrive mbr ebr isLogical partition partitionOffset o hs ho h0
  obtain ⟨m, -, -, hret, -⟩ :=
    copyData_nil chunkSize chunkSize_pos chunkSize_lt
      (toLONGLONG (toLONGLONG ((partition.totalSectors : Int) * (SECTOR_SIZE : Int))
        - (SECTOR_SIZE : Int))) hD hO hDs hOs
  rw [heq]
  simp only []
  exact hret

theorem emptyTableDisk_length : emptyTableDisk.data.length = 1024 := by
  simp only [emptyTableDisk, sampleSector, sampleEntry, List.length_append, List.length_replicate,
    List.length_cons, List.length_nil]

set_option maxRecDepth 8000 in
theorem emptyTableDisk_signature : signature emptyTableDisk.data = 0xAA55 := by decide

set_option maxRecDepth 8000 in
theorem emptyTableDisk_entry :
    (mbrPartition emptyTableDisk.data (3 : Int).toNat).totalSectors = 0 := by decide

/-- C6: on a device (for `wrtImg_Disk_part`: an image file) whose first sector
is read in full and carries a valid signature, an index in `0..3` whose slot
has `totalSectors = 0` makes `crtPartImage`, `DumpBootToBin` and
`wrtImg_Disk_part` return 1 with the message for an empty partition; nothing
is asked of the other fields of the entry, of the output or of the
destination. -/
theorem empty_slot (u : Uninit) (d : Medium) (idx : Int) (hf : fullFor 1 d.script)
    (hlen : 512 ≤ d.data.length) (hsig : signature d.data = 0xAA55)
    (h0 : 0 ≤ idx) (h3 : idx ≤ 3)
    (hemp : (mbrPartition d.data idx.toNat).totalSectors = 0) :
    ∀ (out : Option Medium) (dest : Medium),
      ((crtPartImage u (some d) idx out).ret = some 1 ∧
        (crtPartImage u (some d) idx out).msgs = [Msg.emptyPartition]) ∧
      ((DumpBootToBin u (some d) idx out).ret = some 1 ∧
        (DumpBootToBin u (some d) idx out).msgs = [Msg.emptyPartition]) ∧
      ((wrtImg_Disk_part u (some dest) idx (some d)).ret = some 1 ∧
        (wrtImg_Disk_part u (some dest) idx (some d)).msgs = [Msg.emptyPartition]) := by
  intro out dest
  rw [crtPartImage_empty_slot u d idx out hf hlen hsig h0 h3 hemp,
    DumpBootToBin_empty_slot u d idx out hf hlen hsig h0 h3 hemp,
    wrtImg_Disk_part_empty_slot u dest d idx hf hlen hsig h0 h3 hemp]
  exact ⟨⟨rfl, rfl⟩, ⟨rfl, rfl⟩, ⟨rfl, rfl⟩⟩

theorem empty_slot_witness :
    ((crtPartImage noUninit (some emptyTableDisk) 3 (some emptyFile)).ret = some 1 ∧
      (crtPartImage noUninit (some emptyTableDisk) 3 (some emptyFile)).msgs
        = [Msg.emptyPartition]) ∧
    ((DumpBootToBin noUninit (some emptyTableDisk) 3 (some emptyFile)).ret = some 1 ∧
      (DumpBootToBin noUninit (some emptyTableDisk) 3 (some emptyFile)).msgs
        = [Msg.emptyPartition]) ∧
    ((wrtImg_Disk_part noUninit (some (blankDisk 1024)) 3 (some emptyTableDisk)).ret = some 1 ∧
      (wrtImg_Disk_part noUninit (some (blankDisk 1024)) 3 (some emptyTableDisk)).msgs
        = [Msg.emptyPartition]) :=
  empty_slot noUninit emptyTableDisk 3 (fullFor_nil 1) (by rw [emptyTableDisk_length]; decide)
    emptyTableDisk_signature (by decide) (by decide) emptyTableDisk_entry (some emptyFile)
    (blankDisk 1024)

theorem ebrPartition_set_StartingLBA (buf : List BYTE) (v : BYTE) :
    (ebrPartition (buf.set 446 v)).StartingLBA = (ebrPartition buf).StartingLBA := by
  show dwordAt (buf.set 446 v) (446 + 8) = dwordAt buf (446 + 8)
  unfold dwordAt
  rw [byteAt_set_ne buf 446 _ v (by omega), byteAt_set_ne buf 446 _ v (by omega),
    byteAt_set_ne buf 446 _ v (by omega), byteAt_set_ne buf 446 _ v (by omega)]

theorem ebrPartition_set_totalSectors (buf : List BYTE) (v : BYTE) :
    (ebrPartition (buf.set 446 v)).totalSectors = (ebrPartition buf).totalSectors := by
  show dwordAt (buf.set 446 v) (446 + 12) = dwordAt buf (446 + 12)
  unfold dwordAt
  rw [byteAt_set_ne buf 446 _ v (by omega), byteAt_set_ne buf 446 _ v (by omega),
    byteAt_set_ne buf 446 _ v (by omega), byteAt_set_ne buf 446 _ v (by omega)]

/-- The image that `crtPartImage` writes for a primary partition. -/
theorem crtPartImage_primary_image (u : Uninit) (d o : Medium) (partitionNum : Int)
    (hds : d.script = []) (hos : o.script = []) (hlen : 512 ≤ d.data.length)
    (hsig : signature d.data = 0xAA55) (h0 : 0 ≤ partitionNum) (h3 : partitionNum ≤ 3)
    (hne : (mbrPartition d.data partitionNum.toNat).totalSectors ≠ 0)
    (hprim : isExtended (mbrPartition d.data partitionNum.toNat) = false) :
    ∃ (m : Nat) (hO : HANDLE),
      m ≤ (mbrPartition d.data partitionNum.toNat).totalSectors * 512 - 512 ∧
      (crtPartImage u (some d) partitionNum (some o)).ret = some 0 ∧
      (crtPartImage u (some d) partitionNum (some o)).file = some hO ∧
      hO.data = (d.data.take 512).set (slotOffset partitionNum.toNat) 0x80
        ++ List.replicate
            (subDWORD (mbrPartition d.data partitionNum.toNat).StartingLBA 1 * SECTOR_SIZE) 0
        ++ overlay SECTOR_SIZE u.vbr
            ((d.data.drop ((mbrPartition d.data partitionNum.toNat).StartingLBA * 512)).take
              SECTOR_SIZE)
        ++ (d.data.drop ((mbrPartition d.data partitionNum.toNat).StartingLBA * 512
              + ((d.data.drop ((mbrPartition d.data partitionNum.toNat).StartingLBA * 512)).take
                  SECTOR_SIZE).length)).take m := by
  have hf : fullFor 1 d.script := hds ▸ fullFor_nil 1
  rw [crtPartImage_primary u d partitionNum (some o) hf hlen hsig h0 h3 hne hprim]
  obtain ⟨m, hO, hm, -, hret, hfile, hdata⟩ :=
    crtPartImage_emit_image u
      { data := d.data, pos := 512, script := d.script.tail, log := [Call.read 512 512] }
      ((d.data.take 512).set (slotOffset partitionNum.toNat) 0x80) (overlay 512 u.ebr [])
      false (mbrPartition d.data partitionNum.toNat)
      ((mbrPartition d.data partitionNum.toNat).StartingLBA * 512) o
      (by rw [hds]; rfl) hos (mbrPartition_totalSectors_lt _ _)
  refine ⟨m, hO, hm, hret, hfile, ?_⟩
  rw [hdata]
  simp only [cond_false, List.append_nil]

/-- C1, evaluated on `primaryDisk` (slot 2 primary, `StartingLBA = 2`,
`totalSectors = 2`, so the partition is the bytes `1024 .. 2047`): extraction
returns 0 without a warning, and so does the restoration of the image to a
blank device of the same length; the restored device has the same length, but
its byte at 1024 (the boot sector offset) is `0` where the source has `0xEB`,
and its byte at 1536 is `0xEB` where the source has `0x22`. The restoration
takes the boot sector from offset 512 of the image, which is the zero padding
that the extraction wrote there, and so writes the partition one sector late
and one sector short. -/
theorem round_trip_fails :
    (crtPartImage noUninit (some primaryDisk) 2 (some emptyFile)).ret = some 0 ∧
    (crtPartImage noUninit (some primaryDisk) 2 (some emptyFile)).msgs = [] ∧
    (mbrPartition primaryDisk.data 2).StartingLBA * 512 = 1024 ∧
    (mbrPartition primaryDisk.data 2).totalSectors * 512 = 1024 ∧
    (roundTrip noUninit primaryDisk (blankDisk 2048) 2).ret = some 0 ∧
    (roundTrip noUninit primaryDisk (blankDisk 2048) 2).msgs = [] ∧
    (roundTrip noUninit primaryDisk (blankDisk 2048) 2).drive.map
        (fun h => (h.data.length, byteAt h.data 1024, byteAt h.data 1536))
      = some (2048, 0, 0xEB) ∧
    (primaryDisk.data.length, byteAt primaryDisk.data 1024, byteAt primaryDisk.data 1536)
      = (2048, 0xEB, 0x22) := by
  decide!

/-- Every run of `main` either calls one partition operation and then returns
0 without looking at its result, or calls none. -/
theorem main_cases (e : Env) (argv : List String) :
    (∃ r, main e argv = callThenReturn0 r) ∨ (main e argv).op = none := by
  unfold main
  repeat' split
  all_goals first
    | exact Or.inr rfl
    | exact Or.inl ⟨_, rfl⟩

theorem callThenReturn0_exit (r : Result) (code : Int) (h : r.ret = some code) :
    (callThenReturn0 r).exit = some 0 := by
  unfold callThenReturn0
  simp only [h]

theorem callThenReturn0_exit_ne_one (r : Result) : (callThenReturn0 r).exit ≠ some 1 := by
  unfold callThenReturn0
  cases r.ret <;> simp

/-- C11, as the code has it: `main` does not use the value that the
dispatched operation returns. Whenever `main` calls `crtPartImage`,
`wrtImg_Disk_part`, `DumpMBRToBin` or `DumpBootToBin` and the call returns,
with 0 or with 1, the exit code is 0; an exit code of 1 comes only from runs
that call none of them (an option error or an unknown command). -/
theorem exit_code (e : Env) (argv : List String) :
    (∀ (r : Result) (code : Int), (main e argv).op = some r → r.ret = some code →
      (main e argv).exit = some 0) ∧
    ((main e argv).exit = some 1 → (main e argv).op = none) := by
  rcases main_cases e argv with ⟨r0, h⟩ | h
  · rw [h]
    constructor
    · intro r code hop hret
      have hr : r0 = r := Option.some.inj hop
      rw [hr]
      exact callThenReturn0_exit r code hret
    · intro h1
      exact absurd h1 (callThenReturn0_exit_ne_one r0)
  · constructor
    · intro r code hop
      rw [h] at hop
      exact absurd hop (by simp)
    · intro _
      exact h

theorem exit_code_witness :
    (main sampleEnv
      ["wddx32", "dumpmeta", "--disk", "0", "--type", "mbr", "--output", "mbr0.bin"]).exit
      = some 0 :=
  (exit_code sampleEnv
    ["wddx32", "dumpmeta", "--disk", "0", "--type", "mbr", "--output", "mbr0.bin"]).1
    (DumpMBRToBin noUninit (some primaryDisk) (some emptyFile)) 0 rfl
    (by rw [DumpMBRToBin_good_signature noUninit primaryDisk emptyFile (fullFor_nil 1)
      (fullFor_nil 1) (by rw [primaryDisk_length]; decide) primaryDisk_signature])

/-- C11, counterexample: `wddx32 create --disk 0 --part 4 --output p.img` on a
machine whose drive 0 is `primaryDisk`. `crtPartImage` is called with index 4
and returns 1 (the index is not in `0..3`), and `main` returns 0. -/
theorem exit_code_counterexample :
    (main sampleEnv
      ["wddx32", "create", "--disk", "0", "--part", "4", "--output", "p.img"]).op
      = some (crtPartImage noUninit (some primaryDisk) 4 (some emptyFile)) ∧
    (crtPartImage noUninit (some primaryDisk) 4 (some emptyFile)).ret = some 1 ∧
    (crtPartImage noUninit (some primaryDisk) 4 (some emptyFile)).msgs
      = [Msg.invalidPartitionNumber] ∧
    (main sampleEnv
      ["wddx32", "create", "--disk", "0", "--part", "4", "--output", "p.img"]).exit
      = some 0 := by
  decide!

/-- C13, evaluated on `primaryDisk` (slot 2 primary, `StartingLBA = 2`): the
image that `crtPartImage` writes has a zero sector at byte 512 and the boot
sector (`0xEB`) at byte 1024. `wrtImg_Disk_part` makes three reads of 512
bytes on that image in all (MBR, boot sector, one chunk of data) and leaves
its read position at 1536: the gap sector it writes to the device is not read
from the image, the read that follows the MBR is the one taken for the boot
sector, and what is written at byte 1024 of the device is the zero padding. -/
theorem restore_reads_no_gap :
    (crtPartImage noUninit (some primaryDisk) 2 (some emptyFile)).file.map
        (fun h => (h.data.length, byteAt h.data 512, byteAt h.data 1024))
      = some (2048, 0, 0xEB) ∧
    (roundTrip noUninit primaryDisk (blankDisk 2048) 2).ret = some 0 ∧
    (roundTrip noUninit primaryDisk (blankDisk 2048) 2).file.map (fun h => (h.pos, h.log))
      = some (1536, [Call.read 512 512, Call.read 512 512, Call.read 512 512]) ∧
    (roundTrip noUninit primaryDisk (blankDisk 2048) 2).drive.map HANDLE.log
      = some [Call.write 512 512, Call.write 512 512, Call.seek 1024, Call.write 512 512,
          Call.write 512 512] ∧
    (roundTrip noUninit primaryDisk (blankDisk 2048) 2).drive.map
        (fun h => byteAt h.data 1024) = some 0 := by
  decide!

theorem copyLoop_msgs (c : Nat) (fuel : Nat) :
    ∀ (n : Int) (src dst : HANDLE) (m : Msg),
      m ∈ (copyLoop c fuel n src dst).msgs → isValidationMsg m = false := by
  induction fuel with
  | zero =>
    intro n src dst m hm
    simp [copyLoop] at hm
  | succ fuel ih =>
    intro n src dst m hm
    unfold copyLoop at hm
    split at hm
    · simp only [] at hm
      split at hm
      · simp only [List.mem_singleton] at hm
        rw [hm]; rfl
      · split at hm
        · simp only [List.mem_singleton] at hm
          rw [hm]; rfl
        · split at hm
          · simp only [List.mem_singleton] at hm
            rw [hm]; rfl
          · split at hm
            · simp only [List.mem_singleton] at hm
              rw [hm]; rfl
            · exact ih _ _ _ m hm
    · simp at hm

theorem copyData_msgs (c : Nat) (n : Int) (src dst : HANDLE) (m : Msg)
    (hm : m ∈ (copyData c n src dst).msgs) : isValidationMsg m = false := by
  unfold copyData at hm
  simp only [] at hm
  split at hm
  · exact copyLoop_msgs c _ _ _ _ m hm
  · exact copyLoop_msgs c _ _ _ _ m hm
  · exact copyLoop_msgs c _ _ _ _ m hm
  · split at hm
    · simp only [List.mem_append, List.mem_singleton] at hm
      rcases hm with hm | hm
      · exact copyLoop_msgs c _ _ _ _ m hm
      · rw [hm]; rfl
    · exact copyLoop_msgs c _ _ _ _ m hm

theorem pastValidation_abort (a b : Option HANDLE) (x : Msg) (hx : isValidationMsg x = false) :
    pastValidation (abort a b x) := by
  intro m hm
  simp only [abort, List.mem_singleton] at hm
  rw [hm]; exact hx

theorem pastValidation_mk (ret : Option Int) (drive file : Option HANDLE) (msgs : List Msg)
    (h : ∀ m, m ∈ msgs → isValidationMsg m = false) :
    pastValidation { ret := ret, drive := drive, file := file, msgs := msgs } := h

theorem crtPartImage_emit_pastValidation (u : Uninit) (hDrive : HANDLE)
    (mbr ebr : List BYTE) (isLogical : Bool) (partition : PARTITION_ENTRY)
    (partitionOffset : Int) (outputPath : Option Medium) :
    pastValidation
      (crtPartImage_emit u hDrive mbr ebr isLogical partition partitionOffset outputPath) := by
  unfold crtPartImage_emit
  simp only []
  generalize toLONGLONG (toLONGLONG ((partition.totalSectors : Int) * (SECTOR_SIZE : Int))
    - (SECTOR_SIZE : Int)) = n
  repeat' split
  rotate_right
  · exact pastValidation_mk _ _ _ _ (copyData_msgs _ _ _ _)
  all_goals exact pastValidation_abort _ _ _ (by rfl)

theorem wrtImg_Disk_part_emit_pastValidation (u : Uninit) (hDrive hIn : HANDLE)
    (mbr ebr : List BYTE) (isLogical : Bool) (partition : PARTITION_ENTRY)
    (partitionOffset : Int) :
    pastValidation
      (wrtImg_Disk_part_emit u hDrive hIn mbr ebr isLogical partition partitionOffset) := by
  unfold wrtImg_Disk_part_emit
  simp only []
  generalize toLONGLONG (toLONGLONG ((partition.totalSectors : Int) * (SECTOR_SIZE : Int))
    - (SECTOR_SIZE : Int)) = n
  repeat' split
  rotate_right
  · exact pastValidation_mk _ _ _ _ (copyData_msgs _ _ _ _)
  all_goals exact pastValidation_abort _ _ _ (by rfl)

theorem driveKept_abort (h : HANDLE) (b : Option HANDLE) (x : Msg) :
    driveKept h (abort (some h) b x) := fun _ => ⟨rfl, rfl⟩

theorem driveKept_of_pastValidation (h : HANDLE) (r : Result) (hr : pastValidation r) :
    driveKept h r := by
  rintro ⟨m, hm, hv⟩
  rw [hr m hm] at hv
  exact absurd hv (by decide)

theorem fileAbsent_abort (a : Option HANDLE) (x : Msg) : fileAbsent (abort a none x) :=
  fun _ => ⟨rfl, rfl⟩

theorem fileAbsent_of_pastValidation (r : Result) (hr : pastValidation r) : fileAbsent r := by
  rintro ⟨m, hm, hv⟩
  rw [hr m hm] at hv
  exact absurd hv (by decide)

theorem wrtImg_Disk_part_driveKept (u : Uninit) (d f : Medium) (partitionNumber : Int) :
    driveKept (openExisting d) (wrtImg_Disk_part u (some d) partitionNumber (some f)) := by
  unfold wrtImg_Disk_part
  simp only []
  repeat' split
  all_goals first
    | exact driveKept_abort _ _ _
    | exact driveKept_of_pastValidation _ _ (wrtImg_Disk_part_emit_pastValidation _ _ _ _ _ _ _ _)

theorem crtPartImage_fileAbsent (u : Uninit) (d : Medium) (partitionNum : Int)
    (outputPath : Option Medium) :
    fileAbsent (crtPartImage u (some d) partitionNum outputPath) := by
  unfold crtPartImage
  simp only []
  repeat' split
  all_goals first
    | exact fileAbsent_abort _ _
    | exact fileAbsent_of_pastValidation _ (crtPartImage_emit_pastValidation _ _ _ _ _ _ _ _)

/-- C14: whatever the environment does, if `wrtImg_Disk_part` prints one of the
four validation diagnostics (invalid MBR signature, partition number out of
range, empty partition, invalid EBR signature in the image), it has returned 1
and the handle of the destination device is as it was opened: same contents
and no call made on it. If `crtPartImage` prints one of them for the source
device, it has returned 1 and the output file has not been created. -/
theorem validation_precedes_writes (u : Uninit) (d f : Medium) (idx : Int)
    (out : Option Medium) :
    (∀ m, m ∈ (wrtImg_Disk_part u (some d) idx (some f)).msgs → isValidationMsg m = true →
      (wrtImg_Disk_part u (some d) idx (some f)).ret = some 1 ∧
      (wrtImg_Disk_part u (some d) idx (some f)).drive = some (openExisting d)) ∧
    (∀ m, m ∈ (crtPartImage u (some d) idx out).msgs → isValidationMsg m = true →
      (crtPartImage u (some d) idx out).ret = some 1 ∧
      (crtPartImage u (some d) idx out).file = none) :=
  ⟨fun m hm hv => wrtImg_Disk_part_driveKept u d f idx ⟨m, hm, hv⟩,
    fun m hm hv => crtPartImage_fileAbsent u d idx out ⟨m, hm, hv⟩⟩

theorem validation_precedes_writes_witness :
    ((wrtImg_Disk_part noUninit (some (blankDisk 1024)) 0 (some unsignedDisk)).ret = some 1 ∧
      (wrtImg_Disk_part noUninit (some (blankDisk 1024)) 0 (some unsignedDisk)).drive
        = some (openExisting (blankDisk 1024))) ∧
    ((crtPartImage noUninit (some emptyTableDisk) 3 (some emptyFile)).ret = some 1 ∧
      (crtPartImage noUninit (some emptyTableDisk) 3 (some emptyFile)).file = none) :=
  ⟨(validation_precedes_writes noUninit (blankDisk 1024) unsignedDisk 0 none).1
      (Msg.invalidMBRSignature (signature unsignedDisk.data))
      (by
        rw [wrtImg_Disk_part_bad_signature noUninit (blankDisk 1024) unsignedDisk 0
          (fullFor_nil 1) (by rw [unsignedDisk_length]; decide) unsignedDisk_signature]
        exact List.mem_singleton.mpr rfl)
      rfl,
    (validation_precedes_writes noUninit emptyTableDisk emptyFile 3 (some emptyFile)).2
      Msg.emptyPartition
      (by
        rw [crtPartImage_empty_slot noUninit emptyTableDisk 3 (some emptyFile) (fullFor_nil 1)
          (by rw [emptyTableDisk_length]; decide) emptyTableDisk_signature (by decide)
          (by decide) emptyTableDisk_entry]
        exact List.mem_singleton.mpr rfl)
      rfl⟩

theorem delivered_append (a b : List Call) : delivered (a ++ b) = delivered a + delivered b := by
  induction a with
  | nil => simp [delivered]
  | cons x a ih =>
    cases x <;> simp [delivered, ih, Nat.add_assoc]

theorem ReadFile_log_length (h : HANDLE) (n : Nat) :
    (ReadFile h n).2.log.length = h.log.length + 1 := by
  unfold ReadFile
  split <;> simp

theorem WriteFile_log (h : HANDLE) (bytes : List BYTE) :
    (∀ w h1, WriteFile h bytes = (some w, h1) →
      h1.log = h.log ++ [Call.write bytes.length w] ∧ w ≤ bytes.length) ∧
    (∀ h1, WriteFile h bytes = (none, h1) → h1.log = h.log ++ [Call.failed]) := by
  unfold WriteFile
  split
  · constructor
    · intro w h1 he
      simp at he
    · intro h1 he
      simp only [Prod.mk.injEq, true_and] at he
      rw [← he]
  · constructor
    · intro w h1 he
      simp only [Prod.mk.injEq, Option.some.injEq] at he
      obtain ⟨hw, he⟩ := he
      rw [← he, ← hw]
      refine ⟨rfl, ?_⟩
      rw [List.length_take]
      exact Nat.min_le_right _ _
    · intro h1 he
      simp at he

theorem ceil_step (c N : Nat) (hc0 : 0 < c) (hN : 0 < N) :
    1 + (N - min c N + c - 1) / c ≤ (N + c - 1) / c := by
  by_cases h : c ≤ N
  · rw [Nat.min_eq_left h]
    have e : N + c - 1 = (N - c + c - 1) + c := by omega
    rw [e, Nat.add_div_right _ hc0]
    omega
  · have h' : N ≤ c := by omega
    rw [Nat.min_eq_right h', Nat.sub_self, Nat.zero_add, Nat.div_eq_of_lt (by omega)]
    exact (Nat.le_div_iff_mul_le hc0).mpr (by omega)

theorem ceil_pos (c N : Nat) (hc0 : 0 < c) (hN : 0 < N) : 1 ≤ (N + c - 1) / c :=
  (Nat.le_div_iff_mul_le hc0).mpr (by omega)

theorem copyLoop_accounting (c : Nat) (hc0 : 0 < c) (hc : c < 2 ^ 32) (fuel : Nat) :
    ∀ (n : Int) (src dst : HANDLE) (s : CopyState), copyLoop c fuel n src dst = s →
      s.src.log.length ≤ src.log.length + (n.toNat + c - 1) / c ∧
      (n.toNat ≤ fuel → s.exit ≠ LoopExit.running) ∧
      (s.exit ≠ LoopExit.shortWrite →
        s.bytesToCopy + (delivered s.dst.log : Int) = n + (delivered dst.log : Int)) ∧
      (s.exit = LoopExit.shortWrite →
        ∃ req w, s.dst.log.getLast? = some (Call.write req w) ∧ w < req ∧
          s.bytesToCopy + (delivered s.dst.log : Int)
            = n + (delivered dst.log : Int) + (w : Int)) := by
  induction fuel with
  | zero =>
    intro n src dst s hs
    unfold copyLoop at hs
    subst hs
    refine ⟨Nat.le_add_right _ _, ?_, fun _ => rfl, ?_⟩
    · intro h
      have hn : ¬ n > 0 := by omega
      simp only [if_neg hn]
      decide
    · intro h
      simp only [] at h
      split at h <;> cases h
  | succ fuel ih =>
    intro n src dst s hs
    unfold copyLoop at hs
    split at hs
    · rename_i hn
      have hN : 0 < n.toNat := by omega
      have hceil := ceil_pos c n.toNat hc0 hN
      have hrl := ReadFile_log_length src (toRead c n)
      simp only [] at hs
      split at hs
      · rename_i x src1 heq
        rw [heq] at hrl
        simp only [] at hrl
        subst hs
        refine ⟨?_, fun _ => by simp, fun _ => rfl, fun h => by cases h⟩
        simp only [hrl]
        omega
      · rename_i x got src1 heq
        rw [heq] at hrl
        simp only [] at hrl
        split at hs
        · subst hs
          refine ⟨?_, fun _ => by simp, fun _ => rfl, fun h => by cases h⟩
          simp only [hrl]
          omega
        · rename_i hlen
          have hlen' : got.length = toRead c n := not_not.mp hlen
          have hwl := WriteFile_log dst got
          split at hs
          · rename_i y dst1 hw
            have hl := hwl.2 dst1 hw
            subst hs
            refine ⟨?_, fun _ => by simp, fun _ => ?_, fun h => by cases h⟩
            · simp only [hrl]
              omega
            · simp only [hl, delivered_append, delivered]
              omega
          · rename_i y w dst1 hw
            have hl := hwl.1 w dst1 hw
            split at hs
            · rename_i hne
              subst hs
              refine ⟨?_, fun _ => by simp, fun h => absurd rfl h, fun _ => ?_⟩
              · simp only [hrl]
                omega
              · refine ⟨got.length, w, ?_, ?_, ?_⟩
                · simp only [hl.1, List.getLast?_append, List.getLast?_singleton]
                  rfl
                · have := hl.2
                  omega
                · simp only [hl.1, delivered_append, delivered]
                  push_cast
                  omega
            · rename_i heqw
              have hweq : w = got.length := not_not.mp heqw
              obtain ⟨hA, hB, hC, hD⟩ := ih _ _ _ s hs
              have hmin := toRead_eq_min c n hc (by omega)
              have hstep := ceil_step c n.toNat hc0 hN
              have htn : (n - (got.length : Int)).toNat = n.toNat - min c n.toNat := by
                rw [hlen', hmin]
                omega
              rw [htn] at hA hB
              rw [hrl] at hA
              have hdl : (delivered dst1.log : Int) = delivered dst.log + (got.length : Int) := by
                rw [hl.1, delivered_append, hweq]
                simp [delivered]
              refine ⟨by omega, ?_, ?_, ?_⟩
              · intro hf
                apply hB
                have : 0 < min c n.toNat := by
                  rw [← hmin]; exact toRead_pos c n hc0 hc (by omega)
                omega
              · intro hx
                have := hC hx
                omega
              · intro hx
                obtain ⟨req, w', h1, h2, h3⟩ := hD hx
                exact ⟨req, w', h1, h2, by omega⟩
    · rename_i hn
      subst hs
      refine ⟨Nat.le_add_right _ _, fun _ => by simp, fun _ => rfl, fun h => by cases h⟩

theorem copyData_fields (c : Nat) (n : Int) (src dst : HANDLE) :
    (copyData c n src dst).exit = (copyLoop c n.toNat n src dst).exit ∧
    (copyData c n src dst).bytesToCopy = (copyLoop c n.toNat n src dst).bytesToCopy ∧
    (copyData c n src dst).src = (copyLoop c n.toNat n src dst).src ∧
    (copyData c n src dst).dst = (copyLoop c n.toNat n src dst).dst := by
  unfold copyData
  simp only []
  split
  · exact ⟨rfl, rfl, rfl, rfl⟩
  · exact ⟨rfl, rfl, rfl, rfl⟩
  · exact ⟨rfl, rfl, rfl, rfl⟩
  · split
    · exact ⟨rfl, rfl, rfl, rfl⟩
    · exact ⟨rfl, rfl, rfl, rfl⟩

/-- C15: the copy loop of `crtPartImage` and `wrtImg_Disk_part` (chunk size
`SECTOR_SIZE * 1024`), started with `n` bytes to copy, whatever the environment
does. The loop ends, after at most `⌈n / chunkSize⌉` iterations (each
iteration makes one `ReadFile` call on the source, so the history of the source
grows by the number of iterations). If it does not end on a short write, the
remaining count plus the bytes delivered to the sink is the initial count. If
it ends on a short write of `w` bytes out of `req`, then `w < req` and the
remaining count plus the bytes delivered is the initial count plus `w`. -/
theorem copy_loop_accounting (n : Int) (src dst : HANDLE) :
    (copyData chunkSize n src dst).exit ≠ LoopExit.running ∧
    (copyData chunkSize n src dst).src.log.length
      ≤ src.log.length + (n.toNat + chunkSize - 1) / chunkSize ∧
    ((copyData chunkSize n src dst).exit ≠ LoopExit.shortWrite →
      (copyData chunkSize n src dst).bytesToCopy
          + (delivered (copyData chunkSize n src dst).dst.log : Int)
        = n + (delivered dst.log : Int)) ∧
    ((copyData chunkSize n src dst).exit = LoopExit.shortWrite →
      ∃ req w, (copyData chunkSize n src dst).dst.log.getLast? = some (Call.write req w) ∧
        w < req ∧
        (copyData chunkSize n src dst).bytesToCopy
            + (delivered (copyData chunkSize n src dst).dst.log : Int)
          = n + (delivered dst.log : Int) + (w : Int)) := by
  obtain ⟨he, hb, hs, hd⟩ := copyData_fields chunkSize n src dst
  obtain ⟨hA, hB, hC, hD⟩ :=
    copyLoop_accounting chunkSize chunkSize_pos chunkSize_lt n.toNat n src dst _ rfl
  rw [he, hb, hs, hd]
  exact ⟨hB (Nat.le_refl _), hA, hC, hD⟩

set_option maxRecDepth 8000 in
theorem copy_loop_accounting_witness :
    ((copyData chunkSize 229 sampleSource sampleSink).bytesToCopy
        + (delivered (copyData chunkSize 229 sampleSource sampleSink).dst.log : Int)
      = 229 + (delivered sampleSink.log : Int)) ∧
    (∃ req w, (copyData chunkSize 229 sampleSource shortSink).dst.log.getLast?
        = some (Call.write req w) ∧
      w < req ∧
      (copyData chunkSize 229 sampleSource shortSink).bytesToCopy
          + (delivered (copyData chunkSize 229 sampleSource shortSink).dst.log : Int)
        = 229 + (delivered shortSink.log : Int) + (w : Int)) :=
  ⟨(copy_loop_accounting 229 sampleSource sampleSink).2.2.1 (by decide),
    (copy_loop_accounting 229 sampleSource shortSink).2.2.2 (by decide)⟩

theorem sectorsToPartition_mod (isLogical : Bool) (partition : PARTITION_ENTRY) :
    sectorsToPartition isLogical partition = (partition.StartingLBA + (2 ^ 32 - 1)) % 2 ^ 32 := by
  rw [sectorsToPartition_eq]
  unfold subDWORD toDWORD
  rfl

/-- The device after `wrtImg_Disk_part` has written it, when no call fails. -/
theorem wrtImg_Disk_part_emit_device (u : Uninit) (hDrive hIn : HANDLE) (mbr ebr : List BYTE)
    (isLogical : Bool) (partition : PARTITION_ENTRY) (off : Nat)
    (hs : hDrive.script = []) (hi : hIn.script = []) :
    ∃ (m : Nat) (hD : HANDLE),
      (wrtImg_Disk_part_emit u hDrive hIn mbr ebr isLogical partition (off : Int)).ret = some 0 ∧
      (wrtImg_Disk_part_emit u hDrive hIn mbr ebr isLogical partition (off : Int)).drive
        = some hD ∧
      hD.data = splice
        (splice
          (splice
            (splice (splice hDrive.data hDrive.pos mbr) (hDrive.pos + mbr.length)
              (List.replicate (sectorsToPartition isLogical partition * SECTOR_SIZE) 0))
            (hDrive.pos + mbr.length + sectorsToPartition isLogical partition * SECTOR_SIZE)
            (bif isLogical then ebr else []))
          off (overlay SECTOR_SIZE u.vbr ((hIn.data.drop hIn.pos).take SECTOR_SIZE)))
        (off + SECTOR_SIZE)
        ((hIn.data.drop (hIn.pos + ((hIn.data.drop hIn.pos).take SECTOR_SIZE).length)).take
          m) := by
  obtain ⟨hD, hI, hId, hIs, hIp, hDd, hDp, hDs, heq⟩ :=
    wrtImg_Disk_part_emit_nil u hDrive hIn mbr ebr isLogical partition (off : Int) hs hi
      (Int.ofNat_nonneg _)
  rw [Int.toNat_ofNat] at hDd hDp
  obtain ⟨m, -, -, hret, hdata, -, -, -⟩ :=
    copyData_nil chunkSize chunkSize_pos chunkSize_lt
      (toLONGLONG (toLONGLONG ((partition.totalSectors : Int) * (SECTOR_SIZE : Int))
        - (SECTOR_SIZE : Int))) hI hD hIs hDs
  rw [heq]
  simp only []
  refine ⟨m, _, hret, rfl, ?_⟩
  rw [hdata, hDd, hDp, hId, hIp]

/-- C16: the count of zero sectors in `crtPartImage` and `wrtImg_Disk_part`,
for the resolved entry `partition` (its `StartingLBA` is a `DWORD`). The count
is `(StartingLBA - 1) mod 2^32`, a value in `0 .. 2^32 - 1`: it is
`StartingLBA - 1` when `StartingLBA ≥ 1` and `4294967295` when
`StartingLBA = 0`. When no call fails the loop makes that many writes of 512
zero bytes, so the image that `crtPartImage` writes has that many zero sectors
after the MBR, and `wrtImg_Disk_part` writes that many zero sectors to the
device after the MBR. -/
theorem gap_sector_count (u : Uninit) (hSrc hDst hIn : HANDLE) (o : Medium)
    (mbr ebr : List BYTE) (isLogical : Bool) (partition : PARTITION_ENTRY) (off : Nat)
    (hs : hSrc.script = []) (ho : o.script = []) (hd : hDst.script = [])
    (hi : hIn.script = []) (hL : partition.StartingLBA < 2 ^ 32)
    (ht : partition.totalSectors < 2 ^ 32) :
    sectorsToPartition isLogical partition = (partition.StartingLBA + (2 ^ 32 - 1)) % 2 ^ 32 ∧
    sectorsToPartition isLogical partition < 2 ^ 32 ∧
    (1 ≤ partition.StartingLBA →
      sectorsToPartition isLogical partition = partition.StartingLBA - 1) ∧
    (partition.StartingLBA = 0 → sectorsToPartition isLogical partition = 4294967295) ∧
    (∀ h : HANDLE, h.script = [] →
      writeZeroSectors (sectorsToPartition isLogical partition) h
        = (true, { data := splice h.data h.pos
                     (List.replicate (sectorsToPartition isLogical partition * SECTOR_SIZE) 0),
                   pos := h.pos + sectorsToPartition isLogical partition * SECTOR_SIZE,
                   script := [],
                   log := h.log ++ List.replicate (sectorsToPartition isLogical partition)
                     (Call.write SECTOR_SIZE SECTOR_SIZE) })) ∧
    (∃ (m : Nat) (hO : HANDLE),
      (crtPartImage_emit u hSrc mbr ebr isLogical partition (off : Int) (some o)).file
        = some hO ∧
      hO.data = mbr
        ++ List.replicate (sectorsToPartition isLogical partition * SECTOR_SIZE) 0
        ++ (bif isLogical then ebr else [])
        ++ overlay SECTOR_SIZE u.vbr ((hSrc.data.drop off).take SECTOR_SIZE)
        ++ (hSrc.data.drop (off + ((hSrc.data.drop off).take SECTOR_SIZE).length)).take m) ∧
    (∃ (m : Nat) (hD : HANDLE),
      (wrtImg_Disk_part_emit u hDst hIn mbr ebr isLogical partition (off : Int)).drive
        = some hD ∧
      hD.data = splice
        (splice
          (splice
            (splice (splice hDst.data hDst.pos mbr) (hDst.pos + mbr.length)
              (List.replicate (sectorsToPartition isLogical partition * SECTOR_SIZE) 0))
            (hDst.pos + mbr.length + sectorsToPartition isLogical partition * SECTOR_SIZE)
            (bif isLogical then ebr else []))
          off (overlay SECTOR_SIZE u.vbr ((hIn.data.drop hIn.pos).take SECTOR_SIZE)))
        (off + SECTOR_SIZE)
        ((hIn.data.drop (hIn.pos + ((hIn.data.drop hIn.pos).take SECTOR_SIZE).length)).take
          m)) := by
  refine ⟨sectorsToPartition_mod isLogical partition, ?_, ?_, ?_, ?_, ?_, ?_⟩
  · rw [sectorsToPartition_mod]
    exact Nat.mod_lt _ (by decide)
  · intro h1
    rw [sectorsToPartition_eq]
    exact subDWORD_one_of_pos _ h1 hL
  · intro h0
    rw [sectorsToPartition_eq, h0]
    exact subDWORD_one_zero
  · intro h hh
    exact writeZeroSectors_nil _ h hh
  · obtain ⟨m, hO, -, -, -, hfile, hdata⟩ :=
      crtPartImage_emit_image u hSrc mbr ebr isLogical partition off o hs ho ht
    refine ⟨m, hO, hfile, ?_⟩
    rw [hdata, sectorsToPartition_eq]
  · obtain ⟨m, hD, -, hdrive, hdata⟩ :=
      wrtImg_Disk_part_emit_device u hDst hIn mbr ebr isLogical partition off hd hi
    exact ⟨m, hD, hdrive, hdata⟩

theorem gap_sector_count_witness :
    sectorsToPartition false zeroStartEntry = 4294967295 ∧
    writeZeroSectors (sectorsToPartition false zeroStartEntry) sampleSink
      = (true, { data := splice sampleSink.data sampleSink.pos
                   (List.replicate (sectorsToPartition false zeroStartEntry * SECTOR_SIZE) 0),
                 pos := sampleSink.pos + sectorsToPartition false zeroStartEntry * SECTOR_SIZE,
                 script := [],
                 log := sampleSink.log ++ List.replicate (sectorsToPartition false zeroStartEntry)
                   (Call.write SECTOR_SIZE SECTOR_SIZE) }) :=
  (fun h => ⟨h.2.2.2.1 rfl, h.2.2.2.2.1 sampleSink rfl⟩)
    (gap_sector_count noUninit (openExisting primaryDisk) (openExisting (blankDisk 2048))
      (openExisting primaryDisk) emptyFile (primaryDisk.data.take 512) [] false zeroStartEntry 0
      rfl rfl rfl rfl (by decide) (by decide))

/-! ## Logical partitions -/

theorem logicalDisk_length : logicalDisk.data.length = 1536 := by
  simp only [logicalDisk, sampleSector, sampleEbrSector, sampleEntry, List.length_append,
    List.length_replicate, List.length_cons, List.length_nil]

set_option maxRecDepth 8000 in
theorem logicalDisk_signature : signature logicalDisk.data = 0xAA55 := by decide

set_option maxRecDepth 8000 in
theorem logicalDisk_entry :
    (mbrPartition logicalDisk.data (1 : Int).toNat).StartingLBA = 1 ∧
    (mbrPartition logicalDisk.data (1 : Int).toNat).totalSectors = 3 ∧
    isExtended (mbrPartition logicalDisk.data (1 : Int).toNat) = true := by decide

set_option maxRecDepth 16000 in
theorem logicalDisk_ebr :
    ebrSignature (logicalDisk.data.drop
      ((mbrPartition logicalDisk.data (1 : Int).toNat).StartingLBA * 512)) = 0xAA55 ∧
    (ebrPartition (logicalDisk.data.drop
      ((mbrPartition logicalDisk.data (1 : Int).toNat).StartingLBA * 512))).StartingLBA = 3 ∧
    (ebrPartition (logicalDisk.data.drop
      ((mbrPartition logicalDisk.data (1 : Int).toNat).StartingLBA * 512))).totalSectors = 1 := by
  decide

theorem ReadFile_log_append (h : HANDLE) (n : Nat) :
    ∃ x, (ReadFile h n).2.log = h.log ++ [x] := by
  unfold ReadFile
  split
  · exact ⟨_, rfl⟩
  · exact ⟨_, rfl⟩

/-- The copy loop only adds calls to the history of its source. -/
theorem copyLoop_src_log (c : Nat) (fuel : Nat) :
    ∀ (n : Int) (src dst : HANDLE) (s : CopyState), copyLoop c fuel n src dst = s →
      ∃ l, s.src.log = src.log ++ l := by
  induction fuel with
  | zero =>
    intro n src dst s hs
    unfold copyLoop at hs
    subst hs
    exact ⟨[], (List.append_nil _).symm⟩
  | succ fuel ih =>
    intro n src dst s hs
    unfold copyLoop at hs
    split at hs
    · obtain ⟨x, hx⟩ := ReadFile_log_append src (toRead c n)
      simp only [] at hs
      split at hs
      · rename_i y src1 heq
        rw [heq] at hx
        subst hs
        exact ⟨[x], hx⟩
      · rename_i y got src1 heq
        rw [heq] at hx
        simp only [] at hx
        split at hs
        · subst hs
          exact ⟨[x], hx⟩
        · split at hs
          · subst hs
            exact ⟨[x], hx⟩
          · split at hs
            · subst hs
              exact ⟨[x], hx⟩
            · obtain ⟨l, hl⟩ := ih _ _ _ s hs
              exact ⟨x :: l, by rw [hl, hx, List.append_assoc]; rfl⟩
    · subst hs
      exact ⟨[], (List.append_nil _).symm⟩

theorem copyData_src_log (c : Nat) (n : Int) (src dst : HANDLE) :
    ∃ l, (copyData c n src dst).src.log = src.log ++ l := by
  rw [(copyData_fields c n src dst).2.2.1]
  exact copyLoop_src_log c n.toNat n src dst _ rfl

/-- The calls that `crtPartImage` makes on the drive once the partition is
located: a seek to `partitionOffset`, the read of the boot sector, then the
reads of the copy loop. -/
theorem crtPartImage_emit_log (u : Uninit) (hDrive : HANDLE) (mbr ebr : List BYTE)
    (isLogical : Bool) (partition : PARTITION_ENTRY) (partitionOffset : Int) (o : Medium)
    (hs : hDrive.script = []) (ho : o.script = []) (h0 : 0 ≤ partitionOffset) :
    ∃ l, (crtPartImage_emit u hDrive mbr ebr isLogical partition partitionOffset
        (some o)).drive.map HANDLE.log
      = some (hDrive.log ++ [Call.seek partitionOffset,
          Call.read SECTOR_SIZE
            ((hDrive.data.drop partitionOffset.toNat).take SECTOR_SIZE).length] ++ l) := by
  have key : ∃ hD hO : HANDLE,
      hD.log = hDrive.log ++ [Call.seek partitionOffset,
        Call.read SECTOR_SIZE
          ((hDrive.data.drop partitionOffset.toNat).take SECTOR_SIZE).length] ∧
      crtPartImage_emit u hDrive mbr ebr isLogical partition partitionOffset (some o)
        = { ret := copyReturn (copyData chunkSize (toLONGLONG
                (toLONGLONG ((partition.totalSectors : Int) * (SECTOR_SIZE : Int))
                  - (SECTOR_SIZE : Int))) hD hO).exit,
            drive := some (copyData chunkSize (toLONGLONG
                (toLONGLONG ((partition.totalSectors : Int) * (SECTOR_SIZE : Int))
                  - (SECTOR_SIZE : Int))) hD hO).src,
            file := some (copyData chunkSize (toLONGLONG
                (toLONGLONG ((partition.totalSectors : Int) * (SECTOR_SIZE : Int))
                  - (SECTOR_SIZE : Int))) hD hO).dst,
            msgs := (copyData chunkSize (toLONGLONG
                (toLONGLONG ((partition.totalSectors : Int) * (SECTOR_SIZE : Int))
                  - (SECTOR_SIZE : Int))) hD hO).msgs } := by
    unfold crtPartImage_emit
    generalize sectorsToPartition isLogical partition = pad
    generalize toLONGLONG ((partition.totalSectors : Int) * (SECTOR_SIZE : Int)) = size
    simp only []
    rw [WriteFile_nil (createAlways o) mbr ho]
    simp only []
    rw [writeZeroSectors_nil _ _ rfl]
    simp only []
    cases isLogical
    · rw [if_neg Bool.false_ne_true]
      simp only []
      rw [SetFilePointerEx_nil hDrive _ h0 hs]
      simp only []
      rw [ReadFile_nil _ _ rfl]
      simp only []
      rw [WriteFile_nil _ _ rfl]
      simp only []
      refine ⟨_, _, ?_, rfl⟩
      exact List.append_assoc _ _ _
    · rw [if_pos rfl]
      rw [WriteFile_nil _ _ rfl]
      simp only []
      rw [SetFilePointerEx_nil hDrive _ h0 hs]
      simp only []
      rw [ReadFile_nil _ _ rfl]
      simp only []
      rw [WriteFile_nil _ _ rfl]
      simp only []
      refine ⟨_, _, ?_, rfl⟩
      exact List.append_assoc _ _ _
  obtain ⟨hD, hO, hlog, heq⟩ := key
  obtain ⟨l, hl⟩ :=
    copyData_src_log chunkSize
      (toLONGLONG (toLONGLONG ((partition.totalSectors : Int) * (SECTOR_SIZE : Int))
        - (SECTOR_SIZE : Int))) hD hO
  rw [heq]
  simp only [Option.map]
  rw [hl, hlog]
  exact ⟨l, rfl⟩

/-- C3: where `crtPartImage` and `DumpBootToBin` read the boot sector, when no
call fails. For a primary entry both seek the drive to `StartingLBA * 512`.
For an entry of type `0x05` or `0x0F` whose EBR the program accepts, both seek
to `StartingLBA * 512` for the EBR and then to `StartingLBA * 512 + 512` for
the boot sector, with the `StartingLBA` of the MBR entry, whatever the first
entry of the EBR holds. The offsets are the exact natural numbers (the 64-bit
computation does not wrap), both operations return 0, and `DumpBootToBin`
writes out the sector found at that offset. -/
theorem vbr_offset_resolution (u : Uninit) (d o : Medium) (partitionNum : Int)
    (hds : d.script = []) (hos : o.script = []) (hlen : 512 ≤ d.data.length)
    (hsig : signature d.data = 0xAA55) (h0 : 0 ≤ partitionNum) (h3 : partitionNum ≤ 3)
    (hne : (mbrPartition d.data partitionNum.toNat).totalSectors ≠ 0) :
    (isExtended (mbrPartition d.data partitionNum.toNat) = false →
      (crtPartImage u (some d) partitionNum (some o)).ret = some 0 ∧
      (∃ l, (crtPartImage u (some d) partitionNum (some o)).drive.map HANDLE.log
        = some ([Call.read 512 512,
            Call.seek (((mbrPartition d.data partitionNum.toNat).StartingLBA * 512 : Nat) : Int),
            Call.read SECTOR_SIZE
              ((d.data.drop ((mbrPartition d.data partitionNum.toNat).StartingLBA * 512)).take
                SECTOR_SIZE).length] ++ l)) ∧
      (DumpBootToBin u (some d) partitionNum (some o)).ret = some 0 ∧
      (DumpBootToBin u (some d) partitionNum (some o)).drive.map HANDLE.log
        = some [Call.read 512 512,
            Call.seek (((mbrPartition d.data partitionNum.toNat).StartingLBA * 512 : Nat) : Int),
            Call.read SECTOR_SIZE
              ((d.data.drop ((mbrPartition d.data partitionNum.toNat).StartingLBA * 512)).take
                SECTOR_SIZE).length] ∧
      (DumpBootToBin u (some d) partitionNum (some o)).file.map HANDLE.data
        = some (overlay SECTOR_SIZE u.vbr
            ((d.data.drop ((mbrPartition d.data partitionNum.toNat).StartingLBA * 512)).take
              SECTOR_SIZE))) ∧
    (isExtended (mbrPartition d.data partitionNum.toNat) = true →
      (mbrPartition d.data partitionNum.toNat).StartingLBA * 512 + 480 ≤ d.data.length →
      ebrSignature (d.data.drop ((mbrPartition d.data partitionNum.toNat).StartingLBA * 512))
        = 0xAA55 →
      (crtPartImage u (some d) partitionNum (some o)).ret = some 0 ∧
      (∃ l, (crtPartImage u (some d) partitionNum (some o)).drive.map HANDLE.log
        = some ([Call.read 512 512,
            Call.seek (((mbrPartition d.data partitionNum.toNat).StartingLBA * 512 : Nat) : Int),
            Call.read 480 480,
            Call.seek (((mbrPartition d.data partitionNum.toNat).StartingLBA * 512 + 512
              : Nat) : Int),
            Call.read SECTOR_SIZE
              ((d.data.drop
                ((mbrPartition d.data partitionNum.toNat).StartingLBA * 512 + 512)).take
                SECTOR_SIZE).length] ++ l)) ∧
      (DumpBootToBin u (some d) partitionNum (some o)).ret = some 0 ∧
      (DumpBootToBin u (some d) partitionNum (some o)).drive.map HANDLE.log
        = some [Call.read 512 512,
            Call.seek (((mbrPartition d.data partitionNum.toNat).StartingLBA * 512 : Nat) : Int),
            Call.read 480 480,
            Call.seek (((mbrPartition d.data partitionNum.toNat).StartingLBA * 512 + 512
              : Nat) : Int),
            Call.read SECTOR_SIZE
              ((d.data.drop
                ((mbrPartition d.data partitionNum.toNat).StartingLBA * 512 + 512)).take
                SECTOR_SIZE).length] ∧
      (DumpBootToBin u (some d) partitionNum (some o)).file.map HANDLE.data
        = some (overlay SECTOR_SIZE u.vbr
            ((d.data.drop
              ((mbrPartition d.data partitionNum.toNat).StartingLBA * 512 + 512)).take
              SECTOR_SIZE))) := by
  have hf3 : fullFor 3 d.script := hds ▸ fullFor_nil 3
  have hf1 : fullFor 1 d.script := hds ▸ fullFor_nil 1
  have ht : d.script.tail = [] := by rw [hds]; rfl
  have ht3 : d.script.drop 3 = [] := by rw [hds]; rfl
  constructor
  · intro hprim
    rw [crtPartImage_primary u d partitionNum (some o) hf1 hlen hsig h0 h3 hne hprim,
      DumpBootToBin_primary u d partitionNum (some o) hf1 hlen hsig h0 h3 hne hprim,
      DumpBootToBin_emit_nil u _ _ o ht hos (Int.ofNat_nonneg _)]
    refine ⟨crtPartImage_emit_ret u _ _ _ _ _ _ o ht hos (Int.ofNat_nonneg _), ?_, ?_⟩
    · obtain ⟨l, hl⟩ :=
        crtPartImage_emit_log u
          { data := d.data, pos := 512, script := d.script.tail, log := [Call.read 512 512] }
          ((d.data.take 512).set (slotOffset partitionNum.toNat) 0x80) (overlay 512 u.ebr [])
          false (mbrPartition d.data partitionNum.toNat)
          (((mbrPartition d.data partitionNum.toNat).StartingLBA * 512 : Nat) : Int) o
          ht hos (Int.ofNat_nonneg _)
      rw [Int.toNat_ofNat] at hl
      exact ⟨l, hl⟩
    · simp only [Int.toNat_ofNat, Option.map]
      exact ⟨trivial, rfl, trivial⟩
  · intro hext hebr hesig
    rw [crtPartImage_logical u d partitionNum (some o) hf3 hlen hsig h0 h3 hne hext hebr,
      if_neg (not_not.mpr hesig),
      DumpBootToBin_logical u d partitionNum (some o) hf3 hlen hsig h0 h3 hne hext hebr,
      if_neg (not_not.mpr hesig),
      DumpBootToBin_emit_nil u _ _ o ht3 hos (Int.ofNat_nonneg _)]
    refine ⟨crtPartImage_emit_ret u _ _ _ _ _ _ o ht3 hos (Int.ofNat_nonneg _), ?_, ?_⟩
    · obtain ⟨l, hl⟩ :=
        crtPartImage_emit_log u
          { data := d.data,
            pos := (mbrPartition d.data partitionNum.toNat).StartingLBA * 512 + 480,
            script := d.script.drop 3,
            log := [Call.read 512 512,
              Call.seek (((mbrPartition d.data partitionNum.toNat).StartingLBA * 512
                : Nat) : Int),
              Call.read 480 480] }
          (d.data.take 512)
          ((overlay 512 u.ebr ((d.data.drop
            ((mbrPartition d.data partitionNum.toNat).StartingLBA * 512)).take 480)).set
            446 0x80)
          true
          (ebrPartition ((overlay 512 u.ebr ((d.data.drop
            ((mbrPartition d.data partitionNum.toNat).StartingLBA * 512)).take 480)).set
            446 0x80))
          (((mbrPartition d.data partitionNum.toNat).StartingLBA * 512 + 512 : Nat) : Int) o
          ht3 hos (Int.ofNat_nonneg _)
      rw [Int.toNat_ofNat] at hl
      exact ⟨l, hl⟩
    · simp only [Int.toNat_ofNat, Option.map]
      exact ⟨trivial, rfl, trivial⟩

theorem vbr_offset_resolution_witness :
    (crtPartImage noUninit (some logicalDisk) 1 (some emptyFile)).ret = some 0 ∧
    (∃ l, (crtPartImage noUninit (some logicalDisk) 1 (some emptyFile)).drive.map HANDLE.log
      = some ([Call.read 512 512,
          Call.seek (((mbrPartition logicalDisk.data (1 : Int).toNat).StartingLBA * 512
            : Nat) : Int),
          Call.read 480 480,
          Call.seek (((mbrPartition logicalDisk.data (1 : Int).toNat).StartingLBA * 512 + 512
            : Nat) : Int),
          Call.read SECTOR_SIZE
            ((logicalDisk.data.drop
              ((mbrPartition logicalDisk.data (1 : Int).toNat).StartingLBA * 512 + 512)).take
              SECTOR_SIZE).length] ++ l)) ∧
    (DumpBootToBin noUninit (some logicalDisk) 1 (some emptyFile)).ret = some 0 ∧
    (DumpBootToBin noUninit (some logicalDisk) 1 (some emptyFile)).drive.map HANDLE.log
      = some [Call.read 512 512,
          Call.seek (((mbrPartition logicalDisk.data (1 : Int).toNat).StartingLBA * 512
            : Nat) : Int),
          Call.read 480 480,
          Call.seek (((mbrPartition logicalDisk.data (1 : Int).toNat).StartingLBA * 512 + 512
            : Nat) : Int),
          Call.read SECTOR_SIZE
            ((logicalDisk.data.drop
              ((mbrPartition logicalDisk.data (1 : Int).toNat).StartingLBA * 512 + 512)).take
              SECTOR_SIZE).length] ∧
    (DumpBootToBin noUninit (some logicalDisk) 1 (some emptyFile)).file.map HANDLE.data
      = some (overlay SECTOR_SIZE noUninit.vbr
          ((logicalDisk.data.drop
            ((mbrPartition logicalDisk.data (1 : Int).toNat).StartingLBA * 512 + 512)).take
            SECTOR_SIZE)) :=
  (vbr_offset_resolution noUninit logicalDisk emptyFile 1 rfl rfl
    (by rw [logicalDisk_length]; decide) logicalDisk_signature (by decide) (by decide)
    (by rw [logicalDisk_entry.2.1]; decide)).2 logicalDisk_entry.2.2
    (by rw [logicalDisk_entry.1, logicalDisk_length]; decide) logicalDisk_ebr.1

/-- C4, evaluated on `structEbrDisk` and `sectorEbrDisk`, index 1 (an extended
slot whose EBR is sector 1). On `structEbrDisk` the EBR sector ends in
`0x00, 0x00` and has `0x55, 0xAA` at bytes 478 and 479: `crtPartImage`,
`DumpBootToBin` and (with the disk as image file) `wrtImg_Disk_part` accept it
and return 0. On `sectorEbrDisk` the EBR sector ends in `0x55, 0xAA` and has
zeros at 478 and 479: the three operations print an invalid EBR signature
`0x0000` and return 1. The program reads `sizeof(EBR) = 480` bytes and tests
the word at byte 478, not the last two bytes of the sector. -/
theorem ebr_signature_not_at_sector_end :
    (byteAt structEbrDisk.data (512 + 510), byteAt structEbrDisk.data (512 + 511),
      byteAt structEbrDisk.data (512 + 478), byteAt structEbrDisk.data (512 + 479))
      = (0x00, 0x00, 0x55, 0xAA) ∧
    signature structEbrDisk.data = 0xAA55 ∧
    (crtPartImage noUninit (some structEbrDisk) 1 (some emptyFile)).ret = some 0 ∧
    (crtPartImage noUninit (some structEbrDisk) 1 (some emptyFile)).msgs = [] ∧
    (DumpBootToBin noUninit (some structEbrDisk) 1 (some emptyFile)).ret = some 0 ∧
    (DumpBootToBin noUninit (some structEbrDisk) 1 (some emptyFile)).msgs = [] ∧
    (wrtImg_Disk_part noUninit (some (blankDisk 2048)) 1 (some structEbrDisk)).ret = some 0 ∧
    (wrtImg_Disk_part noUninit (some (blankDisk 2048)) 1 (some structEbrDisk)).msgs = [] ∧
    (byteAt sectorEbrDisk.data (512 + 510), byteAt sectorEbrDisk.data (512 + 511),
      byteAt sectorEbrDisk.data (512 + 478), byteAt sectorEbrDisk.data (512 + 479))
      = (0x55, 0xAA, 0x00, 0x00) ∧
    (crtPartImage noUninit (some sectorEbrDisk) 1 (some emptyFile)).ret = some 1 ∧
    (crtPartImage noUninit (some sectorEbrDisk) 1 (some emptyFile)).msgs
      = [Msg.invalidEBRSignature 0] ∧
    (DumpBootToBin noUninit (some sectorEbrDisk) 1 (some emptyFile)).ret = some 1 ∧
    (DumpBootToBin noUninit (some sectorEbrDisk) 1 (some emptyFile)).msgs
      = [Msg.invalidEBRSignature 0] ∧
    (wrtImg_Disk_part noUninit (some (blankDisk 2048)) 1 (some sectorEbrDisk)).ret = some 1 ∧
    (wrtImg_Disk_part noUninit (some (blankDisk 2048)) 1 (some sectorEbrDisk)).msgs
      = [Msg.invalidEBRSignature 0] := by
  decide!
theorem set_append_left_446 (a b : List BYTE) (v : BYTE) (h : a.length = 480) :
    (a ++ b).set 446 v = a.set 446 v ++ b := by
  rw [List.set_append]
  rw [if_pos (by omega)]

/-- The image that `crtPartImage` writes for a logical partition, when no call
fails: after the MBR and the zero sectors come 512 bytes sent from `&ebr`, of
which the first 480 are the EBR as read (its boot indicator set to `0x80`) and
the other 32 are what lies after the structure in memory. -/
theorem crtPartImage_logical_image (u : Uninit) (d o : Medium) (partitionNum : Int)
    (hds : d.script = []) (hos : o.script = []) (hlen : 512 ≤ d.data.length)
    (hsig : signature d.data = 0xAA55) (h0 : 0 ≤ partitionNum) (h3 : partitionNum ≤ 3)
    (hne : (mbrPartition d.data partitionNum.toNat).totalSectors ≠ 0)
    (hext : isExtended (mbrPartition d.data partitionNum.toNat) = true)
    (hebr : (mbrPartition d.data partitionNum.toNat).StartingLBA * 512 + 480 ≤ d.data.length)
    (hesig : ebrSignature
      (d.data.drop ((mbrPartition d.data partitionNum.toNat).StartingLBA * 512)) = 0xAA55) :
    ∃ (m : Nat) (hO : HANDLE),
      m ≤ (ebrPartition (d.data.drop
            ((mbrPartition d.data partitionNum.toNat).StartingLBA * 512))).totalSectors * 512
          - 512 ∧
      (crtPartImage u (some d) partitionNum (some o)).ret = some 0 ∧
      (crtPartImage u (some d) partitionNum (some o)).file = some hO ∧
      hO.data = d.data.take 512
        ++ List.replicate
            (subDWORD (ebrPartition (d.data.drop
              ((mbrPartition d.data partitionNum.toNat).StartingLBA * 512))).StartingLBA 1
              * SECTOR_SIZE) 0
        ++ (((d.data.drop ((mbrPartition d.data partitionNum.toNat).StartingLBA * 512)).take
              480).set 446 0x80
            ++ (overlay 512 u.ebr ((d.data.drop
              ((mbrPartition d.data partitionNum.toNat).StartingLBA * 512)).take 480)).drop 480)
        ++ overlay SECTOR_SIZE u.vbr
            ((d.data.drop ((mbrPartition d.data partitionNum.toNat).StartingLBA * 512 + 512)).take
              SECTOR_SIZE)
        ++ (d.data.drop ((mbrPartition d.data partitionNum.toNat).StartingLBA * 512 + 512
              + ((d.data.drop
                  ((mbrPartition d.data partitionNum.toNat).StartingLBA * 512 + 512)).take
                  SECTOR_SIZE).length)).take m := by
  have hf : fullFor 3 d.script := hds ▸ fullFor_nil 3
  rw [crtPartImage_logical u d partitionNum (some o) hf hlen hsig h0 h3 hne hext hebr,
    if_neg (not_not.mpr hesig)]
  generalize (mbrPartition d.data partitionNum.toNat).StartingLBA * 512 = off at hebr hesig ⊢
  have hl : ((d.data.drop off).take 480).length = 480 := length_take_drop d.data off 480 hebr
  obtain ⟨m, hO, hm, -, hret, hfile, hdata⟩ :=
    crtPartImage_emit_image u
      { data := d.data, pos := off + 480, script := d.script.drop 3,
        log := [Call.read 512 512, Call.seek ((off : Nat) : Int), Call.read 480 480] }
      (d.data.take 512)
      ((overlay 512 u.ebr ((d.data.drop off).take 480)).set 446 0x80)
      true
      (ebrPartition ((overlay 512 u.ebr ((d.data.drop off).take 480)).set 446 0x80))
      (off + 512) o
      (by rw [hds]; rfl) hos (ebrPartition_totalSectors_lt _)
  rw [ebrPartition_set_totalSectors, ebrPartition_overlay u.ebr _ hl] at hm
  rw [ebrPartition_set_StartingLBA, ebrPartition_overlay u.ebr _ hl] at hdata
  refine ⟨m, hO, hm, hret, hfile, ?_⟩
  rw [hdata]
  simp only [cond_true]
  rw [← set_append_left_446 _ _ _ hl, ← overlay_ebr_split u.ebr _ hl]

/-- C8, as the code has it: when no call fails, the image that `crtPartImage`
writes starts with the 512-byte MBR, followed by `(L - 1) mod 2^32` zero-filled
sectors, where `L` is the `StartingLBA` of the resolved entry: the MBR entry
for a primary partition, the first entry of the EBR for a logical one. For a
primary partition with `StartingLBA ≥ 1` that is `offset / 512 - 1` sectors,
`offset` being the byte offset of the boot sector, and the boot sector follows
the padding; with `StartingLBA = 0` it is `2^32 - 1` sectors. For a logical
partition the 480 bytes of the EBR that the program holds (boot indicator of
its first entry set to `0x80`) follow the padding immediately; they open a
block of 512 bytes, and the boot sector follows that block. -/
theorem image_padding (u : Uninit) (d o : Medium) (partitionNum : Int)
    (hds : d.script = []) (hos : o.script = []) (hlen : 512 ≤ d.data.length)
    (hsig : signature d.data = 0xAA55) (h0 : 0 ≤ partitionNum) (h3 : partitionNum ≤ 3)
    (hne : (mbrPartition d.data partitionNum.toNat).totalSectors ≠ 0) :
    (isExtended (mbrPartition d.data partitionNum.toNat) = false →
      (∃ (m : Nat) (hO : HANDLE),
        (crtPartImage u (some d) partitionNum (some o)).ret = some 0 ∧
        (crtPartImage u (some d) partitionNum (some o)).file = some hO ∧
        hO.data = (d.data.take 512).set (slotOffset partitionNum.toNat) 0x80
          ++ List.replicate
              (subDWORD (mbrPartition d.data partitionNum.toNat).StartingLBA 1 * SECTOR_SIZE) 0
          ++ overlay SECTOR_SIZE u.vbr
              ((d.data.drop ((mbrPartition d.data partitionNum.toNat).StartingLBA * 512)).take
                SECTOR_SIZE)
          ++ (d.data.drop ((mbrPartition d.data partitionNum.toNat).StartingLBA * 512
                + ((d.data.drop
                    ((mbrPartition d.data partitionNum.toNat).StartingLBA * 512)).take
                    SECTOR_SIZE).length)).take m) ∧
      (1 ≤ (mbrPartition d.data partitionNum.toNat).StartingLBA →
        subDWORD (mbrPartition d.data partitionNum.toNat).StartingLBA 1
          = (mbrPartition d.data partitionNum.toNat).StartingLBA * 512 / 512 - 1) ∧
      ((mbrPartition d.data partitionNum.toNat).StartingLBA = 0 →
        subDWORD (mbrPartition d.data partitionNum.toNat).StartingLBA 1 = 4294967295)) ∧
    (isExtended (mbrPartition d.data partitionNum.toNat) = true →
      (mbrPartition d.data partitionNum.toNat).StartingLBA * 512 + 480 ≤ d.data.length →
      ebrSignature (d.data.drop ((mbrPartition d.data partitionNum.toNat).StartingLBA * 512))
        = 0xAA55 →
      ∃ (m : Nat) (hO : HANDLE) (tail : List BYTE),
        tail.length = 32 ∧
        (crtPartImage u (some d) partitionNum (some o)).ret = some 0 ∧
        (crtPartImage u (some d) partitionNum (some o)).file = some hO ∧
        hO.data = d.data.take 512
          ++ List.replicate
              (subDWORD (ebrPartition (d.data.drop
                ((mbrPartition d.data partitionNum.toNat).StartingLBA * 512))).StartingLBA 1
                * SECTOR_SIZE) 0
          ++ (((d.data.drop ((mbrPartition d.data partitionNum.toNat).StartingLBA * 512)).take
                480).set 446 0x80 ++ tail)
          ++ overlay SECTOR_SIZE u.vbr
              ((d.data.drop
                ((mbrPartition d.data partitionNum.toNat).StartingLBA * 512 + 512)).take
                SECTOR_SIZE)
          ++ (d.data.drop ((mbrPartition d.data partitionNum.toNat).StartingLBA * 512 + 512
                + ((d.data.drop
                    ((mbrPartition d.data partitionNum.toNat).StartingLBA * 512 + 512)).take
                    SECTOR_SIZE).length)).take m) := by
  constructor
  · intro hprim
    refine ⟨?_, ?_, ?_⟩
    · obtain ⟨m, hO, -, hret, hfile, hdata⟩ :=
        crtPartImage_primary_image u d o partitionNum hds hos hlen hsig h0 h3 hne hprim
      exact ⟨m, hO, hret, hfile, hdata⟩
    · intro h1
      rw [subDWORD_one_of_pos _ h1 (mbrPartition_StartingLBA_lt _ _), Nat.mul_div_cancel _
        (by decide)]
    · intro hz
      rw [hz]
      exact subDWORD_one_zero
  · intro hext hebr hesig
    obtain ⟨m, hO, -, hret, hfile, hdata⟩ :=
      crtPartImage_logical_image u d o partitionNum hds hos hlen hsig h0 h3 hne hext hebr hesig
    refine ⟨m, hO, _, ?_, hret, hfile, hdata⟩
    rw [List.length_drop, overlay_length]

theorem image_padding_witness :
    ∃ (m : Nat) (hO : HANDLE) (tail : List BYTE),
      tail.length = 32 ∧
      (crtPartImage noUninit (some logicalDisk) 1 (some emptyFile)).ret = some 0 ∧
      (crtPartImage noUninit (some logicalDisk) 1 (some emptyFile)).file = some hO ∧
      hO.data = logicalDisk.data.take 512
        ++ List.replicate
            (subDWORD (ebrPartition (logicalDisk.data.drop
              ((mbrPartition logicalDisk.data (1 : Int).toNat).StartingLBA * 512))).StartingLBA 1
              * SECTOR_SIZE) 0
        ++ (((logicalDisk.data.drop
              ((mbrPartition logicalDisk.data (1 : Int).toNat).StartingLBA * 512)).take
              480).set 446 0x80 ++ tail)
        ++ overlay SECTOR_SIZE noUninit.vbr
            ((logicalDisk.data.drop
              ((mbrPartition logicalDisk.data (1 : Int).toNat).StartingLBA * 512 + 512)).take
              SECTOR_SIZE)
        ++ (logicalDisk.data.drop
              ((mbrPartition logicalDisk.data (1 : Int).toNat).StartingLBA * 512 + 512
              + ((logicalDisk.data.drop
                  ((mbrPartition logicalDisk.data (1 : Int).toNat).StartingLBA * 512 + 512)).take
                  SECTOR_SIZE).length)).take m :=
  (image_padding noUninit logicalDisk emptyFile 1 rfl rfl
    (by rw [logicalDisk_length]; decide) logicalDisk_signature (by decide) (by decide)
    (by rw [logicalDisk_entry.2.1]; decide)).2 logicalDisk_entry.2.2
    (by rw [logicalDisk_entry.1, logicalDisk_length]; decide) logicalDisk_ebr.1

/-- C8, counterexample: on `logicalDisk` slot 1 is an extended entry with
`StartingLBA = 1`; the program reads the EBR at byte 512 and the boot sector
at byte `1 * 512 + 512 = 1024`, sector index 2. The first entry of the EBR
has `StartingLBA = 3`. The image has 2560 bytes and holds `3 - 1 = 2` zero
sectors after the MBR, not `2 - 1 = 1`: bytes 512 to 1535 are zero, the 480
bytes of the EBR (signature `0xAA55` at 478) start at byte 1536 and the boot
sector (`0xEB`) at byte 2048. -/
theorem image_padding_counterexample :
    (crtPartImage noUninit (some logicalDisk) 1 (some emptyFile)).ret = some 0 ∧
    (crtPartImage noUninit (some logicalDisk) 1 (some emptyFile)).msgs = [] ∧
    (crtPartImage noUninit (some logicalDisk) 1 (some emptyFile)).drive.map HANDLE.log
      = some [Call.read 512 512, Call.seek 512, Call.read 480 480, Call.seek 1024,
          Call.read 512 512] ∧
    (ebrPartition (logicalDisk.data.drop 512)).StartingLBA = 3 ∧
    (1024 / 512 - 1 : Nat) = 1 ∧
    (crtPartImage noUninit (some logicalDisk) 1 (some emptyFile)).file.map
        (fun h => (h.data.length, (h.data.drop 512).take 1024 == List.replicate 1024 0,
          ebrSignature (h.data.drop 1024), ebrSignature (h.data.drop 1536),
          (ebrPartition (h.data.drop 1536)).bootIndicator, byteAt h.data 2048))
      = some (2560, true, 0, 0xAA55, 0x80, 0xEB) := by
  decide!

/-- C12, evaluated on `farLogicalDisk` (slot 1 extended with `StartingLBA = 2`,
EBR entry with `StartingLBA = 1`, an EBR the program accepts): `crtPartImage`
reads the EBR at byte 1024 and the boot sector at byte `2 * 512 + 512 = 1536`
of the source. Restoring the image it wrote, `wrtImg_Disk_part` finds the same
MBR and the same 480 bytes of EBR, writes them at bytes 0 and 512, seeks the
destination to `(1 + 1) * 512 = 1024` and writes the boot sector there: what
it writes at 1024 to 1535 holds the `0xEB` bytes of the boot sector, and byte
1536 of the destination, where the source has its boot sector, stays zero. -/
theorem restore_geometry_disagrees :
    (crtPartImage noUninit (some farLogicalDisk) 1 (some emptyFile)).ret = some 0 ∧
    (crtPartImage noUninit (some farLogicalDisk) 1 (some emptyFile)).msgs = [] ∧
    (crtPartImage noUninit (some farLogicalDisk) 1 (some emptyFile)).drive.map HANDLE.log
      = some [Call.read 512 512, Call.seek 1024, Call.read 480 480, Call.seek 1536,
          Call.read 512 512] ∧
    (roundTrip noUninit farLogicalDisk (blankDisk 2048) 1).ret = some 0 ∧
    (roundTrip noUninit farLogicalDisk (blankDisk 2048) 1).msgs = [] ∧
    (roundTrip noUninit farLogicalDisk (blankDisk 2048) 1).file.map HANDLE.log
      = some [Call.read 512 512, Call.read 480 480, Call.read 512 512] ∧
    (roundTrip noUninit farLogicalDisk (blankDisk 2048) 1).drive.map HANDLE.log
      = some [Call.write 512 512, Call.write 512 512, Call.seek 1024, Call.write 512 512] ∧
    (roundTrip noUninit farLogicalDisk (blankDisk 2048) 1).drive.map
        (fun h => (byteAt h.data 1056, byteAt h.data 1535, byteAt h.data 1536,
          byteAt h.data 2047))
      = some (0xEB, 0xEB, 0, 0) ∧
    (byteAt farLogicalDisk.data 1536, byteAt farLogicalDisk.data 2047) = (0xEB, 0xEB) := by
  decide!

end Wddx32
